import Mathlib

/-!
# gitlab-mcp-server: parameter extraction, tool handlers and the tool registry

A shallow embedding of `pkg/gitlab` (issues.go, merge_requests.go, repositories.go,
search.go, users.go, repository_resource.go, server.go).

* Go's `(T, error)` results are pairs `T × Option String`: the error is its message,
  and the first component is what the Go function really returns next to the error
  (callers such as `CreateIssue` use it even when they drop the error).
* `fmt.Errorf("...: %w", err)` and `%v` are the text before the verb followed by the
  message of `err`.
* The argument map `map[string]interface{}` holds JSON-decoded values.
* A `float64` is its IEEE 754 binary64 bit pattern (sign, biased exponent, fraction).
-/

namespace Gitlab

/-! ## float64 -/

/-- An IEEE 754 binary64 value: sign bit, 11-bit biased exponent, 52-bit fraction. -/
structure Float64 where
  sign : Bool
  expo : Fin 2048
  frac : Fin 4503599627370496
deriving DecidableEq, Repr

namespace Float64

/-- The zero value of `float64` (`+0`). -/
def zero : Float64 := ⟨false, 0, 0⟩

/-- NaN: exponent all ones, fraction non-zero. -/
def isNaN (x : Float64) : Bool := x.expo.val == 2047 && x.frac.val != 0

/-- Neither NaN nor an infinity. -/
def isFinite (x : Float64) : Bool := x.expo.val != 2047

/-- Both `+0` and `-0`. -/
def isZero (x : Float64) : Bool := x.expo.val == 0 && x.frac.val == 0

/-- Go's `==` on `float64`: NaN equals nothing, `-0 == +0`, otherwise the bits agree. -/
def eq (x y : Float64) : Bool :=
  if x.isNaN || y.isNaN then false
  else if x.isZero && y.isZero then true
  else decide (x = y)

/-- The significand as a natural number: the hidden bit is set for normal numbers. -/
def significand (x : Float64) : Nat :=
  if x.expo.val = 0 then x.frac.val else 4503599627370496 + x.frac.val

/-- The exponent of the unit in the last place is `scale - 1075`. -/
def scale (x : Float64) : Nat :=
  if x.expo.val = 0 then 1 else x.expo.val

/-- The magnitude with the fraction discarded (for finite `x`). -/
def truncMag (x : Float64) : Nat :=
  if 1075 ≤ x.scale then x.significand <<< (x.scale - 1075)
  else x.significand >>> (1075 - x.scale)

/-- The integer obtained by discarding the fraction of a finite `x`. -/
def trunc (x : Float64) : Int :=
  if x.sign then -(x.truncMag : Int) else (x.truncMag : Int)

/-- The rational number a finite `x` denotes. -/
def toRat (x : Float64) : ℚ :=
  (if x.sign then -1 else 1) * (x.significand : ℚ) * (2 : ℚ) ^ ((x.scale : Int) - 1075)

end Float64

/-- What the Go implementation leaves open: the width of `int`, and the result of
converting to `int` a `float64` that `int` cannot represent (the language leaves that
value implementation-dependent). -/
structure Platform where
  intBits : Nat
  convOutOfRange : Float64 → Int

/-- The conversion `int(v)` of a `float64`: truncation toward zero when `int` can
represent the result. -/
def Platform.toInt (pf : Platform) (v : Float64) : Int :=
  if v.isFinite ∧ -(2 ^ (pf.intBits - 1) : Int) ≤ v.trunc ∧ v.trunc < (2 ^ (pf.intBits - 1) : Int)
  then v.trunc else pf.convOutOfRange v

/-! ## Dynamically typed arguments -/

/-- A JSON-decoded `interface{}` value. -/
inductive Value where
  | null
  | bool (b : Bool)
  | number (f : Float64)
  | string (s : String)
  | array (items : List Value)
  | object (fields : List (String × Value))

/-- What `%T` prints for a value. -/
def Value.typeName : Value → String
  | .null => "<nil>"
  | .bool _ => "bool"
  | .number _ => "float64"
  | .string _ => "string"
  | .array _ => "[]interface \x7b\x7d"
  | .object _ => "map[string]interface \x7b\x7d"

/-- The argument map `map[string]interface{}` as an association list; the first
binding of a key is the one the map holds. -/
abbrev Arguments := List (String × Value)

/-- The lookup `m[k]` with its `ok` flag. -/
def Arguments.get (m : Arguments) (k : String) : Option Value := List.lookup k m

/-- The map without key `k`. -/
def Arguments.erase (m : Arguments) (k : String) : Arguments :=
  m.filter (fun kv => !(kv.1 == k))

/-- The request `mcp.CallToolRequest`: the tool name and the argument map. -/
structure CallToolRequest where
  name : String := ""
  arguments : Arguments

/-- A Go type that the generic extractors are instantiated at. -/
class ParamType (T : Type) where
  /-- The zero value `var zero T`. -/
  zero : T
  /-- What `%T` prints for a `T`. -/
  typeName : String
  /-- The type assertion `v.(T)`. -/
  assert : Value → Option T
  /-- Go's `==` on `T`. -/
  eq : T → T → Bool

instance : ParamType String where
  zero := ""
  typeName := "string"
  assert := fun v => match v with
    | .string s => some s
    | _ => none
  eq := fun a b => decide (a = b)

instance : ParamType Float64 where
  zero := Float64.zero
  typeName := "float64"
  assert := fun v => match v with
    | .number f => some f
    | _ => none
  eq := Float64.eq

instance : ParamType Bool where
  zero := false
  typeName := "bool"
  assert := fun v => match v with
    | .bool b => some b
    | _ => none
  eq := fun a b => decide (a = b)

/-- The three parameter kinds of a tool schema. -/
inductive Kind where
  | string
  | number
  | boolean
deriving DecidableEq, Repr

/-- The Go type a parameter of the kind is extracted at. -/
def Kind.carrier : Kind → Type
  | .string => String
  | .number => Float64
  | .boolean => Bool

instance Kind.paramType : (k : Kind) → ParamType k.carrier
  | .string => inferInstanceAs (ParamType String)
  | .number => inferInstanceAs (ParamType Float64)
  | .boolean => inferInstanceAs (ParamType Bool)

/-- The value of kind `k` as a dynamically typed value. -/
def Kind.inject : (k : Kind) → k.carrier → Value
  | .string => fun s => Value.string s
  | .number => fun f => Value.number f
  | .boolean => fun b => Value.bool b

/-- The function `requiredParam[T]` of issues.go: presence check, type check, non-zero check. -/
def requiredParam (T : Type) [ParamType T] (r : CallToolRequest) (p : String) :
    T × Option String :=
  match r.arguments.get p with
  | none => (ParamType.zero, some ("missing required parameter: " ++ p))
  | some v =>
    match (ParamType.assert v : Option T) with
    | none =>
      (ParamType.zero, some ("parameter " ++ p ++ " is not of type " ++ ParamType.typeName T))
    | some x =>
      if ParamType.eq x (ParamType.zero : T) then
        (ParamType.zero, some ("missing required parameter: " ++ p))
      else (x, none)

/-- The function `RequiredInt` of issues.go. -/
def RequiredInt (pf : Platform) (r : CallToolRequest) (p : String) : Int × Option String :=
  match requiredParam Float64 r p with
  | (_, some err) => (0, some err)
  | (v, none) => (pf.toInt v, none)

/-- The function `OptionalParam[T]` of issues.go. -/
def OptionalParam (T : Type) [ParamType T] (r : CallToolRequest) (p : String) :
    T × Option String :=
  match r.arguments.get p with
  | none => (ParamType.zero, none)
  | some v =>
    match (ParamType.assert v : Option T) with
    | none =>
      (ParamType.zero,
        some ("parameter " ++ p ++ " is not of type " ++ ParamType.typeName T ++ ", is "
          ++ v.typeName))
    | some x => (x, none)

/-- The function `RequiredString` of repositories.go. -/
def RequiredString (r : CallToolRequest) (p : String) : String × Option String :=
  match r.arguments.get p with
  | none => ("", some ("missing required parameter: " ++ p))
  | some val =>
    match val with
    | .string strVal => (strVal, none)
    | _ => ("", some ("parameter " ++ p ++ " is not a string"))

/-! ## Upstream entities and options (the fields the handlers touch) -/

structure IssueAuthor where
  name : String
deriving DecidableEq, Repr

structure Issue where
  iid : Int
  title : String
  state : String
  author : Option IssueAuthor
deriving DecidableEq, Repr

structure BasicUser where
  name : String
deriving DecidableEq, Repr

structure MergeRequest where
  iid : Int
  title : String
  description : String
  state : String
  author : Option BasicUser
deriving DecidableEq, Repr

structure Project where
  name : String
  pathWithNamespace : String
  webURL : String
deriving DecidableEq, Repr

structure Note where
  id : Int
  body : String
deriving DecidableEq, Repr

structure User where
  id : Int
  username : String
  name : String
  email : String
  bio : String
deriving DecidableEq, Repr

structure Group where
  id : Int
  name : String
deriving DecidableEq, Repr

structure GroupMember where
  id : Int
deriving DecidableEq, Repr

structure ProjectMember where
  id : Int
  accessLevel : Int
deriving DecidableEq, Repr

structure File where
  content : String
deriving DecidableEq, Repr

/-- The `*gitlab.Response` next to an entity: status code and what `io.ReadAll(resp.Body)` gives. -/
structure Response where
  statusCode : Nat
  body : Except String String

structure ListProjectIssuesOptions where
  state : Option String := none
  orderBy : Option String := none
  sort : Option String := none
  search : Option String := none
deriving DecidableEq, Repr

structure CreateIssueOptions where
  title : Option String := none
  description : Option String := none
deriving DecidableEq, Repr

structure UpdateIssueOptions where
  title : Option String := none
  description : Option String := none
  stateEvent : Option String := none
deriving DecidableEq, Repr

structure CreateIssueNoteOptions where
  body : Option String := none
deriving DecidableEq, Repr

structure ListProjectMergeRequestsOptions where
  state : Option String := none
  orderBy : Option String := none
  sort : Option String := none
deriving DecidableEq, Repr

structure CreateMergeRequestOptions where
  title : Option String := none
  description : Option String := none
  sourceBranch : Option String := none
  targetBranch : Option String := none
deriving DecidableEq, Repr

structure CreateMergeRequestNoteOptions where
  body : Option String := none
deriving DecidableEq, Repr

structure UpdateMergeRequestOptions where
  title : Option String := none
  description : Option String := none
  stateEvent : Option String := none
deriving DecidableEq, Repr

structure ListProjectsOptions where
  owned : Option Bool := none
  search : Option String := none
  orderBy : Option String := none
  sort : Option String := none
deriving DecidableEq, Repr

structure ListUsersOptions where
  username : Option String := none
deriving DecidableEq, Repr

structure ListGroupsOptions where
  perPage : Int := 0
  allAvailable : Option Bool := none
deriving DecidableEq, Repr

structure ListMembersOptions where
  perPage : Int := 0
deriving DecidableEq, Repr

structure GetFileOptions where
  ref : Option String := none
deriving DecidableEq, Repr

/-! ## The upstream client and the record of what a handler did -/

/-- One operation of a sub-service of the upstream client, with its arguments. -/
inductive UpstreamCall where
  | issuesGetIssue (pid : String) (issue : Int)
  | issuesListProjectIssues (pid : String) (opt : ListProjectIssuesOptions)
  | issuesCreateIssue (pid : String) (opt : CreateIssueOptions)
  | issuesUpdateIssue (pid : String) (issue : Int) (opt : UpdateIssueOptions)
  | notesListIssueNotes (pid : String) (issue : Int)
  | notesCreateIssueNote (pid : String) (issue : Int) (opt : CreateIssueNoteOptions)
  | notesListMergeRequestNotes (pid : String) (mergeRequest : Int)
  | notesCreateMergeRequestNote (pid : String) (mergeRequest : Int)
      (opt : CreateMergeRequestNoteOptions)
  | mergeRequestsGetMergeRequest (pid : String) (mergeRequest : Int)
  | mergeRequestsListProjectMergeRequests (pid : String) (opt : ListProjectMergeRequestsOptions)
  | mergeRequestsCreateMergeRequest (pid : String) (opt : CreateMergeRequestOptions)
  | mergeRequestsUpdateMergeRequest (pid : String) (mergeRequest : Int)
      (opt : UpdateMergeRequestOptions)
  | searchProjects (query : String)
  | searchMergeRequests (query : String)
  | searchUsers (query : String)
  | projectsListProjects (opt : ListProjectsOptions)
  | usersCurrentUser
  | usersListUsers (opt : ListUsersOptions)
  | groupsListGroups (opt : ListGroupsOptions)
  | groupsListGroupMembers (gid : Int) (opt : ListMembersOptions)
  | projectMembersListProjectMembers (pid : String) (opt : ListMembersOptions)
  | repositoryFilesGetFile (pid : String) (fileName : String) (opt : GetFileOptions)
deriving DecidableEq, Repr

/-- What a handler does that is visible outside it. -/
inductive Event where
  | getClient
  | upstream (call : UpstreamCall)
deriving DecidableEq, Repr

/-- How a Go function with result `(*R, error)` ends: it returns its pair, or it panics. -/
inductive Outcome (ρ : Type) where
  | ret (result : Option ρ) (err : Option String)
  | panic (msg : String)
deriving DecidableEq, Repr

/-- A finished invocation: the events in order and how it ended. -/
structure Run (ρ : Type) where
  trace : List Event
  outcome : Outcome ρ
deriving DecidableEq, Repr

/-- A piece of a handler body: the events so far, and either the handler has ended
(`Sum.inl`, an early `return` or a panic) or it goes on with a value (`Sum.inr`). -/
structure Exec (ρ α : Type) where
  trace : List Event
  next : Outcome ρ ⊕ α

namespace Exec

variable {ρ α β : Type}

def pure (a : α) : Exec ρ α := ⟨[], .inr a⟩

def bind (m : Exec ρ α) (f : α → Exec ρ β) : Exec ρ β :=
  match m.next with
  | .inl o => ⟨m.trace, .inl o⟩
  | .inr a => ⟨m.trace ++ (f a).trace, (f a).next⟩

instance : Monad (Exec ρ) where
  pure := Exec.pure
  bind := Exec.bind

/-- End the handler here with the outcome `o`. -/
def done (o : Outcome ρ) : Exec ρ α := ⟨[], .inl o⟩

/-- The statement `return nil, err`. -/
def fail (err : String) : Exec ρ α := done (.ret none (some err))

/-- The statement `panic(msg)`. -/
def panic (msg : String) : Exec ρ α := done (.panic msg)

/-- Record an event and go on with `a`. -/
def emit (e : Event) (a : α) : Exec ρ α := ⟨[e], .inr a⟩

/-- The check `if err != nil` after a call, whose body is `return nil, err`. -/
def orFail (x : α × Option String) : Exec ρ α :=
  match x with
  | (_, some err) => fail err
  | (a, none) => pure a

/-- The check `if err != nil` after a call, whose body is
`return nil, fmt.Errorf(pre+"%w", err)`. -/
def orFailWrap (pre : String) (x : Except String α) : Exec ρ α :=
  match x with
  | .error err => fail (pre ++ err)
  | .ok a => pure a

/-- The computation `m` after the event `e` has happened. -/
def after (e : Event) (m : Exec ρ α) : Exec ρ α := ⟨e :: m.trace, m.next⟩

/-- The whole body: its events and its outcome. -/
def run (m : Exec ρ (Outcome ρ)) : Run ρ :=
  match m.next with
  | .inl o => ⟨m.trace, o⟩
  | .inr o => ⟨m.trace, o⟩

end Exec

/-- The reply of an upstream operation `(entity, resp, err)`: the error, or the entity
with its response. -/
abbrev Reply (α : Type) := Except String (α × Response)

structure IssuesService where
  getFunc : String → Int → Reply Issue
  listFunc : String → ListProjectIssuesOptions → Reply (List Issue)
  createFunc : String → CreateIssueOptions → Reply Issue
  updateFunc : String → Int → UpdateIssueOptions → Reply Issue

structure NotesService where
  listIssueNotesFunc : String → Int → Reply (List Note)
  createIssueNoteFunc : String → Int → CreateIssueNoteOptions → Reply Note
  listMergeRequestNotesFunc : String → Int → Reply (List Note)
  createMergeRequestNoteFunc : String → Int → CreateMergeRequestNoteOptions → Reply Note

structure MergeRequestsService where
  getFunc : String → Int → Reply MergeRequest
  listFunc : String → ListProjectMergeRequestsOptions → Reply (List MergeRequest)
  createFunc : String → CreateMergeRequestOptions → Reply MergeRequest
  updateFunc : String → Int → UpdateMergeRequestOptions → Reply MergeRequest

structure SearchService where
  searchProjectFunc : String → Reply (List Project)
  searchMergeRequestFunc : String → Reply (List MergeRequest)
  searchUserFunc : String → Reply (List User)

structure ProjectsService where
  listFunc : ListProjectsOptions → Reply (List Project)

structure UsersService where
  currentUserFunc : Reply User
  listFunc : ListUsersOptions → Reply (List User)

structure GroupsService where
  listFunc : ListGroupsOptions → Reply (List Group)
  listMembersFunc : Int → ListMembersOptions → Reply (List GroupMember)

structure ProjectMembersService where
  listFunc : String → ListMembersOptions → Reply (List ProjectMember)

structure RepositoryFilesService where
  getFileFunc : String → String → GetFileOptions → Reply File

/-- The upstream client `*gitlab.Client`: one sub-service per resource. -/
structure Client where
  Issues : IssuesService
  Notes : NotesService
  MergeRequests : MergeRequestsService
  Search : SearchService
  Projects : ProjectsService
  Users : UsersService
  Groups : GroupsService
  ProjectMembers : ProjectMembersService
  RepositoryFiles : RepositoryFilesService

namespace IssuesService
variable {ρ : Type}

def GetIssue (s : IssuesService) (pid : String) (issue : Int) : Exec ρ (Reply Issue) :=
  Exec.emit (.upstream (.issuesGetIssue pid issue)) (s.getFunc pid issue)

def ListProjectIssues (s : IssuesService) (pid : String) (opt : ListProjectIssuesOptions) :
    Exec ρ (Reply (List Issue)) :=
  Exec.emit (.upstream (.issuesListProjectIssues pid opt)) (s.listFunc pid opt)

def CreateIssue (s : IssuesService) (pid : String) (opt : CreateIssueOptions) :
    Exec ρ (Reply Issue) :=
  Exec.emit (.upstream (.issuesCreateIssue pid opt)) (s.createFunc pid opt)

def UpdateIssue (s : IssuesService) (pid : String) (issue : Int) (opt : UpdateIssueOptions) :
    Exec ρ (Reply Issue) :=
  Exec.emit (.upstream (.issuesUpdateIssue pid issue opt)) (s.updateFunc pid issue opt)

end IssuesService

namespace NotesService
variable {ρ : Type}

def ListIssueNotes (s : NotesService) (pid : String) (issue : Int) : Exec ρ (Reply (List Note)) :=
  Exec.emit (.upstream (.notesListIssueNotes pid issue)) (s.listIssueNotesFunc pid issue)

def CreateIssueNote (s : NotesService) (pid : String) (issue : Int)
    (opt : CreateIssueNoteOptions) : Exec ρ (Reply Note) :=
  Exec.emit (.upstream (.notesCreateIssueNote pid issue opt)) (s.createIssueNoteFunc pid issue opt)

def ListMergeRequestNotes (s : NotesService) (pid : String) (mergeRequest : Int) :
    Exec ρ (Reply (List Note)) :=
  Exec.emit (.upstream (.notesListMergeRequestNotes pid mergeRequest))
    (s.listMergeRequestNotesFunc pid mergeRequest)

def CreateMergeRequestNote (s : NotesService) (pid : String) (mergeRequest : Int)
    (opt : CreateMergeRequestNoteOptions) : Exec ρ (Reply Note) :=
  Exec.emit (.upstream (.notesCreateMergeRequestNote pid mergeRequest opt))
    (s.createMergeRequestNoteFunc pid mergeRequest opt)

end NotesService

namespace MergeRequestsService
variable {ρ : Type}

def GetMergeRequest (s : MergeRequestsService) (pid : String) (mergeRequest : Int) :
    Exec ρ (Reply MergeRequest) :=
  Exec.emit (.upstream (.mergeRequestsGetMergeRequest pid mergeRequest))
    (s.getFunc pid mergeRequest)

def ListProjectMergeRequests (s : MergeRequestsService) (pid : String)
    (opt : ListProjectMergeRequestsOptions) : Exec ρ (Reply (List MergeRequest)) :=
  Exec.emit (.upstream (.mergeRequestsListProjectMergeRequests pid opt)) (s.listFunc pid opt)

def CreateMergeRequest (s : MergeRequestsService) (pid : String)
    (opt : CreateMergeRequestOptions) : Exec ρ (Reply MergeRequest) :=
  Exec.emit (.upstream (.mergeRequestsCreateMergeRequest pid opt)) (s.createFunc pid opt)

def UpdateMergeRequest (s : MergeRequestsService) (pid : String) (mergeRequest : Int)
    (opt : UpdateMergeRequestOptions) : Exec ρ (Reply MergeRequest) :=
  Exec.emit (.upstream (.mergeRequestsUpdateMergeRequest pid mergeRequest opt))
    (s.updateFunc pid mergeRequest opt)

end MergeRequestsService

namespace SearchService
variable {ρ : Type}

def Projects (s : SearchService) (query : String) : Exec ρ (Reply (List Project)) :=
  Exec.emit (.upstream (.searchProjects query)) (s.searchProjectFunc query)

def MergeRequests (s : SearchService) (query : String) : Exec ρ (Reply (List MergeRequest)) :=
  Exec.emit (.upstream (.searchMergeRequests query)) (s.searchMergeRequestFunc query)

def Users (s : SearchService) (query : String) : Exec ρ (Reply (List User)) :=
  Exec.emit (.upstream (.searchUsers query)) (s.searchUserFunc query)

end SearchService

def ProjectsService.ListProjects {ρ : Type} (s : ProjectsService) (opt : ListProjectsOptions) :
    Exec ρ (Reply (List Project)) :=
  Exec.emit (.upstream (.projectsListProjects opt)) (s.listFunc opt)

def UsersService.CurrentUser {ρ : Type} (s : UsersService) : Exec ρ (Reply User) :=
  Exec.emit (.upstream .usersCurrentUser) s.currentUserFunc

def UsersService.ListUsers {ρ : Type} (s : UsersService) (opt : ListUsersOptions) :
    Exec ρ (Reply (List User)) :=
  Exec.emit (.upstream (.usersListUsers opt)) (s.listFunc opt)

def GroupsService.ListGroups {ρ : Type} (s : GroupsService) (opt : ListGroupsOptions) :
    Exec ρ (Reply (List Group)) :=
  Exec.emit (.upstream (.groupsListGroups opt)) (s.listFunc opt)

def GroupsService.ListGroupMembers {ρ : Type} (s : GroupsService) (gid : Int)
    (opt : ListMembersOptions) : Exec ρ (Reply (List GroupMember)) :=
  Exec.emit (.upstream (.groupsListGroupMembers gid opt)) (s.listMembersFunc gid opt)

def ProjectMembersService.ListProjectMembers {ρ : Type} (s : ProjectMembersService)
    (pid : String) (opt : ListMembersOptions) : Exec ρ (Reply (List ProjectMember)) :=
  Exec.emit (.upstream (.projectMembersListProjectMembers pid opt)) (s.listFunc pid opt)

def RepositoryFilesService.GetFile {ρ : Type} (s : RepositoryFilesService) (pid : String)
    (fileName : String) (opt : GetFileOptions) : Exec ρ (Reply File) :=
  Exec.emit (.upstream (.repositoryFilesGetFile pid fileName opt)) (s.getFileFunc pid fileName opt)

/-! ## The client accessor, the protocol types and the library functions -/

/-- The `context.Context` a handler receives; the handlers only pass it on. -/
structure Context where
deriving DecidableEq, Repr

/-- What one invocation of the client accessor does: it returns a client, returns an
error, or panics. -/
inductive Acquired where
  | client (c : Client)
  | failed (err : String)
  | panicked (msg : String)

/-- The type `GetClientFn` of server.go. -/
abbrev GetClientFn := Context → Acquired

/-- The call `getClient(ctx)`. -/
def GetClientFn.call {ρ : Type} (getClient : GetClientFn) (ctx : Context) :
    Exec ρ (Except String Client) :=
  match getClient ctx with
  | .client c => Exec.emit .getClient (.ok c)
  | .failed err => Exec.emit .getClient (.error err)
  | .panicked msg => ⟨[.getClient], .inl (.panic msg)⟩

/-- The type `translations.TranslationHelperFunc`: key and default text to text. -/
abbrev TranslationHelperFunc := String → String → String

/-- The content block `mcp.TextContent`. -/
structure TextContent where
  type : String
  text : String
deriving DecidableEq, Repr

/-- The result `mcp.CallToolResult`. -/
structure CallToolResult where
  content : List TextContent
  isError : Bool := false
deriving DecidableEq, Repr

/-- The library function `mcp.NewToolResultText`. -/
def NewToolResultText (text : String) : CallToolResult := ⟨[⟨"text", text⟩], false⟩

/-- The library function `mcp.NewToolResultError`. -/
def NewToolResultError (text : String) : CallToolResult := ⟨[⟨"text", text⟩], true⟩

/-- The type `server.ToolHandlerFunc`. -/
abbrev ToolHandlerFunc := Context → CallToolRequest → Run CallToolResult

/-- One parameter of a tool schema (`mcp.WithString`, `mcp.WithNumber`, ...). -/
structure ToolParam where
  name : String
  kind : Kind
  required : Bool
  description : String
deriving DecidableEq, Repr

/-- The descriptor `mcp.Tool`. -/
structure Tool where
  name : String
  description : String
  params : List ToolParam
deriving DecidableEq, Repr

/-- The option `mcp.WithString(name, mcp.Required(), mcp.Description(d))`. -/
def WithStringRequired (name d : String) : ToolParam := ⟨name, .string, true, d⟩

/-- The option `mcp.WithString(name, mcp.Description(d))`. -/
def WithString (name d : String) : ToolParam := ⟨name, .string, false, d⟩

/-- The option `mcp.WithNumber(name, mcp.Required(), mcp.Description(d))`. -/
def WithNumberRequired (name d : String) : ToolParam := ⟨name, .number, true, d⟩

/-- Library behaviour the handlers rely on and the sources do not contain:
the platform, `strconv.Quote`, `base64.StdEncoding.DecodeString` and `json.Marshal` at the
types of the upstream entities. -/
structure Env where
  platform : Platform
  quote : String → String
  base64Decode : String → Except String String
  marshalIssue : Issue → Except String String
  marshalIssues : List Issue → Except String String
  marshalNote : Note → Except String String
  marshalNotes : List Note → Except String String
  marshalMergeRequest : MergeRequest → Except String String
  marshalMergeRequests : List MergeRequest → Except String String
  marshalProjects : List Project → Except String String
  marshalUsers : List User → Except String String

/-- The value of a run of decimal digits, `none` when a character is not a digit. -/
def decimalDigits (cs : List Char) : Option Nat :=
  cs.foldl
    (fun acc c =>
      match acc with
      | none => none
      | some n => if c.isDigit then some (n * 10 + (c.toNat - 48)) else none)
    (some 0)

/-- The function `strconv.Atoi`: an optional sign, then at least one decimal digit, and
the value must fit `int`. -/
def Atoi (env : Env) (s : String) : Int × Option String :=
  let invalidMsg := "strconv.Atoi: parsing " ++ env.quote s ++ ": invalid syntax"
  let rangeMsg := "strconv.Atoi: parsing " ++ env.quote s ++ ": value out of range"
  let bound : Nat := 2 ^ (env.platform.intBits - 1)
  let signed : Bool × List Char :=
    match s.data with
    | '-' :: cs => (true, cs)
    | '+' :: cs => (false, cs)
    | cs => (false, cs)
  if signed.2 = [] then (0, some invalidMsg)
  else
    match decimalDigits signed.2 with
    | none => (0, some invalidMsg)
    | some n =>
      if signed.1 then
        if n ≤ bound then (-(n : Int), none) else (-(bound : Int), some rangeMsg)
      else
        if n < bound then ((n : Int), none) else ((bound : Int) - 1, some rangeMsg)

namespace Exec
variable {α : Type}

/-- The statement `return mcp.NewToolResultError(text), nil`. -/
def soft (text : String) : Exec CallToolResult α :=
  done (.ret (some (NewToolResultError text)) none)

/-- The check `if err != nil` after a call, whose body is
`return mcp.NewToolResultError(err.Error()), nil`. -/
def orSoft (x : α × Option String) : Exec CallToolResult α :=
  match x with
  | (_, some err) => soft err
  | (a, none) => pure a

/-- The same with the error wrapped: `mcp.NewToolResultError(pre + err.Error())`. -/
def orSoftWrap (pre : String) (x : Except String α) : Exec CallToolResult α :=
  match x with
  | .error err => soft (pre ++ err)
  | .ok a => pure a

/-- The dereference of a pointer field: a nil pointer panics. -/
def deref {ρ : Type} (x : Option α) : Exec ρ α :=
  match x with
  | some a => pure a
  | none => panic "runtime error: invalid memory address or nil pointer dereference"

end Exec

/-- The value set by `if v, err := f(r, p); err == nil`, whose body is `opts.F = &v`. -/
def whenOk (x : String × Option String) : Option String :=
  match x with
  | (v, none) => some v
  | (_, some _) => none

/-- The value set by `if v, err := f(r, p); err == nil && v != ""`, whose body is
`opts.F = &v`. -/
def whenOkNonEmpty (x : String × Option String) : Option String :=
  match x with
  | (v, none) => if v ≠ "" then some v else none
  | (_, some _) => none

/-- The two-result type assertion `v, ok := m[k].(string)`. -/
def assertString (v : Option Value) : Option String :=
  match v with
  | some (.string s) => some s
  | _ => none

/-- The one-result type assertion `m[k].(string)`, which panics when it fails. -/
def mustString {ρ : Type} (v : Option Value) : Exec ρ String :=
  match v with
  | some (.string s) => Exec.pure s
  | some .null => Exec.panic "interface conversion: interface \x7b\x7d is nil, not string"
  | none => Exec.panic "interface conversion: interface \x7b\x7d is nil, not string"
  | some w =>
    Exec.panic ("interface conversion: interface \x7b\x7d is " ++ w.typeName ++ ", not string")

/-! ## issues.go -/

def GetIssueHandler (env : Env) (getClient : GetClientFn) : ToolHandlerFunc := fun ctx r =>
  Exec.run do
    let client ← Exec.orFailWrap "failed to get GitLab client: " (← getClient.call ctx)
    let namespace_ ← Exec.orFail (requiredParam String r "namespace")
    let project ← Exec.orFail (requiredParam String r "project")
    let issueID ← Exec.orFail (requiredParam Float64 r "id")
    let projectID := namespace_ ++ "/" ++ project
    let (issue, _) ← Exec.orFailWrap "failed to get issue: "
      (← client.Issues.GetIssue projectID (env.platform.toInt issueID))
    let author ← Exec.deref issue.author
    return .ret (some ⟨[⟨"text",
      "Title: " ++ issue.title ++ "\nState: " ++ issue.state ++ "\nAuthor: " ++ author.name⟩],
      false⟩) none

/-- The function `GetIssue` of issues.go: the descriptor and the handler. -/
def GetIssue (env : Env) (getClient : GetClientFn) (t : TranslationHelperFunc) :
    Tool × ToolHandlerFunc :=
  (⟨"get_issue", t "TOOL_GET_ISSUE_DESCRIPTION" "Get a specific issue",
    [WithStringRequired "namespace" (t "PARAM_NAMESPACE_DESCRIPTION" "The namespace of the project"),
     WithStringRequired "project" (t "PARAM_PROJECT_DESCRIPTION" "The name of the project"),
     WithNumberRequired "id" (t "PARAM_ISSUE_ID_DESCRIPTION" "The ID of the issue")]⟩,
   GetIssueHandler env getClient)

def ListIssuesHandler (env : Env) (getClient : GetClientFn) : ToolHandlerFunc := fun ctx r =>
  Exec.run do
    let client ← Exec.orFailWrap "failed to get GitLab client: " (← getClient.call ctx)
    let namespace_ ← Exec.orFail (requiredParam String r "namespace")
    let project ← Exec.orFail (requiredParam String r "project")
    let (issues, _) ← Exec.orFailWrap "failed to list issues: "
      (← client.Issues.ListProjectIssues (namespace_ ++ "/" ++ project) {})
    let response ← Exec.orFailWrap "failed to marshal response: " (env.marshalIssues issues)
    return .ret (some ⟨[⟨"text", response⟩], false⟩) none

/-- The function `ListIssues` of issues.go. -/
def ListIssues (env : Env) (getClient : GetClientFn) (t : TranslationHelperFunc) :
    Tool × ToolHandlerFunc :=
  (⟨"list_issues", t "TOOL_LIST_ISSUES_DESCRIPTION" "List issues in a project",
    [WithStringRequired "namespace" (t "PARAM_NAMESPACE_DESCRIPTION" "The namespace of the project"),
     WithStringRequired "project" (t "PARAM_PROJECT_DESCRIPTION" "The name of the project")]⟩,
   ListIssuesHandler env getClient)

def SearchIssuesHandler (env : Env) (getClient : GetClientFn) : ToolHandlerFunc := fun ctx r =>
  Exec.run do
    let client ← Exec.orFailWrap "failed to get GitLab client: " (← getClient.call ctx)
    let namespace_ ← Exec.orSoft (requiredParam String r "namespace")
    let project ← Exec.orSoft (requiredParam String r "project")
    let query ← Exec.orSoft (requiredParam String r "query")
    let (issues, _) ← Exec.orFailWrap "failed to search issues: "
      (← client.Issues.ListProjectIssues (namespace_ ++ "/" ++ project) { search := some query })
    let response ← Exec.orFailWrap "failed to marshal response: " (env.marshalIssues issues)
    return .ret (some (NewToolResultText response)) none

/-- The function `SearchIssues` of issues.go. -/
def SearchIssues (env : Env) (getClient : GetClientFn) (t : TranslationHelperFunc) :
    Tool × ToolHandlerFunc :=
  (⟨"search_issues", t "TOOL_SEARCH_ISSUES_DESCRIPTION" "Search for issues in a project",
    [WithStringRequired "namespace" (t "PARAM_NAMESPACE_DESCRIPTION" "The namespace of the project"),
     WithStringRequired "project" (t "PARAM_PROJECT_DESCRIPTION" "The name of the project"),
     WithStringRequired "query" (t "PARAM_SEARCH_QUERY_DESCRIPTION" "The search query")]⟩,
   SearchIssuesHandler env getClient)

def GetIssueCommentsHandler (env : Env) (getClient : GetClientFn) : ToolHandlerFunc :=
  fun ctx r => Exec.run do
    let client ← Exec.orFailWrap "failed to get GitLab client: " (← getClient.call ctx)
    let namespace_ ← Exec.orSoft (requiredParam String r "namespace")
    let project ← Exec.orSoft (requiredParam String r "project")
    let id ← Exec.orSoft (RequiredInt env.platform r "id")
    let (notes, _) ← Exec.orFailWrap "failed to get issue comments: "
      (← client.Notes.ListIssueNotes (namespace_ ++ "/" ++ project) id)
    let response ← Exec.orFailWrap "failed to marshal response: " (env.marshalNotes notes)
    return .ret (some (NewToolResultText response)) none

/-- The function `GetIssueComments` of issues.go. -/
def GetIssueComments (env : Env) (getClient : GetClientFn) (t : TranslationHelperFunc) :
    Tool × ToolHandlerFunc :=
  (⟨"get_issue_comments", t "TOOL_GET_ISSUE_COMMENTS_DESCRIPTION" "Get comments on an issue",
    [WithStringRequired "namespace" (t "PARAM_NAMESPACE_DESCRIPTION" "The namespace of the project"),
     WithStringRequired "project" (t "PARAM_PROJECT_DESCRIPTION" "The name of the project"),
     WithNumberRequired "id" (t "PARAM_ISSUE_ID_DESCRIPTION" "The ID of the issue")]⟩,
   GetIssueCommentsHandler env getClient)

def CreateIssueHandler (env : Env) (getClient : GetClientFn) : ToolHandlerFunc := fun ctx r =>
  Exec.run do
    let client ← Exec.orFailWrap "failed to get GitLab client: " (← getClient.call ctx)
    let namespace_ ← Exec.orSoft (requiredParam String r "namespace")
    let project ← Exec.orSoft (requiredParam String r "project")
    let title ← Exec.orSoft (requiredParam String r "title")
    let description := (requiredParam String r "description").1
    let (issue, _) ← Exec.orFailWrap "failed to create issue: "
      (← client.Issues.CreateIssue (namespace_ ++ "/" ++ project)
        { title := some title, description := some description })
    let response ← Exec.orFailWrap "failed to marshal response: " (env.marshalIssue issue)
    return .ret (some (NewToolResultText response)) none

/-- The function `CreateIssue` of issues.go. -/
def CreateIssue (env : Env) (getClient : GetClientFn) (t : TranslationHelperFunc) :
    Tool × ToolHandlerFunc :=
  (⟨"create_issue", t "TOOL_CREATE_ISSUE_DESCRIPTION" "Create a new issue",
    [WithStringRequired "namespace" (t "PARAM_NAMESPACE_DESCRIPTION" "The namespace of the project"),
     WithStringRequired "project" (t "PARAM_PROJECT_DESCRIPTION" "The name of the project"),
     WithStringRequired "title" (t "PARAM_ISSUE_TITLE_DESCRIPTION" "The title of the issue"),
     WithString "description"
       (t "PARAM_ISSUE_DESCRIPTION_DESCRIPTION" "The description of the issue")]⟩,
   CreateIssueHandler env getClient)

def AddIssueCommentHandler (env : Env) (getClient : GetClientFn) : ToolHandlerFunc :=
  fun ctx r => Exec.run do
    let client ← Exec.orFailWrap "failed to get GitLab client: " (← getClient.call ctx)
    let namespace_ ← Exec.orSoft (requiredParam String r "namespace")
    let project ← Exec.orSoft (requiredParam String r "project")
    let id ← Exec.orSoft (RequiredInt env.platform r "id")
    let body ← Exec.orSoft (requiredParam String r "body")
    let (note, _) ← Exec.orFailWrap "failed to add issue comment: "
      (← client.Notes.CreateIssueNote (namespace_ ++ "/" ++ project) id { body := some body })
    let response ← Exec.orFailWrap "failed to marshal response: " (env.marshalNote note)
    return .ret (some (NewToolResultText response)) none

/-- The function `AddIssueComment` of issues.go. -/
def AddIssueComment (env : Env) (getClient : GetClientFn) (t : TranslationHelperFunc) :
    Tool × ToolHandlerFunc :=
  (⟨"add_issue_comment", t "TOOL_ADD_ISSUE_COMMENT_DESCRIPTION" "Add a comment to an issue",
    [WithStringRequired "namespace" (t "PARAM_NAMESPACE_DESCRIPTION" "The namespace of the project"),
     WithStringRequired "project" (t "PARAM_PROJECT_DESCRIPTION" "The name of the project"),
     WithNumberRequired "id" (t "PARAM_ISSUE_ID_DESCRIPTION" "The ID of the issue"),
     WithStringRequired "body" (t "PARAM_COMMENT_BODY_DESCRIPTION" "The comment text")]⟩,
   AddIssueCommentHandler env getClient)

def UpdateIssueHandler (env : Env) (getClient : GetClientFn) : ToolHandlerFunc := fun ctx r =>
  Exec.run do
    let client ← Exec.orFailWrap "failed to get GitLab client: " (← getClient.call ctx)
    let namespace_ ← Exec.orSoft (requiredParam String r "namespace")
    let project ← Exec.orSoft (requiredParam String r "project")
    let id ← Exec.orSoft (RequiredInt env.platform r "id")
    let opts : UpdateIssueOptions :=
      { title := whenOk (requiredParam String r "title"),
        description := whenOk (requiredParam String r "description"),
        stateEvent := whenOk (requiredParam String r "state_event") }
    let (issue, _) ← Exec.orFailWrap "failed to update issue: "
      (← client.Issues.UpdateIssue (namespace_ ++ "/" ++ project) id opts)
    let response ← Exec.orFailWrap "failed to marshal response: " (env.marshalIssue issue)
    return .ret (some (NewToolResultText response)) none

/-- The function `UpdateIssue` of issues.go. -/
def UpdateIssue (env : Env) (getClient : GetClientFn) (t : TranslationHelperFunc) :
    Tool × ToolHandlerFunc :=
  (⟨"update_issue", t "TOOL_UPDATE_ISSUE_DESCRIPTION" "Update an issue",
    [WithStringRequired "namespace" (t "PARAM_NAMESPACE_DESCRIPTION" "The namespace of the project"),
     WithStringRequired "project" (t "PARAM_PROJECT_DESCRIPTION" "The name of the project"),
     WithNumberRequired "id" (t "PARAM_ISSUE_ID_DESCRIPTION" "The ID of the issue"),
     WithString "title" (t "PARAM_ISSUE_TITLE_DESCRIPTION" "The new title of the issue"),
     WithString "description"
       (t "PARAM_ISSUE_DESCRIPTION_DESCRIPTION" "The new description of the issue"),
     WithString "state_event"
       (t "PARAM_ISSUE_STATE_DESCRIPTION" "The new state of the issue (close/reopen)")]⟩,
   UpdateIssueHandler env getClient)

/-! ## merge_requests.go -/

def GetMergeRequestHandler (env : Env) (getClient : GetClientFn) : ToolHandlerFunc :=
  fun ctx r => Exec.run do
    let client ← Exec.orFailWrap "failed to get GitLab client: " (← getClient.call ctx)
    let namespace_ ← Exec.orFail (RequiredString r "namespace")
    let project ← Exec.orFail (RequiredString r "project")
    let id ← Exec.orFail (RequiredInt env.platform r "id")
    let (mr, _) ← Exec.orFailWrap "failed to get merge request: "
      (← client.MergeRequests.GetMergeRequest (namespace_ ++ "/" ++ project) id)
    let author ← Exec.deref mr.author
    return .ret (some ⟨[⟨"text",
      "Title: " ++ mr.title ++ "\nDescription: " ++ mr.description ++ "\nState: " ++ mr.state
        ++ "\nAuthor: " ++ author.name⟩], false⟩) none

/-- The function `GetMergeRequest` of merge_requests.go. -/
def GetMergeRequest (env : Env) (getClient : GetClientFn) (t : TranslationHelperFunc) :
    Tool × ToolHandlerFunc :=
  (⟨"get_merge_request", t "TOOL_GET_MERGE_REQUEST_DESCRIPTION" "Get a specific merge request",
    [WithStringRequired "namespace" (t "PARAM_NAMESPACE_DESCRIPTION" "The namespace of the project"),
     WithStringRequired "project" (t "PARAM_PROJECT_DESCRIPTION" "The name of the project"),
     WithStringRequired "id"
       (t "PARAM_MERGE_REQUEST_ID_DESCRIPTION" "The ID of the merge request")]⟩,
   GetMergeRequestHandler env getClient)

def ListMergeRequestsHandler (env : Env) (getClient : GetClientFn) : ToolHandlerFunc :=
  fun ctx r => Exec.run do
    let client ← Exec.orFailWrap "failed to get GitLab client: " (← getClient.call ctx)
    let namespace_ ← Exec.orFail (requiredParam String r "namespace")
    let project ← Exec.orFail (requiredParam String r "project")
    let opts : ListProjectMergeRequestsOptions :=
      { state := assertString (r.arguments.get "state"),
        orderBy := assertString (r.arguments.get "order_by"),
        sort := assertString (r.arguments.get "sort") }
    let (mrs, _) ← Exec.orFailWrap "failed to list merge requests: "
      (← client.MergeRequests.ListProjectMergeRequests (namespace_ ++ "/" ++ project) opts)
    let response ← Exec.orFailWrap "failed to marshal response: " (env.marshalMergeRequests mrs)
    return .ret (some ⟨[⟨"text", response⟩], false⟩) none

/-- The function `ListMergeRequests` of merge_requests.go. -/
def ListMergeRequests (env : Env) (getClient : GetClientFn) (t : TranslationHelperFunc) :
    Tool × ToolHandlerFunc :=
  (⟨"list_merge_requests",
    t "TOOL_LIST_MERGE_REQUESTS_DESCRIPTION" "List merge requests in a project",
    [WithStringRequired "namespace" (t "PARAM_NAMESPACE_DESCRIPTION" "The namespace of the project"),
     WithStringRequired "project" (t "PARAM_PROJECT_DESCRIPTION" "The name of the project")]⟩,
   ListMergeRequestsHandler env getClient)

def GetMergeRequestCommentsHandler (env : Env) (getClient : GetClientFn) : ToolHandlerFunc :=
  fun ctx r => Exec.run do
    let client ← Exec.orSoftWrap "failed to get GitLab client: " (← getClient.call ctx)
    let namespace_ ← Exec.orSoft (requiredParam String r "namespace")
    let project ← Exec.orSoft (requiredParam String r "project")
    let id ← Exec.orSoft (requiredParam String r "id")
    let mrID ← match Atoi env id with
      | (_, some err) => Exec.soft ("invalid merge request ID: " ++ err)
      | (n, none) => pure n
    let (notes, resp) ← Exec.orSoftWrap "failed to get merge request comments: "
      (← client.Notes.ListMergeRequestNotes (namespace_ ++ "/" ++ project) mrID)
    if resp.statusCode ≠ 200 then
      match resp.body with
      | .error err => Exec.soft ("failed to read response body: " ++ err)
      | .ok body => Exec.soft ("failed to get merge request comments: " ++ body)
    let jsonData ← Exec.orSoftWrap "failed to marshal response: " (env.marshalNotes notes)
    return .ret (some (NewToolResultText jsonData)) none

/-- The function `GetMergeRequestComments` of merge_requests.go. -/
def GetMergeRequestComments (env : Env) (getClient : GetClientFn) (t : TranslationHelperFunc) :
    Tool × ToolHandlerFunc :=
  (⟨"get_merge_request_comments",
    t "TOOL_GET_MERGE_REQUEST_COMMENTS_DESCRIPTION" "Get comments for a merge request",
    [WithStringRequired "namespace" (t "PARAM_NAMESPACE_DESCRIPTION" "The namespace of the project"),
     WithStringRequired "project" (t "PARAM_PROJECT_DESCRIPTION" "The name of the project"),
     WithStringRequired "id"
       (t "PARAM_MERGE_REQUEST_ID_DESCRIPTION" "The ID of the merge request")]⟩,
   GetMergeRequestCommentsHandler env getClient)

def CreateMergeRequestHandler (env : Env) (getClient : GetClientFn) : ToolHandlerFunc :=
  fun ctx r => Exec.run do
    let client ← Exec.orSoftWrap "failed to get GitLab client: " (← getClient.call ctx)
    let namespace_ ← Exec.orSoft (requiredParam String r "namespace")
    let project ← Exec.orSoft (requiredParam String r "project")
    let title ← Exec.orSoft (requiredParam String r "title")
    let description ← Exec.orSoft (requiredParam String r "description")
    let sourceBranch ← Exec.orSoft (requiredParam String r "source_branch")
    let targetBranch ← Exec.orSoft (requiredParam String r "target_branch")
    let (mr, _) ← Exec.orSoftWrap "failed to create merge request: "
      (← client.MergeRequests.CreateMergeRequest (namespace_ ++ "/" ++ project)
        { title := some title, description := some description,
          sourceBranch := some sourceBranch, targetBranch := some targetBranch })
    let jsonData ← Exec.orSoftWrap "failed to marshal response: " (env.marshalMergeRequest mr)
    return .ret (some (NewToolResultText jsonData)) none

/-- The function `CreateMergeRequest` of merge_requests.go. -/
def CreateMergeRequest (env : Env) (getClient : GetClientFn) (t : TranslationHelperFunc) :
    Tool × ToolHandlerFunc :=
  (⟨"create_merge_request", t "TOOL_CREATE_MERGE_REQUEST_DESCRIPTION" "Create a new merge request",
    [WithStringRequired "namespace" (t "PARAM_NAMESPACE_DESCRIPTION" "The namespace of the project"),
     WithStringRequired "project" (t "PARAM_PROJECT_DESCRIPTION" "The name of the project"),
     WithStringRequired "title"
       (t "PARAM_MERGE_REQUEST_TITLE_DESCRIPTION" "The title of the merge request"),
     WithStringRequired "description"
       (t "PARAM_MERGE_REQUEST_DESCRIPTION_DESCRIPTION" "The description of the merge request"),
     WithStringRequired "source_branch" (t "PARAM_SOURCE_BRANCH_DESCRIPTION" "The source branch"),
     WithStringRequired "target_branch" (t "PARAM_TARGET_BRANCH_DESCRIPTION" "The target branch")]⟩,
   CreateMergeRequestHandler env getClient)

def AddMergeRequestCommentHandler (env : Env) (getClient : GetClientFn) : ToolHandlerFunc :=
  fun ctx r => Exec.run do
    let client ← Exec.orSoftWrap "failed to get GitLab client: " (← getClient.call ctx)
    let namespace_ ← Exec.orSoft (requiredParam String r "namespace")
    let project ← Exec.orSoft (requiredParam String r "project")
    let id ← Exec.orSoft (requiredParam String r "id")
    let body ← Exec.orSoft (requiredParam String r "body")
    let mrID ← match Atoi env id with
      | (_, some err) => Exec.soft ("invalid merge request ID: " ++ err)
      | (n, none) => pure n
    let (note, resp) ← Exec.orSoftWrap "failed to add comment: "
      (← client.Notes.CreateMergeRequestNote (namespace_ ++ "/" ++ project) mrID
        { body := some body })
    if resp.statusCode ≠ 201 then
      match resp.body with
      | .error err => Exec.soft ("failed to read response body: " ++ err)
      | .ok body => Exec.soft ("failed to add comment: " ++ body)
    let jsonData ← Exec.orSoftWrap "failed to marshal response: " (env.marshalNote note)
    return .ret (some (NewToolResultText jsonData)) none

/-- The function `AddMergeRequestComment` of merge_requests.go. -/
def AddMergeRequestComment (env : Env) (getClient : GetClientFn) (t : TranslationHelperFunc) :
    Tool × ToolHandlerFunc :=
  (⟨"add_merge_request_comment",
    t "TOOL_ADD_MERGE_REQUEST_COMMENT_DESCRIPTION" "Add a comment to a merge request",
    [WithStringRequired "namespace" (t "PARAM_NAMESPACE_DESCRIPTION" "The namespace of the project"),
     WithStringRequired "project" (t "PARAM_PROJECT_DESCRIPTION" "The name of the project"),
     WithStringRequired "id"
       (t "PARAM_MERGE_REQUEST_ID_DESCRIPTION" "The ID of the merge request"),
     WithStringRequired "body" (t "PARAM_COMMENT_BODY_DESCRIPTION" "The body of the comment")]⟩,
   AddMergeRequestCommentHandler env getClient)

def UpdateMergeRequestHandler (env : Env) (getClient : GetClientFn) : ToolHandlerFunc :=
  fun ctx r => Exec.run do
    let client ← Exec.orSoftWrap "failed to get GitLab client: " (← getClient.call ctx)
    let namespace_ ← Exec.orSoft (requiredParam String r "namespace")
    let project ← Exec.orSoft (requiredParam String r "project")
    let id ← Exec.orSoft (requiredParam String r "id")
    let mrID ← match Atoi env id with
      | (_, some err) => Exec.soft ("invalid merge request ID: " ++ err)
      | (n, none) => pure n
    let opts : UpdateMergeRequestOptions :=
      { title := whenOkNonEmpty (OptionalParam String r "title"),
        description := whenOkNonEmpty (OptionalParam String r "description"),
        stateEvent := whenOkNonEmpty (OptionalParam String r "state_event") }
    let (mr, resp) ← Exec.orSoftWrap "failed to update merge request: "
      (← client.MergeRequests.UpdateMergeRequest (namespace_ ++ "/" ++ project) mrID opts)
    if resp.statusCode ≠ 200 then
      match resp.body with
      | .error err => Exec.soft ("failed to read response body: " ++ err)
      | .ok body => Exec.soft ("failed to update merge request: " ++ body)
    let jsonData ← Exec.orSoftWrap "failed to marshal response: " (env.marshalMergeRequest mr)
    return .ret (some (NewToolResultText jsonData)) none

/-- The function `UpdateMergeRequest` of merge_requests.go. -/
def UpdateMergeRequest (env : Env) (getClient : GetClientFn) (t : TranslationHelperFunc) :
    Tool × ToolHandlerFunc :=
  (⟨"update_merge_request", t "TOOL_UPDATE_MERGE_REQUEST_DESCRIPTION" "Update a merge request",
    [WithStringRequired "namespace" (t "PARAM_NAMESPACE_DESCRIPTION" "The namespace of the project"),
     WithStringRequired "project" (t "PARAM_PROJECT_DESCRIPTION" "The name of the project"),
     WithStringRequired "id"
       (t "PARAM_MERGE_REQUEST_ID_DESCRIPTION" "The ID of the merge request"),
     WithString "title"
       (t "PARAM_MERGE_REQUEST_TITLE_DESCRIPTION" "The new title of the merge request"),
     WithString "description"
       (t "PARAM_MERGE_REQUEST_DESCRIPTION_DESCRIPTION" "The new description of the merge request"),
     WithString "state_event"
       (t "PARAM_MERGE_REQUEST_STATE_DESCRIPTION"
         "The new state of the merge request (opened/closed)")]⟩,
   UpdateMergeRequestHandler env getClient)

/-! ## repositories.go -/

def GetRepositoryHandler (getClient : GetClientFn) : ToolHandlerFunc := fun ctx r =>
  Exec.run do
    let client ← Exec.orFailWrap "failed to get GitLab client: " (← getClient.call ctx)
    let namespace_ ← Exec.orFail (RequiredString r "namespace")
    let projectName ← Exec.orFail (RequiredString r "project")
    let query := namespace_ ++ "/" ++ projectName
    let (projects, _) ← Exec.orFailWrap "" (← client.Search.Projects query)
    match projects with
    | [] => Exec.fail "repository not found"
    | project :: _ =>
      return .ret (some ⟨[⟨"text",
        "Name: " ++ project.name ++ "\nPath: " ++ project.pathWithNamespace ++ "\nURL: "
          ++ project.webURL⟩], false⟩) none

/-- The function `GetRepository` of repositories.go. -/
def GetRepository (getClient : GetClientFn) (t : TranslationHelperFunc) :
    Tool × ToolHandlerFunc :=
  (⟨"get_repository", t "TOOL_GET_REPOSITORY_DESCRIPTION" "Get a specific repository",
    [WithStringRequired "namespace" (t "PARAM_NAMESPACE_DESCRIPTION" "The namespace of the project"),
     WithStringRequired "project" (t "PARAM_PROJECT_DESCRIPTION" "The name of the project")]⟩,
   GetRepositoryHandler getClient)

def ListRepositoriesHandler (env : Env) (getClient : GetClientFn) : ToolHandlerFunc :=
  fun ctx r => Exec.run do
    let client ← Exec.orSoftWrap "failed to get GitLab client: " (← getClient.call ctx)
    let opts : ListProjectsOptions :=
      { owned := (whenOkNonEmpty (OptionalParam String r "namespace")).map (fun _ => true),
        search := whenOkNonEmpty (OptionalParam String r "search"),
        orderBy := whenOkNonEmpty (OptionalParam String r "order_by"),
        sort := whenOkNonEmpty (OptionalParam String r "sort") }
    let (projects, resp) ← Exec.orSoftWrap "failed to list repositories: "
      (← client.Projects.ListProjects opts)
    if resp.statusCode ≠ 200 then
      match resp.body with
      | .error err => Exec.soft ("failed to read response body: " ++ err)
      | .ok body => Exec.soft ("failed to list repositories: " ++ body)
    let jsonData ← Exec.orSoftWrap "failed to marshal response: " (env.marshalProjects projects)
    return .ret (some (NewToolResultText jsonData)) none

/-- The function `ListRepositories` of repositories.go. -/
def ListRepositories (env : Env) (getClient : GetClientFn) (t : TranslationHelperFunc) :
    Tool × ToolHandlerFunc :=
  (⟨"list_repositories", t "TOOL_LIST_REPOSITORIES_DESCRIPTION" "List repositories",
    [WithString "namespace"
       (t "PARAM_NAMESPACE_DESCRIPTION" "The namespace to list repositories from"),
     WithString "search" (t "PARAM_SEARCH_DESCRIPTION" "Search query"),
     WithString "order_by" (t "PARAM_ORDER_BY_DESCRIPTION" "Order by field"),
     WithString "sort" (t "PARAM_SORT_DESCRIPTION" "Sort order")]⟩,
   ListRepositoriesHandler env getClient)

def SearchRepositoriesHandler (env : Env) (getClient : GetClientFn) : ToolHandlerFunc :=
  fun ctx r => Exec.run do
    let client ← Exec.orSoftWrap "failed to get GitLab client: " (← getClient.call ctx)
    let query ← Exec.orSoft (requiredParam String r "query")
    let (projects, resp) ← Exec.orSoftWrap "failed to search repositories: "
      (← client.Projects.ListProjects { search := some query })
    if resp.statusCode ≠ 200 then
      match resp.body with
      | .error err => Exec.soft ("failed to read response body: " ++ err)
      | .ok body => Exec.soft ("failed to search repositories: " ++ body)
    let jsonData ← Exec.orSoftWrap "failed to marshal response: " (env.marshalProjects projects)
    return .ret (some (NewToolResultText jsonData)) none

/-- The function `SearchRepositories` of repositories.go. -/
def SearchRepositories (env : Env) (getClient : GetClientFn) (t : TranslationHelperFunc) :
    Tool × ToolHandlerFunc :=
  (⟨"search_repositories", t "TOOL_SEARCH_REPOSITORIES_DESCRIPTION" "Search for repositories",
    [WithStringRequired "query" (t "PARAM_QUERY_DESCRIPTION" "Search query")]⟩,
   SearchRepositoriesHandler env getClient)

/-! ## search.go -/

def SearchProjectsHandler (env : Env) (getClient : GetClientFn) : ToolHandlerFunc :=
  fun ctx r => Exec.run do
    let client ← Exec.orFailWrap "failed to get GitLab client: " (← getClient.call ctx)
    let query ← Exec.orFail (RequiredString r "query")
    let (projects, _) ← Exec.orFailWrap "failed to search projects: "
      (← client.Search.Projects query)
    let response ← Exec.orFailWrap "failed to marshal response: " (env.marshalProjects projects)
    return .ret (some ⟨[⟨"text", response⟩], false⟩) none

/-- The function `SearchProjects` of search.go. -/
def SearchProjects (env : Env) (getClient : GetClientFn) (t : TranslationHelperFunc) :
    Tool × ToolHandlerFunc :=
  (⟨"search_projects", t "TOOL_SEARCH_PROJECTS_DESCRIPTION" "Search for GitLab projects",
    [WithStringRequired "query" (t "PARAM_QUERY_DESCRIPTION" "Search query")]⟩,
   SearchProjectsHandler env getClient)

def SearchMergeRequestsHandler (env : Env) (getClient : GetClientFn) : ToolHandlerFunc :=
  fun ctx r => Exec.run do
    let client ← Exec.orFailWrap "failed to get GitLab client: " (← getClient.call ctx)
    let query ← Exec.orFail (RequiredString r "query")
    let (mergeRequests, _) ← Exec.orFailWrap "failed to search merge requests: "
      (← client.Search.MergeRequests query)
    let response ← Exec.orFailWrap "failed to marshal response: "
      (env.marshalMergeRequests mergeRequests)
    return .ret (some ⟨[⟨"text", response⟩], false⟩) none

/-- The function `SearchMergeRequests` of search.go. -/
def SearchMergeRequests (env : Env) (getClient : GetClientFn) (t : TranslationHelperFunc) :
    Tool × ToolHandlerFunc :=
  (⟨"search_merge_requests",
    t "TOOL_SEARCH_MERGE_REQUESTS_DESCRIPTION" "Search for GitLab merge requests",
    [WithStringRequired "query" (t "PARAM_QUERY_DESCRIPTION" "Search query")]⟩,
   SearchMergeRequestsHandler env getClient)

def SearchUsersHandler (env : Env) (getClient : GetClientFn) : ToolHandlerFunc :=
  fun ctx r => Exec.run do
    let client ← Exec.orFailWrap "failed to get GitLab client: " (← getClient.call ctx)
    let query ← Exec.orFail (RequiredString r "query")
    let (users, _) ← Exec.orFailWrap "failed to search users: " (← client.Search.Users query)
    let response ← Exec.orFailWrap "failed to marshal response: " (env.marshalUsers users)
    return .ret (some ⟨[⟨"text", response⟩], false⟩) none

/-- The function `SearchUsers` of search.go. -/
def SearchUsers (env : Env) (getClient : GetClientFn) (t : TranslationHelperFunc) :
    Tool × ToolHandlerFunc :=
  (⟨"search_users", t "TOOL_SEARCH_USERS_DESCRIPTION" "Search for GitLab users",
    [WithStringRequired "query" (t "PARAM_QUERY_DESCRIPTION" "Search query")]⟩,
   SearchUsersHandler env getClient)

/-! ## server.go: get_me -/

def GetMeHandler (getClient : GetClientFn) : ToolHandlerFunc := fun ctx _ =>
  Exec.run do
    let client ← Exec.orFailWrap "failed to get GitLab client: " (← getClient.call ctx)
    let (user, _) ← Exec.orFailWrap "failed to get current user: " (← client.Users.CurrentUser)
    return .ret (some ⟨[⟨"text",
      "Username: " ++ user.username ++ "\nName: " ++ user.name ++ "\nEmail: " ++ user.email⟩],
      false⟩) none

/-- The function `GetMe` of server.go. -/
def GetMe (getClient : GetClientFn) (t : TranslationHelperFunc) : Tool × ToolHandlerFunc :=
  (⟨"get_me", t "TOOL_GET_ME_DESCRIPTION" "Get information about the authenticated user", []⟩,
   GetMeHandler getClient)

/-! ## users.go -/

def GetUserProfileHandler (getClient : GetClientFn) : ToolHandlerFunc := fun ctx r =>
  Exec.run do
    let client ← Exec.orFailWrap "failed to get GitLab client: " (← getClient.call ctx)
    let username ← Exec.orFail (RequiredString r "username")
    let (users, _) ← Exec.orFailWrap "failed to get user profile: "
      (← client.Users.ListUsers { username := some username })
    match users with
    | [] => Exec.fail "user not found"
    | user :: _ =>
      return .ret (some ⟨[⟨"text",
        "Name: " ++ user.name ++ "\nUsername: " ++ user.username ++ "\nEmail: " ++ user.email
          ++ "\nBio: " ++ user.bio⟩], false⟩) none

/-- The function `GetUserProfile` of users.go. -/
def GetUserProfile (getClient : GetClientFn) (t : TranslationHelperFunc) :
    Tool × ToolHandlerFunc :=
  (⟨"get_user_profile", t "TOOL_GET_USER_PROFILE_DESCRIPTION" "Get a GitLab user's profile", []⟩,
   GetUserProfileHandler getClient)

/-- The loop of `ListUserGroups` that keeps the groups having `userID` among their
members; a group whose member listing fails is skipped. -/
def filterUserGroups {ρ : Type} (client : Client) (userID : Int) :
    List Group → Exec ρ (List Group)
  | [] => Exec.pure []
  | group :: rest =>
    Exec.bind (client.Groups.ListGroupMembers group.id { perPage := 100 }) fun reply =>
    Exec.bind (filterUserGroups client userID rest) fun kept =>
    match reply with
    | .error _ => Exec.pure kept
    | .ok (members, _) =>
      if members.any (fun member => member.id == userID) then Exec.pure (group :: kept)
      else Exec.pure kept

def ListUserGroupsHandler (getClient : GetClientFn) : ToolHandlerFunc := fun ctx r =>
  Exec.run do
    let client ← Exec.orFailWrap "failed to get GitLab client: " (← getClient.call ctx)
    let username ← match assertString (r.arguments.get "username") with
      | none => Exec.fail "username parameter is required"
      | some v => pure v
    let (users, _) ← Exec.orFailWrap "failed to find user: "
      (← client.Users.ListUsers { username := some username })
    match users with
    | [] => Exec.fail "user not found"
    | user :: _ =>
      let userID := user.id
      let (groups, _) ← Exec.orFailWrap "failed to list groups: "
        (← client.Groups.ListGroups { perPage := 100, allAvailable := some true })
      let userGroups ← filterUserGroups client userID groups
      let groupList := userGroups.foldl
        (fun acc group => acc ++ ("- " ++ group.name ++ " (ID: " ++ toString group.id ++ ")\n"))
        "Groups:\n"
      return .ret (some ⟨[⟨"text", groupList⟩], false⟩) none

/-- The function `ListUserGroups` of users.go. -/
def ListUserGroups (getClient : GetClientFn) (t : TranslationHelperFunc) :
    Tool × ToolHandlerFunc :=
  (⟨"list_user_groups", t "TOOL_LIST_USER_GROUPS_DESCRIPTION" "List groups a user belongs to", []⟩,
   ListUserGroupsHandler getClient)

/-- The access levels `gitlab.GuestPermissions` ... `gitlab.OwnerPermissions` as the
`switch` of `GetUserPermissions` names them. -/
def permissionName (accessLevel : Int) : String :=
  if accessLevel = 10 then "Guest"
  else if accessLevel = 20 then "Reporter"
  else if accessLevel = 30 then "Developer"
  else if accessLevel = 40 then "Maintainer"
  else if accessLevel = 50 then "Owner"
  else "Unknown"

def GetUserPermissionsHandler (getClient : GetClientFn) : ToolHandlerFunc := fun ctx r =>
  Exec.run do
    let client ← Exec.orFailWrap "failed to get GitLab client: " (← getClient.call ctx)
    let projectID ← match assertString (r.arguments.get "project_id") with
      | none => Exec.fail "project_id parameter is required"
      | some v => pure v
    let username ← match assertString (r.arguments.get "username") with
      | none => Exec.fail "username parameter is required"
      | some v => pure v
    let (users, _) ← Exec.orFailWrap "failed to find user: "
      (← client.Users.ListUsers { username := some username })
    match users with
    | [] => Exec.fail "user not found"
    | user :: _ =>
      let userID := user.id
      let (members, _) ← Exec.orFailWrap "failed to get project members: "
        (← client.ProjectMembers.ListProjectMembers projectID { perPage := 100 })
      match members.find? (fun member => member.id == userID) with
      | none =>
        return .ret (some ⟨[⟨"text",
          "User " ++ username ++ " has no permissions in project " ++ projectID⟩], false⟩) none
      | some userMember =>
        return .ret (some ⟨[⟨"text",
          "User " ++ username ++ " has " ++ permissionName userMember.accessLevel
            ++ " permissions in project " ++ projectID⟩], false⟩) none

/-- The function `GetUserPermissions` of users.go. -/
def GetUserPermissions (getClient : GetClientFn) (t : TranslationHelperFunc) :
    Tool × ToolHandlerFunc :=
  (⟨"get_user_permissions",
    t "TOOL_GET_USER_PERMISSIONS_DESCRIPTION" "Get a user's permissions in a project", []⟩,
   GetUserPermissionsHandler getClient)

/-! ## repository_resource.go -/

/-- The request `mcp.ReadResourceRequest`: the URI and the variables resolved from it. -/
structure ReadResourceRequest where
  uri : String
  arguments : Arguments

/-- The content block `mcp.TextResourceContents`. -/
structure TextResourceContents where
  uri : String
  mimeType : String
  text : String
deriving DecidableEq, Repr

/-- The descriptor `mcp.ResourceTemplate`: URI template and name. -/
structure ResourceTemplate where
  uriTemplate : String
  name : String
deriving DecidableEq, Repr

/-- The type `server.ResourceTemplateHandlerFunc`. -/
abbrev ResourceTemplateHandlerFunc :=
  Context → ReadResourceRequest → Run (List TextResourceContents)

/-- The function `RepositoryResourceContentsHandler` of repository_resource.go. -/
def RepositoryResourceContentsHandler (env : Env) (getClient : GetClientFn) :
    ResourceTemplateHandlerFunc := fun ctx request =>
  Exec.run do
    let client ← Exec.orFailWrap "failed to get GitLab client: " (← getClient.call ctx)
    let namespace_ ← mustString (request.arguments.get "namespace")
    let project ← mustString (request.arguments.get "project")
    let path ← mustString (request.arguments.get "path")
    let ref ← mustString (request.arguments.get "ref")
    let (file, _) ← Exec.orFailWrap "failed to get file: "
      (← client.RepositoryFiles.GetFile (namespace_ ++ "/" ++ project) path { ref := some ref })
    let content ← Exec.orFailWrap "failed to decode file content: "
      (env.base64Decode file.content)
    return .ret (some [⟨request.uri, "text/plain", content⟩]) none

/-- The function `RepositoryResourceMergeRequestHandler` of repository_resource.go. -/
def RepositoryResourceMergeRequestHandler (env : Env) (getClient : GetClientFn) :
    ResourceTemplateHandlerFunc := fun ctx request =>
  Exec.run do
    let client ← Exec.orFailWrap "failed to get GitLab client: " (← getClient.call ctx)
    let namespace_ ← mustString (request.arguments.get "namespace")
    let project ← mustString (request.arguments.get "project")
    let idStr ← mustString (request.arguments.get "id")
    let id ← match Atoi env idStr with
      | (_, some err) => Exec.fail ("invalid merge request ID: " ++ err)
      | (n, none) => pure n
    let (mr, _) ← Exec.orFailWrap "failed to get merge request: "
      (← client.MergeRequests.GetMergeRequest (namespace_ ++ "/" ++ project) id)
    return .ret (some [⟨request.uri, "text/plain",
      "Title: " ++ mr.title ++ "\nDescription: " ++ mr.description ++ "\nState: " ++ mr.state⟩])
      none

/-- The function `GetRepositoryResourceContent` of repository_resource.go. -/
def GetRepositoryResourceContent (env : Env) (getClient : GetClientFn)
    (t : TranslationHelperFunc) : ResourceTemplate × ResourceTemplateHandlerFunc :=
  (⟨"repo://\x7bnamespace\x7d/\x7bproject\x7d/contents\x7b/path*\x7d",
    t "RESOURCE_REPOSITORY_CONTENT_DESCRIPTION" "Repository Content"⟩,
   RepositoryResourceContentsHandler env getClient)

/-- The function `GetRepositoryResourceBranchContent` of repository_resource.go. -/
def GetRepositoryResourceBranchContent (env : Env) (getClient : GetClientFn)
    (t : TranslationHelperFunc) : ResourceTemplate × ResourceTemplateHandlerFunc :=
  (⟨"repo://\x7bnamespace\x7d/\x7bproject\x7d/refs/heads/\x7bbranch\x7d/contents\x7b/path*\x7d",
    t "RESOURCE_REPOSITORY_CONTENT_BRANCH_DESCRIPTION" "Repository Content for specific branch"⟩,
   RepositoryResourceContentsHandler env getClient)

/-- The function `GetRepositoryResourceCommitContent` of repository_resource.go. -/
def GetRepositoryResourceCommitContent (env : Env) (getClient : GetClientFn)
    (t : TranslationHelperFunc) : ResourceTemplate × ResourceTemplateHandlerFunc :=
  (⟨"repo://\x7bnamespace\x7d/\x7bproject\x7d/sha/\x7bsha\x7d/contents\x7b/path*\x7d",
    t "RESOURCE_REPOSITORY_CONTENT_COMMIT_DESCRIPTION" "Repository Content for specific commit"⟩,
   RepositoryResourceContentsHandler env getClient)

/-- The function `GetRepositoryResourceTagContent` of repository_resource.go. -/
def GetRepositoryResourceTagContent (env : Env) (getClient : GetClientFn)
    (t : TranslationHelperFunc) : ResourceTemplate × ResourceTemplateHandlerFunc :=
  (⟨"repo://\x7bnamespace\x7d/\x7bproject\x7d/refs/tags/\x7btag\x7d/contents\x7b/path*\x7d",
    t "RESOURCE_REPOSITORY_CONTENT_TAG_DESCRIPTION" "Repository Content for specific tag"⟩,
   RepositoryResourceContentsHandler env getClient)

/-- The function `GetRepositoryResourceMergeRequestContent` of repository_resource.go. -/
def GetRepositoryResourceMergeRequestContent (env : Env) (getClient : GetClientFn)
    (t : TranslationHelperFunc) : ResourceTemplate × ResourceTemplateHandlerFunc :=
  (⟨"repo://\x7bnamespace\x7d/\x7bproject\x7d/merge_requests/\x7bid\x7d",
    t "RESOURCE_REPOSITORY_MERGE_REQUEST_DESCRIPTION" "Merge Request"⟩,
   RepositoryResourceMergeRequestHandler env getClient)

/-! ## server.go: the registry -/

/-- The registry `server.MCPServer` of the mcp-go library, as far as `NewServer` fills it:
the registrations in the order they were made. The library itself is not among the
sources; nothing here depends on what it does with a name registered twice. -/
structure MCPServer where
  name : String
  version : String
  resourceCapabilities : Bool × Bool
  logging : Bool
  resourceTemplates : List (ResourceTemplate × ResourceTemplateHandlerFunc)
  tools : List (Tool × ToolHandlerFunc)

/-- The call `server.NewMCPServer(name, version, WithResourceCapabilities(true, true),
WithLogging())`. -/
def NewMCPServer (name version : String) : MCPServer :=
  ⟨name, version, (true, true), true, [], []⟩

/-- The method `AddResourceTemplate`. -/
def MCPServer.AddResourceTemplate (s : MCPServer)
    (entry : ResourceTemplate × ResourceTemplateHandlerFunc) : MCPServer :=
  { s with resourceTemplates := s.resourceTemplates ++ [entry] }

/-- The method `AddTool`. -/
def MCPServer.AddTool (s : MCPServer) (entry : Tool × ToolHandlerFunc) : MCPServer :=
  { s with tools := s.tools ++ [entry] }

/-- The names of the registered tools, in registration order. -/
def MCPServer.toolNames (s : MCPServer) : List String := s.tools.map (fun e => e.1.name)

/-- The URI templates of the registered resource templates, in registration order. -/
def MCPServer.templateURIs (s : MCPServer) : List String :=
  s.resourceTemplates.map (fun e => e.1.uriTemplate)

/-- The function `NewServer` of server.go (without caller-supplied extra options). -/
def NewServer (env : Env) (getClient : GetClientFn) (version : String) (readOnly : Bool)
    (t : TranslationHelperFunc) : MCPServer :=
  let s := NewMCPServer "gitlab-mcp-server" version
  -- Add GitLab Resources
  let s := s.AddResourceTemplate (GetRepositoryResourceContent env getClient t)
  let s := s.AddResourceTemplate (GetRepositoryResourceBranchContent env getClient t)
  let s := s.AddResourceTemplate (GetRepositoryResourceCommitContent env getClient t)
  let s := s.AddResourceTemplate (GetRepositoryResourceTagContent env getClient t)
  let s := s.AddResourceTemplate (GetRepositoryResourceMergeRequestContent env getClient t)
  -- Add GitLab tools - Issues
  let s := s.AddTool (GetIssue env getClient t)
  let s := s.AddTool (SearchIssues env getClient t)
  let s := s.AddTool (ListIssues env getClient t)
  let s := s.AddTool (GetIssueComments env getClient t)
  let s :=
    if !readOnly then
      let s := s.AddTool (CreateIssue env getClient t)
      let s := s.AddTool (AddIssueComment env getClient t)
      s.AddTool (UpdateIssue env getClient t)
    else s
  -- Add GitLab tools - Merge Requests
  let s := s.AddTool (GetMergeRequest env getClient t)
  let s := s.AddTool (ListMergeRequests env getClient t)
  let s := s.AddTool (GetMergeRequestComments env getClient t)
  let s :=
    if !readOnly then
      let s := s.AddTool (CreateMergeRequest env getClient t)
      let s := s.AddTool (AddMergeRequestComment env getClient t)
      s.AddTool (UpdateMergeRequest env getClient t)
    else s
  -- Add GitLab tools - Repository
  let s := s.AddTool (GetRepository getClient t)
  let s := s.AddTool (ListRepositories env getClient t)
  let s := s.AddTool (SearchRepositories env getClient t)
  -- Add GitLab tools - Search
  let s := s.AddTool (SearchProjects env getClient t)
  let s := s.AddTool (SearchMergeRequests env getClient t)
  let s := s.AddTool (SearchUsers env getClient t)
  -- Add GitLab tools - User
  let s := s.AddTool (GetMe getClient t)
  s

/-! ## Vocabulary of the properties -/

/-- What `%T` prints for the Go type of a kind. -/
def Kind.goName : Kind → String
  | .string => "string"
  | .number => "float64"
  | .boolean => "bool"

/-- The zero values: the empty string, `0` (of either sign), `false`. -/
def Kind.isZero : (k : Kind) → k.carrier → Bool
  | .string => fun (s : String) => decide (s = "")
  | .number => fun (f : Float64) => f.isZero
  | .boolean => fun (b : Bool) => !b

/-- The magnitude of a rational number with the fraction discarded, signed as the
number: rounding toward zero. -/
def truncTowardZero (q : ℚ) : Int := if 0 ≤ q then ⌊q⌋ else ⌈q⌉

/-- A 64-bit platform on which an unrepresentable conversion gives the least `int`. -/
def amd64 : Platform := ⟨64, fun _ => -9223372036854775808⟩

/-! ## The tool handlers as a family -/

/-- The tool handlers of the package, by tool name. -/
inductive ToolId where
  | get_issue
  | list_issues
  | search_issues
  | get_issue_comments
  | create_issue
  | add_issue_comment
  | update_issue
  | get_merge_request
  | list_merge_requests
  | get_merge_request_comments
  | create_merge_request
  | add_merge_request_comment
  | update_merge_request
  | get_repository
  | list_repositories
  | search_repositories
  | search_projects
  | search_merge_requests
  | search_users
  | get_me
  | get_user_profile
  | list_user_groups
  | get_user_permissions
deriving DecidableEq, Repr

/-- The handler each tool function returns. -/
def ToolId.handler (env : Env) (getClient : GetClientFn) : ToolId → ToolHandlerFunc
  | .get_issue => GetIssueHandler env getClient
  | .list_issues => ListIssuesHandler env getClient
  | .search_issues => SearchIssuesHandler env getClient
  | .get_issue_comments => GetIssueCommentsHandler env getClient
  | .create_issue => CreateIssueHandler env getClient
  | .add_issue_comment => AddIssueCommentHandler env getClient
  | .update_issue => UpdateIssueHandler env getClient
  | .get_merge_request => GetMergeRequestHandler env getClient
  | .list_merge_requests => ListMergeRequestsHandler env getClient
  | .get_merge_request_comments => GetMergeRequestCommentsHandler env getClient
  | .create_merge_request => CreateMergeRequestHandler env getClient
  | .add_merge_request_comment => AddMergeRequestCommentHandler env getClient
  | .update_merge_request => UpdateMergeRequestHandler env getClient
  | .get_repository => GetRepositoryHandler getClient
  | .list_repositories => ListRepositoriesHandler env getClient
  | .search_repositories => SearchRepositoriesHandler env getClient
  | .search_projects => SearchProjectsHandler env getClient
  | .search_merge_requests => SearchMergeRequestsHandler env getClient
  | .search_users => SearchUsersHandler env getClient
  | .get_me => GetMeHandler getClient
  | .get_user_profile => GetUserProfileHandler getClient
  | .list_user_groups => ListUserGroupsHandler getClient
  | .get_user_permissions => GetUserPermissionsHandler getClient

/-- The two ways a handler reports a failure: `return nil, err` and
`return mcp.NewToolResultError(text), nil`. -/
inductive Propagation where
  | hard
  | soft
deriving DecidableEq, Repr

/-- The outcome that reports the message in the given way. -/
def Propagation.report : Propagation → String → Outcome CallToolResult
  | .hard, msg => .ret none (some msg)
  | .soft, msg => .ret (some (NewToolResultError msg)) none

/-- An extraction a handler performs for a parameter it does not go on without. -/
inductive Extraction where
  | requiredParamString (p : String)
  | requiredParamNumber (p : String)
  | requiredInt (p : String)
  | requiredString (p : String)
  | stringAssertion (p : String)
deriving DecidableEq, Repr

/-- The error of the extraction on a request, `none` when it succeeds. -/
def Extraction.error (pf : Platform) (r : CallToolRequest) : Extraction → Option String
  | .requiredParamString p => (requiredParam String r p).2
  | .requiredParamNumber p => (requiredParam Float64 r p).2
  | .requiredInt p => (RequiredInt pf r p).2
  | .requiredString p => (RequiredString r p).2
  | .stringAssertion p =>
    match assertString (r.arguments.get p) with
    | none => some (p ++ " parameter is required")
    | some _ => none

/-- The extractions of required parameters in each handler, in the order the handler
performs them. -/
def ToolId.requiredExtractions : ToolId → List Extraction
  | .get_issue =>
    [.requiredParamString "namespace", .requiredParamString "project", .requiredParamNumber "id"]
  | .list_issues => [.requiredParamString "namespace", .requiredParamString "project"]
  | .search_issues =>
    [.requiredParamString "namespace", .requiredParamString "project",
     .requiredParamString "query"]
  | .get_issue_comments =>
    [.requiredParamString "namespace", .requiredParamString "project", .requiredInt "id"]
  | .create_issue =>
    [.requiredParamString "namespace", .requiredParamString "project",
     .requiredParamString "title"]
  | .add_issue_comment =>
    [.requiredParamString "namespace", .requiredParamString "project", .requiredInt "id",
     .requiredParamString "body"]
  | .update_issue =>
    [.requiredParamString "namespace", .requiredParamString "project", .requiredInt "id"]
  | .get_merge_request =>
    [.requiredString "namespace", .requiredString "project", .requiredInt "id"]
  | .list_merge_requests => [.requiredParamString "namespace", .requiredParamString "project"]
  | .get_merge_request_comments =>
    [.requiredParamString "namespace", .requiredParamString "project", .requiredParamString "id"]
  | .create_merge_request =>
    [.requiredParamString "namespace", .requiredParamString "project",
     .requiredParamString "title", .requiredParamString "description",
     .requiredParamString "source_branch", .requiredParamString "target_branch"]
  | .add_merge_request_comment =>
    [.requiredParamString "namespace", .requiredParamString "project", .requiredParamString "id",
     .requiredParamString "body"]
  | .update_merge_request =>
    [.requiredParamString "namespace", .requiredParamString "project", .requiredParamString "id"]
  | .get_repository => [.requiredString "namespace", .requiredString "project"]
  | .list_repositories => []
  | .search_repositories => [.requiredParamString "query"]
  | .search_projects => [.requiredString "query"]
  | .search_merge_requests => [.requiredString "query"]
  | .search_users => [.requiredString "query"]
  | .get_me => []
  | .get_user_profile => [.requiredString "username"]
  | .list_user_groups => [.stringAssertion "username"]
  | .get_user_permissions => [.stringAssertion "project_id", .stringAssertion "username"]

/-- The error of the first extraction that fails, `none` when all succeed. -/
def firstError (pf : Platform) (r : CallToolRequest) : List Extraction → Option String
  | [] => none
  | x :: rest =>
    match x.error pf r with
    | some e => some e
    | none => firstError pf r rest

/-- How each handler reports the error of a failed extraction. -/
def ToolId.onExtractionError : ToolId → Propagation
  | .get_issue | .list_issues | .get_merge_request | .list_merge_requests | .get_repository
  | .search_projects | .search_merge_requests | .search_users | .get_me | .get_user_profile
  | .list_user_groups | .get_user_permissions => .hard
  | .search_issues | .get_issue_comments | .create_issue | .add_issue_comment | .update_issue
  | .get_merge_request_comments | .create_merge_request | .add_merge_request_comment
  | .update_merge_request | .list_repositories | .search_repositories => .soft

/-- How each handler reports the failure of the client accessor. -/
def ToolId.onClientError : ToolId → Propagation
  | .get_merge_request_comments | .create_merge_request | .add_merge_request_comment
  | .update_merge_request | .list_repositories | .search_repositories => .soft
  | .get_issue | .list_issues | .search_issues | .get_issue_comments | .create_issue
  | .add_issue_comment | .update_issue | .get_merge_request | .list_merge_requests
  | .get_repository | .search_projects | .search_merge_requests | .search_users | .get_me
  | .get_user_profile | .list_user_groups | .get_user_permissions => .hard

/-! ## Sample collaborators for concrete runs -/

/-- A reply with status 200 and an empty body. -/
def sampleResponse : Response := ⟨200, .ok ""⟩

/-- An upstream client whose every operation fails with "unavailable". -/
def sampleClient : Client :=
  { Issues := ⟨fun _ _ => .error "unavailable", fun _ _ => .error "unavailable",
      fun _ _ => .error "unavailable", fun _ _ _ => .error "unavailable"⟩
    Notes := ⟨fun _ _ => .error "unavailable", fun _ _ _ => .error "unavailable",
      fun _ _ => .error "unavailable", fun _ _ _ => .error "unavailable"⟩
    MergeRequests := ⟨fun _ _ => .error "unavailable", fun _ _ => .error "unavailable",
      fun _ _ => .error "unavailable", fun _ _ _ => .error "unavailable"⟩
    Search := ⟨fun _ => .error "unavailable", fun _ => .error "unavailable",
      fun _ => .error "unavailable"⟩
    Projects := ⟨fun _ => .error "unavailable"⟩
    Users := ⟨.error "unavailable", fun _ => .error "unavailable"⟩
    Groups := ⟨fun _ => .error "unavailable", fun _ _ => .error "unavailable"⟩
    ProjectMembers := ⟨fun _ _ => .error "unavailable"⟩
    RepositoryFiles := ⟨fun _ _ _ => .error "unavailable"⟩ }

/-- An environment on the 64-bit platform whose encoders fail with "unsupported" and whose
`quote` only adds the surrounding double quotes (what `strconv.Quote` does on printable
text without quotes or backslashes); the concrete runs below end before any encoding. -/
def sampleEnv : Env :=
  { platform := amd64
    quote := fun s => "\"" ++ s ++ "\""
    base64Decode := fun _ => .error "unsupported"
    marshalIssue := fun _ => .error "unsupported"
    marshalIssues := fun _ => .error "unsupported"
    marshalNote := fun _ => .error "unsupported"
    marshalNotes := fun _ => .error "unsupported"
    marshalMergeRequest := fun _ => .error "unsupported"
    marshalMergeRequests := fun _ => .error "unsupported"
    marshalProjects := fun _ => .error "unsupported"
    marshalUsers := fun _ => .error "unsupported" }

/-- The six tools that change upstream state. -/
def mutatingToolNames : List String :=
  ["create_issue", "add_issue_comment", "update_issue", "create_merge_request",
   "add_merge_request_comment", "update_merge_request"]

/-! ## Upstream failures -/

/-- The error of a reply, `none` when the reply carries an entity. -/
def Reply.failure {α : Type} (x : Reply α) : Option String :=
  match x with
  | .error e => some e
  | .ok _ => none

/-- The error with which the client answers a call, `none` when the call succeeds. -/
def Client.failure (c : Client) : UpstreamCall → Option String
  | .issuesGetIssue pid issue => Reply.failure (c.Issues.getFunc pid issue)
  | .issuesListProjectIssues pid opt => Reply.failure (c.Issues.listFunc pid opt)
  | .issuesCreateIssue pid opt => Reply.failure (c.Issues.createFunc pid opt)
  | .issuesUpdateIssue pid issue opt => Reply.failure (c.Issues.updateFunc pid issue opt)
  | .notesListIssueNotes pid issue => Reply.failure (c.Notes.listIssueNotesFunc pid issue)
  | .notesCreateIssueNote pid issue opt =>
    Reply.failure (c.Notes.createIssueNoteFunc pid issue opt)
  | .notesListMergeRequestNotes pid mr => Reply.failure (c.Notes.listMergeRequestNotesFunc pid mr)
  | .notesCreateMergeRequestNote pid mr opt =>
    Reply.failure (c.Notes.createMergeRequestNoteFunc pid mr opt)
  | .mergeRequestsGetMergeRequest pid mr => Reply.failure (c.MergeRequests.getFunc pid mr)
  | .mergeRequestsListProjectMergeRequests pid opt =>
    Reply.failure (c.MergeRequests.listFunc pid opt)
  | .mergeRequestsCreateMergeRequest pid opt => Reply.failure (c.MergeRequests.createFunc pid opt)
  | .mergeRequestsUpdateMergeRequest pid mr opt =>
    Reply.failure (c.MergeRequests.updateFunc pid mr opt)
  | .searchProjects query => Reply.failure (c.Search.searchProjectFunc query)
  | .searchMergeRequests query => Reply.failure (c.Search.searchMergeRequestFunc query)
  | .searchUsers query => Reply.failure (c.Search.searchUserFunc query)
  | .projectsListProjects opt => Reply.failure (c.Projects.listFunc opt)
  | .usersCurrentUser => Reply.failure c.Users.currentUserFunc
  | .usersListUsers opt => Reply.failure (c.Users.listFunc opt)
  | .groupsListGroups opt => Reply.failure (c.Groups.listFunc opt)
  | .groupsListGroupMembers gid opt => Reply.failure (c.Groups.listMembersFunc gid opt)
  | .projectMembersListProjectMembers pid opt => Reply.failure (c.ProjectMembers.listFunc pid opt)
  | .repositoryFilesGetFile pid fileName opt =>
    Reply.failure (c.RepositoryFiles.getFileFunc pid fileName opt)

/-- The call is a listing of the members of a group. -/
def UpstreamCall.isMemberListing : UpstreamCall → Bool
  | .groupsListGroupMembers _ _ => true
  | _ => false

/-- How each handler reports the failure of an upstream operation. -/
def ToolId.onUpstreamError : ToolId → Propagation
  | .get_merge_request_comments | .create_merge_request | .add_merge_request_comment
  | .update_merge_request | .list_repositories | .search_repositories => .soft
  | .get_issue | .list_issues | .search_issues | .get_issue_comments | .create_issue
  | .add_issue_comment | .update_issue | .get_merge_request | .list_merge_requests
  | .get_repository | .search_projects | .search_merge_requests | .search_users | .get_me
  | .get_user_profile | .list_user_groups | .get_user_permissions => .hard

/-- The text each handler puts before the error of a failed upstream call
(`get_repository` puts nothing before it). -/
def ToolId.failurePrefix : ToolId → UpstreamCall → String
  | .get_issue, _ => "failed to get issue: "
  | .list_issues, _ => "failed to list issues: "
  | .search_issues, _ => "failed to search issues: "
  | .get_issue_comments, _ => "failed to get issue comments: "
  | .create_issue, _ => "failed to create issue: "
  | .add_issue_comment, _ => "failed to add issue comment: "
  | .update_issue, _ => "failed to update issue: "
  | .get_merge_request, _ => "failed to get merge request: "
  | .list_merge_requests, _ => "failed to list merge requests: "
  | .get_merge_request_comments, _ => "failed to get merge request comments: "
  | .create_merge_request, _ => "failed to create merge request: "
  | .add_merge_request_comment, _ => "failed to add comment: "
  | .update_merge_request, _ => "failed to update merge request: "
  | .get_repository, _ => ""
  | .list_repositories, _ => "failed to list repositories: "
  | .search_repositories, _ => "failed to search repositories: "
  | .search_projects, _ => "failed to search projects: "
  | .search_merge_requests, _ => "failed to search merge requests: "
  | .search_users, _ => "failed to search users: "
  | .get_me, _ => "failed to get current user: "
  | .get_user_profile, _ => "failed to get user profile: "
  | .list_user_groups, .groupsListGroups _ => "failed to list groups: "
  | .list_user_groups, _ => "failed to find user: "
  | .get_user_permissions, .projectMembersListProjectMembers _ _ =>
    "failed to get project members: "
  | .get_user_permissions, _ => "failed to find user: "

/-! ## A stand-in text codec for concrete runs -/

/-- A field as text: every character after the mark `c`, then the mark `f`. -/
def sampleEncodeField (cs : List Char) : List Char :=
  match cs with
  | [] => ['f']
  | x :: rest => 'c' :: x :: sampleEncodeField rest

/-- Read back a field and what follows it. -/
def sampleDecodeField : List Char → Option (List Char × List Char)
  | [] => none
  | [m] => if m = 'f' then some ([], []) else none
  | m :: x :: rest =>
    if m = 'f' then some ([], x :: rest)
    else if m = 'c' then (sampleDecodeField rest).map (fun p => (x :: p.1, p.2))
    else none

/-- A list of issues as text: per issue the mark `i`, the title and the state as fields;
the mark `e` ends the list. It stands in for `json.Marshal`, keeping what the decoder
below reads back. -/
def sampleEncodeIssues : List Issue → List Char
  | [] => ['e']
  | issue :: rest =>
    'i' :: (sampleEncodeField issue.title.data
      ++ (sampleEncodeField issue.state.data ++ sampleEncodeIssues rest))

/-- Read back the titles and states, with a bound on the number of issues read. -/
def sampleDecodeIssues : Nat → List Char → Option (List (String × String))
  | 0, _ => none
  | _ + 1, [] => none
  | fuel + 1, m :: rest =>
    if m = 'e' then some []
    else if m = 'i' then
      match sampleDecodeField rest with
      | none => none
      | some (title, afterTitle) =>
        match sampleDecodeField afterTitle with
        | none => none
        | some (state, afterState) =>
          (sampleDecodeIssues fuel afterState).map
            (fun decoded => (String.mk title, String.mk state) :: decoded)
    else none

/-- The stand-in encoder as a `marshalIssues`. -/
def sampleMarshalIssues (issues : List Issue) : Except String String :=
  .ok (String.mk (sampleEncodeIssues issues))

/-- The stand-in decoder on a text: the titles and states of the issues it holds. -/
def sampleUnmarshalIssues (text : String) : Option (List (String × String)) :=
  sampleDecodeIssues (text.data.length + 1) text.data

/-- The sample environment with the stand-in encoder for lists of issues. -/
def codecEnv : Env := { sampleEnv with marshalIssues := sampleMarshalIssues }

/-! ## Stub clients for concrete runs -/

/-- A client whose issue fetch returns the issue of the test `TestGetIssue` and whose issue
listing returns the two issues of `TestListIssues`. -/
def issueStubClient : Client :=
  { sampleClient with
    Issues :=
      { sampleClient.Issues with
        getFunc := fun _ _ => .ok (⟨1, "Test Issue", "opened", some ⟨"Test User"⟩⟩, sampleResponse)
        listFunc := fun _ _ =>
          .ok ([⟨1, "Test Issue 1", "opened", none⟩, ⟨2, "Test Issue 2", "closed", none⟩],
            sampleResponse) } }

/-- A client whose project search returns one project that is not the one asked for. -/
def searchStubClient : Client :=
  { sampleClient with
    Search :=
      { sampleClient.Search with
        searchProjectFunc := fun _ =>
          .ok ([⟨"test-repo", "test-group/test-repo", "https://gitlab.com/test-group/test-repo"⟩],
            sampleResponse) } }

/-- A client whose project search succeeds with no match. -/
def emptySearchStubClient : Client :=
  { sampleClient with
    Search := { sampleClient.Search with searchProjectFunc := fun _ => .ok ([], sampleResponse) } }

/-- A client that knows one user and one group and fails to list the members of a group. -/
def groupsStubClient : Client :=
  { sampleClient with
    Users :=
      { sampleClient.Users with
        listFunc := fun _ => .ok ([⟨7, "dev", "Dev", "dev@example.com", ""⟩], sampleResponse) }
    Groups :=
      { sampleClient.Groups with
        listFunc := fun _ => .ok ([⟨3, "team"⟩], sampleResponse) } }

/-- A client whose merge request listing succeeds with no merge request. -/
def mergeRequestStubClient : Client :=
  { sampleClient with
    MergeRequests :=
      { sampleClient.MergeRequests with listFunc := fun _ _ => .ok ([], sampleResponse) } }

/-- The text `part` occurs in `text`. -/
def HasSubstring (text part : String) : Prop := ∃ before after : String, text = before ++ part ++ after

/-- The operation each handler names in the text before the error of a failed upstream
call (`get_repository` names none). -/
def ToolId.operation : ToolId → UpstreamCall → String
  | .get_issue, _ => "get issue"
  | .list_issues, _ => "list issues"
  | .search_issues, _ => "search issues"
  | .get_issue_comments, _ => "get issue comments"
  | .create_issue, _ => "create issue"
  | .add_issue_comment, _ => "add issue comment"
  | .update_issue, _ => "update issue"
  | .get_merge_request, _ => "get merge request"
  | .list_merge_requests, _ => "list merge requests"
  | .get_merge_request_comments, _ => "get merge request comments"
  | .create_merge_request, _ => "create merge request"
  | .add_merge_request_comment, _ => "add comment"
  | .update_merge_request, _ => "update merge request"
  | .get_repository, _ => ""
  | .list_repositories, _ => "list repositories"
  | .search_repositories, _ => "search repositories"
  | .search_projects, _ => "search projects"
  | .search_merge_requests, _ => "search merge requests"
  | .search_users, _ => "search users"
  | .get_me, _ => "get current user"
  | .get_user_profile, _ => "get user profile"
  | .list_user_groups, .groupsListGroups _ => "list groups"
  | .list_user_groups, _ => "find user"
  | .get_user_permissions, .projectMembersListProjectMembers _ _ => "get project members"
  | .get_user_permissions, _ => "find user"

/-! ## Vocabulary of the later properties -/

/-- The value of an optional string field as the specification words it: the argument when
it is present as a non-empty string, nothing otherwise (absent, empty, or of another type). -/
def presentNonEmptyString (r : CallToolRequest) (field : String) : Option String :=
  match r.arguments.get field with
  | some (.string s) => if s ≠ "" then some s else none
  | _ => none

/-- The expressions of a URI template: the texts between an opening and the next closing
brace. The second argument holds the expression being read, innermost character first. -/
def scanTemplate : List Char → Option (List Char) → List (List Char)
  | [], _ => []
  | ch :: rest, none =>
    if ch = Char.ofNat 123 then scanTemplate rest (some []) else scanTemplate rest none
  | ch :: rest, some acc =>
    if ch = Char.ofNat 125 then acc.reverse :: scanTemplate rest none
    else scanTemplate rest (some (ch :: acc))

/-- The variable names of one template expression: an operator character in front is
dropped, the names are separated by commas, and a modifier (`*` or `:n`) ends a name. -/
def expressionVariables (expr : List Char) : List String :=
  let body : List Char :=
    match expr with
    | [] => []
    | ch :: rest => if ch ∈ ['+', '#', '.', '/', ';', '?', '&'] then rest else ch :: rest
  (body.splitOn ',').map (fun name => String.mk (name.takeWhile (fun ch => ch != '*' && ch != ':')))

/-- The variables a URI template names, in order. -/
def uriTemplateVariables (template : String) : List String :=
  (scanTemplate template.data none).flatMap expressionVariables

/-- The arguments of a read request resolved from a template bind only variables that the
template names. -/
def ResolvedFrom (template : String) (args : Arguments) : Prop :=
  ∀ key : String, args.get key ≠ none → key ∈ uriTemplateVariables template

/-- The URI templates of the four content resources (default ref, branch, commit, tag). -/
def contentTemplates : List String :=
  ["repo://\x7bnamespace\x7d/\x7bproject\x7d/contents\x7b/path*\x7d",
   "repo://\x7bnamespace\x7d/\x7bproject\x7d/refs/heads/\x7bbranch\x7d/contents\x7b/path*\x7d",
   "repo://\x7bnamespace\x7d/\x7bproject\x7d/sha/\x7bsha\x7d/contents\x7b/path*\x7d",
   "repo://\x7bnamespace\x7d/\x7bproject\x7d/refs/tags/\x7btag\x7d/contents\x7b/path*\x7d"]

/-- A client whose merge request fetch returns one merge request. -/
def mergeRequestFetchStubClient : Client :=
  { sampleClient with
    MergeRequests :=
      { sampleClient.MergeRequests with
        getFunc := fun _ _ =>
          .ok (⟨1, "Test MR", "A change", "opened", some ⟨"Test User"⟩⟩, sampleResponse) } }

/-- A client whose project search returns two matches, the project asked for as `g/p` in
the second place. -/
def manyMatchesStubClient : Client :=
  { sampleClient with
    Search :=
      { sampleClient.Search with
        searchProjectFunc := fun _ =>
          .ok ([⟨"p", "other/p", "https://gitlab.com/other/p"⟩,
                ⟨"p", "g/p", "https://gitlab.com/g/p"⟩], sampleResponse) } }

end Gitlab

namespace Gitlab

/-! ## Parameter extraction -/

theorem Arguments.get_erase_self (m : Arguments) (k : String) : (m.erase k).get k = none := by
  induction m with
  | nil => rfl
  | cons kv rest ih =>
    obtain ⟨a, v⟩ := kv
    by_cases h : a = k
    · subst h
      simpa [Arguments.erase, Arguments.get, List.filter] using ih
    · have hne : (a == k) = false := by simpa using h
      have hne2 : (k == a) = false := by simpa using fun h2 : k = a => h h2.symm
      simp only [Arguments.erase, Arguments.get, List.filter, hne, Bool.not_false,
        List.lookup, hne2] at ih ⊢
      exact ih

theorem Float64.eq_zero_iff (x : Float64) : Float64.eq x Float64.zero = x.isZero := by
  obtain ⟨s, e, f⟩ := x
  by_cases hz : (Float64.isZero ⟨s, e, f⟩) = true
  · have hn : Float64.isNaN ⟨s, e, f⟩ = false := by
      simp only [Float64.isZero, Bool.and_eq_true, beq_iff_eq] at hz
      simp [Float64.isNaN, hz.1]
    have hz0 : Float64.isNaN Float64.zero = false := by decide
    have hz1 : Float64.isZero Float64.zero = true := by decide
    simp [Float64.eq, hn, hz, hz0, hz1]
  · have hz0 : Float64.isNaN Float64.zero = false := by decide
    have hne : (⟨s, e, f⟩ : Float64) ≠ Float64.zero := by
      intro h
      apply hz
      rw [h]
      decide
    simp only [Bool.not_eq_true] at hz
    by_cases hn : Float64.isNaN ⟨s, e, f⟩ = true
    · simp [Float64.eq, hn, hz]
    · simp only [Bool.not_eq_true] at hn
      simp [Float64.eq, hn, hz, hz0, hne]

theorem ParamType.eq_zero_bool (b : Bool) : ParamType.eq b (ParamType.zero : Bool) = !b := by
  cases b <;> rfl

theorem Kind.eq_zero (k : Kind) (x : k.carrier) :
    ParamType.eq x (ParamType.zero : k.carrier) = k.isZero x := by
  cases k with
  | string => rfl
  | number => exact Float64.eq_zero_iff x
  | boolean => exact ParamType.eq_zero_bool x

theorem Kind.assert_inject (k : Kind) (x : k.carrier) :
    (ParamType.assert (k.inject x) : Option k.carrier) = some x := by
  cases k <;> rfl

theorem Kind.assert_eq_none (k : Kind) (v : Value) (h : ∀ x : k.carrier, v ≠ k.inject x) :
    (ParamType.assert v : Option k.carrier) = none := by
  cases k <;> cases v <;> first | rfl | exact absurd rfl (h _)

theorem Kind.typeName_eq (k : Kind) : ParamType.typeName k.carrier = k.goName := by
  cases k <;> rfl

theorem requiredParam_of_nonzero (k : Kind) (r : CallToolRequest) (p : String) (x : k.carrier)
    (hx : r.arguments.get p = some (k.inject x)) (hz : k.isZero x = false) :
    requiredParam k.carrier r p = (x, none) := by
  simp [requiredParam, hx, Kind.assert_inject, Kind.eq_zero, hz]

theorem requiredParam_ok_inv (k : Kind) (r : CallToolRequest) (p : String)
    (h : (requiredParam k.carrier r p).2 = none) :
    ∃ x : k.carrier, r.arguments.get p = some (k.inject x) ∧ k.isZero x = false := by
  unfold requiredParam at h
  cases hg : r.arguments.get p with
  | none => simp [hg] at h
  | some v =>
    simp only [hg] at h
    cases ha : (ParamType.assert v : Option k.carrier) with
    | none => simp [ha] at h
    | some x =>
      simp only [ha, Kind.eq_zero] at h
      cases hz : k.isZero x with
      | true => simp [hz] at h
      | false =>
        refine ⟨x, ?_, hz⟩
        have : v = k.inject x := by
          cases k <;> cases v <;> first
            | (simp only [ParamType.assert, Option.some.injEq] at ha; subst ha; rfl)
            | (simp [ParamType.assert] at ha)
        rw [this]

/-- C1: `requiredParam[T]` succeeds exactly when the key is present with a value of
dynamic type `T` that is not the zero value, and then returns the stored value; an
absent key gives "missing required parameter: p" and a value of another dynamic type
gives "parameter p is not of type T". -/
theorem requiredParam_spec (k : Kind) (r : CallToolRequest) (p : String) :
    ((requiredParam k.carrier r p).2 = none ↔
      ∃ x : k.carrier, r.arguments.get p = some (k.inject x) ∧ k.isZero x = false) ∧
    (∀ x : k.carrier, r.arguments.get p = some (k.inject x) → k.isZero x = false →
      requiredParam k.carrier r p = (x, none)) ∧
    (r.arguments.get p = none →
      requiredParam k.carrier r p
        = (ParamType.zero, some ("missing required parameter: " ++ p))) ∧
    (∀ v : Value, r.arguments.get p = some v → (∀ x : k.carrier, v ≠ k.inject x) →
      requiredParam k.carrier r p
        = (ParamType.zero, some ("parameter " ++ p ++ " is not of type " ++ k.goName))) := by
  refine ⟨⟨requiredParam_ok_inv k r p, ?_⟩, requiredParam_of_nonzero k r p, ?_, ?_⟩
  · rintro ⟨x, hx, hz⟩
    rw [requiredParam_of_nonzero k r p x hx hz]
  · intro h
    simp [requiredParam, h]
  · intro v hv hne
    simp [requiredParam, hv, Kind.assert_eq_none k v hne, Kind.typeName_eq]

end Gitlab

namespace Gitlab

/-- C1 at a concrete request: the stored number `1.0` is returned. -/
theorem requiredParam_spec_witness :
    requiredParam Float64 ⟨"", [("id", Value.number ⟨false, 1023, 0⟩)]⟩ "id"
      = (⟨false, 1023, 0⟩, none) :=
  (requiredParam_spec .number ⟨"", [("id", Value.number ⟨false, 1023, 0⟩)]⟩ "id").2.1
    ⟨false, 1023, 0⟩ (by rfl) (by decide)

/-- C2: when the key is present with the zero value, `requiredParam[T]` returns exactly what
it returns on the same map without the key: the missing-parameter error. -/
theorem requiredParam_zero_eq_absent (k : Kind) (r : CallToolRequest) (p : String)
    (z : k.carrier) (hz : k.isZero z = true) (h : r.arguments.get p = some (k.inject z)) :
    requiredParam k.carrier r p
        = requiredParam k.carrier { r with arguments := r.arguments.erase p } p ∧
      requiredParam k.carrier r p
        = (ParamType.zero, some ("missing required parameter: " ++ p)) := by
  have h1 : requiredParam k.carrier r p
      = (ParamType.zero, some ("missing required parameter: " ++ p)) := by
    simp [requiredParam, h, Kind.assert_inject, Kind.eq_zero, hz]
  have h2 : requiredParam k.carrier { r with arguments := r.arguments.erase p } p
      = (ParamType.zero, some ("missing required parameter: " ++ p)) := by
    simp [requiredParam, Arguments.get_erase_self]
  exact ⟨h1.trans h2.symm, h1⟩

/-- C2 at a concrete request: an explicit empty string for `title`. -/
theorem requiredParam_zero_eq_absent_witness :
    requiredParam String ⟨"", [("title", Value.string ""), ("project", Value.string "p")]⟩ "title"
        = requiredParam String
            ⟨"", Arguments.erase [("title", Value.string ""), ("project", Value.string "p")]
              "title"⟩ "title" ∧
      requiredParam String ⟨"", [("title", Value.string ""), ("project", Value.string "p")]⟩
          "title"
        = ("", some ("missing required parameter: " ++ "title")) :=
  requiredParam_zero_eq_absent .string
    ⟨"", [("title", Value.string ""), ("project", Value.string "p")]⟩ "title" "" (by decide)
    (by rfl)

/-- C3: `OptionalParam[T]` returns the zero value and no error when the key is absent, the
type-mismatch error when the value has another dynamic type, and otherwise the stored
value unchanged and no error, the zero value included. -/
theorem OptionalParam_spec (k : Kind) (r : CallToolRequest) (p : String) :
    (r.arguments.get p = none → OptionalParam k.carrier r p = (ParamType.zero, none)) ∧
    (∀ v : Value, r.arguments.get p = some v → (∀ x : k.carrier, v ≠ k.inject x) →
      OptionalParam k.carrier r p
        = (ParamType.zero,
            some ("parameter " ++ p ++ " is not of type " ++ k.goName ++ ", is " ++ v.typeName))) ∧
    (∀ x : k.carrier, r.arguments.get p = some (k.inject x) →
      OptionalParam k.carrier r p = (x, none)) := by
  refine ⟨?_, ?_, ?_⟩
  · intro h
    simp [OptionalParam, h]
  · intro v hv hne
    simp [OptionalParam, hv, Kind.assert_eq_none k v hne, Kind.typeName_eq]
  · intro x hx
    simp [OptionalParam, hx, Kind.assert_inject]

/-- C3 at a concrete request: a present `false` is returned as it is. -/
theorem OptionalParam_spec_witness :
    OptionalParam Bool ⟨"", [("confidential", Value.bool false)]⟩ "confidential"
      = (false, none) :=
  (OptionalParam_spec .boolean ⟨"", [("confidential", Value.bool false)]⟩ "confidential").2.2
    false (by rfl)

end Gitlab

namespace Gitlab

/-! ## The conversion to `int` -/

theorem Float64.floor_magnitude (x : Float64) :
    ⌊(x.significand : ℚ) * (2 : ℚ) ^ ((x.scale : Int) - 1075)⌋ = (x.truncMag : Int) := by
  unfold Float64.truncMag
  by_cases h : 1075 ≤ x.scale
  · rw [if_pos h]
    have he : ((x.scale : Int) - 1075) = ((x.scale - 1075 : Nat) : Int) := by omega
    rw [he, zpow_natCast, Nat.shiftLeft_eq]
    have hc : (x.significand : ℚ) * (2 : ℚ) ^ (x.scale - 1075)
        = (((x.significand * 2 ^ (x.scale - 1075) : Nat) : Int) : ℚ) := by
      push_cast
      ring
    rw [hc, Int.floor_intCast]
  · rw [if_neg h]
    have he : ((x.scale : Int) - 1075) = -((1075 - x.scale : Nat) : Int) := by omega
    rw [he, zpow_neg, zpow_natCast, Nat.shiftRight_eq_div_pow]
    have hc : (x.significand : ℚ) * ((2 : ℚ) ^ (1075 - x.scale))⁻¹
        = ((x.significand : Nat) : ℚ) / ((2 ^ (1075 - x.scale) : Nat) : ℚ) := by
      push_cast
      rw [div_eq_mul_inv]
    rw [hc, Rat.floor_natCast_div_natCast]
    norm_cast

theorem Float64.magnitude_nonneg (x : Float64) :
    (0 : ℚ) ≤ (x.significand : ℚ) * (2 : ℚ) ^ ((x.scale : Int) - 1075) := by
  positivity

/-- The bit-level truncation is rounding toward zero of the number denoted. -/
theorem Float64.trunc_eq (x : Float64) : x.trunc = truncTowardZero x.toRat := by
  have hf := Float64.floor_magnitude x
  have hn := Float64.magnitude_nonneg x
  unfold Float64.trunc Float64.toRat truncTowardZero
  cases hs : x.sign with
  | false =>
    simp only [Bool.false_eq_true, if_false, one_mul]
    rw [if_pos hn, hf]
  | true =>
    simp only [if_true]
    have hm : (-1 : ℚ) * (x.significand : ℚ) * (2 : ℚ) ^ ((x.scale : Int) - 1075)
        = -((x.significand : ℚ) * (2 : ℚ) ^ ((x.scale : Int) - 1075)) := by ring
    rw [hm]
    by_cases h0 : (0 : ℚ) ≤ -((x.significand : ℚ) * (2 : ℚ) ^ ((x.scale : Int) - 1075))
    · rw [if_pos h0]
      have hz : (x.significand : ℚ) * (2 : ℚ) ^ ((x.scale : Int) - 1075) = 0 := by linarith
      rw [hz] at hf
      rw [hz]
      simp only [Int.floor_zero] at hf
      simp [← hf]
    · rw [if_neg h0, Int.ceil_neg, hf]

theorem truncTowardZero_eq_zero_iff (q : ℚ) : truncTowardZero q = 0 ↔ |q| < 1 := by
  unfold truncTowardZero
  by_cases h : 0 ≤ q
  · rw [if_pos h, Int.floor_eq_zero_iff, abs_of_nonneg h]
    simp [Set.mem_Ico, h]
  · have hq : q < 0 := lt_of_not_le h
    rw [if_neg h, Int.ceil_eq_zero_iff, abs_of_neg hq]
    simp only [Set.mem_Ioc]
    constructor
    · rintro ⟨h1, _⟩
      linarith
    · intro h1
      exact ⟨by linarith, le_of_lt hq⟩

theorem requiredParam_number_ok (r : CallToolRequest) (p : String) (v : Float64)
    (h : r.arguments.get p = some (Value.number v)) (hz : v.isZero = false) :
    requiredParam Float64 r p = (v, none) :=
  requiredParam_of_nonzero .number r p v h hz

theorem requiredParam_number_inv (r : CallToolRequest) (p : String) (v : Float64)
    (h : requiredParam Float64 r p = (v, none)) :
    r.arguments.get p = some (Value.number v) ∧ v.isZero = false := by
  have h2 : (requiredParam Float64 r p).2 = none := by rw [h]
  obtain ⟨x, hx, hxz⟩ := requiredParam_ok_inv .number r p h2
  have h3 := requiredParam_of_nonzero .number r p x hx hxz
  have hv : x = v := by
    have := h3.symm.trans h
    exact (Prod.mk.inj this).1
  subst hv
  exact ⟨hx, hxz⟩

/-- C4: `RequiredInt` fails exactly when `requiredParam[float64]` fails, with the same
error; a stored number that is not zero and whose truncation `int` can represent is
returned truncated toward zero. -/
theorem RequiredInt_spec (pf : Platform) (r : CallToolRequest) (p : String) :
    (RequiredInt pf r p).2 = (requiredParam Float64 r p).2 ∧
    (∀ v : Float64, r.arguments.get p = some (Value.number v) → v.isZero = false →
      v.isFinite = true →
      -(2 ^ (pf.intBits - 1) : Int) ≤ truncTowardZero v.toRat →
      truncTowardZero v.toRat < (2 ^ (pf.intBits - 1) : Int) →
      RequiredInt pf r p = (truncTowardZero v.toRat, none)) := by
  constructor
  · unfold RequiredInt
    rcases hq : requiredParam Float64 r p with ⟨v, _ | e⟩ <;> rfl
  · intro v hv hz hfin hlo hhi
    unfold RequiredInt
    rw [requiredParam_number_ok r p v hv hz]
    simp only [Platform.toInt]
    rw [Float64.trunc_eq, if_pos ⟨hfin, hlo, hhi⟩]

end Gitlab

namespace Gitlab

/-- C4 at a concrete request: on a 64-bit platform the stored number `-3.75` gives `-3`. -/
theorem RequiredInt_spec_witness :
    RequiredInt amd64 ⟨"", [("id", Value.number ⟨true, 1024, 3940649673949184⟩)]⟩ "id"
      = (-3, none) := by
  have h := (RequiredInt_spec amd64
    ⟨"", [("id", Value.number ⟨true, 1024, 3940649673949184⟩)]⟩ "id").2
    ⟨true, 1024, 3940649673949184⟩ rfl (by decide) (by decide)
    (by rw [← Float64.trunc_eq]; decide) (by rw [← Float64.trunc_eq]; decide)
  rw [← Float64.trunc_eq] at h
  exact h

theorem Float64.toRat_ne_zero (v : Float64) (hz : v.isZero = false) : v.toRat ≠ 0 := by
  have hs : v.significand ≠ 0 := by
    unfold Float64.significand
    by_cases he : v.expo.val = 0
    · rw [if_pos he]
      intro hf
      simp [Float64.isZero, he, hf] at hz
    · rw [if_neg he]
      omega
  have hsq : (v.significand : ℚ) ≠ 0 := by exact_mod_cast hs
  have hp : (2 : ℚ) ^ ((v.scale : Int) - 1075) ≠ 0 := zpow_ne_zero _ (by norm_num)
  unfold Float64.toRat
  cases v.sign <;> simp [hsq, hp]

/-- C5, refuted as stated: on a 64-bit platform the stored number `0.5` passes the
non-zero check and `RequiredInt` returns the integer `0` without error. -/
theorem RequiredInt_returns_zero :
    RequiredInt amd64 ⟨"", [("id", Value.number ⟨false, 1022, 0⟩)]⟩ "id" = (0, none) := by
  decide

/-- C5, amended: whenever `RequiredInt` returns without error the stored value is a number
different from zero and the result is its conversion to `int`; when that number is finite
and its truncation fits `int`, the result is zero exactly when the magnitude of the number
is below one. -/
theorem RequiredInt_ok (pf : Platform) (r : CallToolRequest) (p : String) (n : Int)
    (h : RequiredInt pf r p = (n, none)) :
    ∃ v : Float64, r.arguments.get p = some (Value.number v) ∧ v.isZero = false ∧
      v.toRat ≠ 0 ∧ n = pf.toInt v ∧
      (v.isFinite = true → -(2 ^ (pf.intBits - 1) : Int) ≤ truncTowardZero v.toRat →
        truncTowardZero v.toRat < (2 ^ (pf.intBits - 1) : Int) → (n = 0 ↔ |v.toRat| < 1)) := by
  unfold RequiredInt at h
  rcases hq : requiredParam Float64 r p with ⟨v, _ | e⟩
  · rw [hq] at h
    simp only [Prod.mk.injEq, and_true] at h
    obtain ⟨hv, hz⟩ := requiredParam_number_inv r p v hq
    refine ⟨v, hv, hz, Float64.toRat_ne_zero v hz, h.symm, ?_⟩
    intro hfin hlo hhi
    rw [← h, Platform.toInt, Float64.trunc_eq, if_pos ⟨hfin, hlo, hhi⟩]
    exact truncTowardZero_eq_zero_iff _
  · rw [hq] at h
    simp at h

/-- C5, amended, at the request with the stored number `0.5`. -/
theorem RequiredInt_ok_witness :
    ∃ v : Float64,
      Arguments.get [("id", Value.number ⟨false, 1022, 0⟩)] "id" = some (Value.number v) ∧
      v.isZero = false ∧ v.toRat ≠ 0 ∧ (0 : Int) = amd64.toInt v ∧
      (v.isFinite = true → -(2 ^ (amd64.intBits - 1) : Int) ≤ truncTowardZero v.toRat →
        truncTowardZero v.toRat < (2 ^ (amd64.intBits - 1) : Int) →
        ((0 : Int) = 0 ↔ |v.toRat| < 1)) :=
  RequiredInt_ok amd64 ⟨"", [("id", Value.number ⟨false, 1022, 0⟩)]⟩ "id" 0 (by decide)

end Gitlab

namespace Gitlab

/-! ## Laws of handler bodies -/

namespace Exec

variable {ρ α β : Type}

@[simp]
theorem bind_eq (m : Exec ρ α) (f : α → Exec ρ β) : (m >>= f) = Exec.bind m f := rfl

@[simp]
theorem pure_eq (a : α) : (Pure.pure a : Exec ρ α) = Exec.pure a := rfl

@[simp]
theorem bind_pure_left (a : α) (f : α → Exec ρ β) : Exec.bind (Exec.pure a) f = f a := by
  simp [Exec.bind, Exec.pure]

@[simp]
theorem bind_done (o : Outcome ρ) (f : α → Exec ρ β) : Exec.bind (Exec.done o) f = Exec.done o := by
  simp [Exec.bind, Exec.done]

@[simp]
theorem bind_fail (e : String) (f : α → Exec ρ β) : Exec.bind (Exec.fail e) f = Exec.fail e := by
  simp [Exec.fail, bind_done]

@[simp]
theorem bind_panic (e : String) (f : α → Exec ρ β) :
    Exec.bind (Exec.panic e) f = Exec.panic e := by
  simp [Exec.panic, bind_done]

@[simp]
theorem bind_soft (e : String) (f : α → Exec CallToolResult β) :
    Exec.bind (Exec.soft e) f = Exec.soft e := by
  simp [Exec.soft, bind_done]

@[simp]
theorem bind_emit (e : Event) (a : α) (f : α → Exec ρ β) :
    Exec.bind (Exec.emit e a) f = Exec.after e (f a) := by
  simp [Exec.bind, Exec.emit, Exec.after]

@[simp]
theorem bind_after (e : Event) (m : Exec ρ α) (f : α → Exec ρ β) :
    Exec.bind (Exec.after e m) f = Exec.after e (Exec.bind m f) := by
  unfold Exec.bind Exec.after
  cases m.next <;> simp

@[simp]
theorem run_after (e : Event) (m : Exec ρ (Outcome ρ)) :
    Exec.run (Exec.after e m) = ⟨e :: (Exec.run m).trace, (Exec.run m).outcome⟩ := by
  unfold Exec.run Exec.after
  cases m.next <;> rfl

@[simp]
theorem run_done (o : Outcome ρ) : Exec.run (Exec.done o) = ⟨[], o⟩ := rfl

@[simp]
theorem run_fail (e : String) :
    Exec.run (Exec.fail e : Exec ρ (Outcome ρ)) = ⟨[], .ret none (some e)⟩ := rfl

@[simp]
theorem run_panic (e : String) :
    Exec.run (Exec.panic e : Exec ρ (Outcome ρ)) = ⟨[], .panic e⟩ := rfl

@[simp]
theorem run_soft (e : String) :
    Exec.run (Exec.soft e : Exec CallToolResult (Outcome CallToolResult))
      = ⟨[], .ret (some (NewToolResultError e)) none⟩ := rfl

@[simp]
theorem run_pure (o : Outcome ρ) : Exec.run (Exec.pure o) = ⟨[], o⟩ := rfl

@[simp]
theorem orFail_ok (a : α) : (Exec.orFail (a, none) : Exec ρ α) = Exec.pure a := rfl

@[simp]
theorem orFail_err (a : α) (e : String) : (Exec.orFail (a, some e) : Exec ρ α) = Exec.fail e := rfl

@[simp]
theorem orSoft_ok (a : α) : Exec.orSoft (a, none) = Exec.pure a := rfl

@[simp]
theorem orSoft_err (a : α) (e : String) : Exec.orSoft (a, some e) = Exec.soft e := rfl

@[simp]
theorem orFailWrap_ok (pre : String) (a : α) :
    (Exec.orFailWrap pre (.ok a) : Exec ρ α) = Exec.pure a := rfl

@[simp]
theorem orFailWrap_err (pre e : String) :
    (Exec.orFailWrap pre (.error e) : Exec ρ α) = Exec.fail (pre ++ e) := rfl

@[simp]
theorem orSoftWrap_ok (pre : String) (a : α) : Exec.orSoftWrap pre (.ok a) = Exec.pure a := rfl

@[simp]
theorem orSoftWrap_err (pre e : String) :
    (Exec.orSoftWrap pre (.error e) : Exec CallToolResult α) = Exec.soft (pre ++ e) := rfl

end Exec

theorem GetClientFn.call_client {ρ : Type} (getClient : GetClientFn) (ctx : Context)
    (c : Client) (h : getClient ctx = .client c) :
    (GetClientFn.call getClient ctx : Exec ρ _) = Exec.emit .getClient (.ok c) := by
  simp [GetClientFn.call, h]

theorem GetClientFn.call_failed {ρ : Type} (getClient : GetClientFn) (ctx : Context)
    (e : String) (h : getClient ctx = .failed e) :
    (GetClientFn.call getClient ctx : Exec ρ _) = Exec.emit .getClient (.error e) := by
  simp [GetClientFn.call, h]

theorem GetClientFn.call_panicked {ρ : Type} (getClient : GetClientFn) (ctx : Context)
    (msg : String) (h : getClient ctx = .panicked msg) :
    (GetClientFn.call getClient ctx : Exec ρ (Except String Client))
      = Exec.after .getClient (Exec.panic msg) := by
  simp [GetClientFn.call, h, Exec.after, Exec.panic, Exec.done]

end Gitlab

namespace Gitlab

/-! ## `RequiredString` and the handlers that extract with it -/

theorem RequiredString_string (r : CallToolRequest) (p s : String)
    (h : r.arguments.get p = some (Value.string s)) : RequiredString r p = (s, none) := by
  simp [RequiredString, h]

theorem SearchProjectsHandler_trace (env : Env) (getClient : GetClientFn) (ctx : Context)
    (c : Client) (r : CallToolRequest) (q : String) (hc : getClient ctx = .client c)
    (hq : r.arguments.get "query" = some (Value.string q)) :
    (SearchProjectsHandler env getClient ctx r).trace
      = [.getClient, .upstream (.searchProjects q)] := by
  simp only [SearchProjectsHandler, Exec.bind_eq, Exec.pure_eq, GetClientFn.call_client _ _ c hc,
    RequiredString_string r _ q hq, SearchService.Projects, Exec.bind_emit, Exec.bind_after,
    Exec.bind_pure_left, Exec.orFailWrap_ok, Exec.orFail_ok, Exec.run_after]
  rcases c.Search.searchProjectFunc q with e | ⟨ps, resp⟩
  · simp
  · rcases h : env.marshalProjects ps with e | js <;> simp [h]

theorem SearchMergeRequestsHandler_trace (env : Env) (getClient : GetClientFn) (ctx : Context)
    (c : Client) (r : CallToolRequest) (q : String) (hc : getClient ctx = .client c)
    (hq : r.arguments.get "query" = some (Value.string q)) :
    (SearchMergeRequestsHandler env getClient ctx r).trace
      = [.getClient, .upstream (.searchMergeRequests q)] := by
  simp only [SearchMergeRequestsHandler, Exec.bind_eq, Exec.pure_eq,
    GetClientFn.call_client _ _ c hc, RequiredString_string r _ q hq, SearchService.MergeRequests,
    Exec.bind_emit, Exec.bind_after, Exec.bind_pure_left, Exec.orFailWrap_ok, Exec.orFail_ok,
    Exec.run_after]
  rcases c.Search.searchMergeRequestFunc q with e | ⟨ps, resp⟩
  · simp
  · rcases h : env.marshalMergeRequests ps with e | js <;> simp [h]

theorem SearchUsersHandler_trace (env : Env) (getClient : GetClientFn) (ctx : Context)
    (c : Client) (r : CallToolRequest) (q : String) (hc : getClient ctx = .client c)
    (hq : r.arguments.get "query" = some (Value.string q)) :
    (SearchUsersHandler env getClient ctx r).trace
      = [.getClient, .upstream (.searchUsers q)] := by
  simp only [SearchUsersHandler, Exec.bind_eq, Exec.pure_eq, GetClientFn.call_client _ _ c hc,
    RequiredString_string r _ q hq, SearchService.Users, Exec.bind_emit, Exec.bind_after,
    Exec.bind_pure_left, Exec.orFailWrap_ok, Exec.orFail_ok, Exec.run_after]
  rcases c.Search.searchUserFunc q with e | ⟨ps, resp⟩
  · simp
  · rcases h : env.marshalUsers ps with e | js <;> simp [h]

theorem GetRepositoryHandler_trace (getClient : GetClientFn) (ctx : Context)
    (c : Client) (r : CallToolRequest) (ns pr : String) (hc : getClient ctx = .client c)
    (hn : r.arguments.get "namespace" = some (Value.string ns))
    (hp : r.arguments.get "project" = some (Value.string pr)) :
    (GetRepositoryHandler getClient ctx r).trace
      = [.getClient, .upstream (.searchProjects (ns ++ "/" ++ pr))] := by
  simp only [GetRepositoryHandler, Exec.bind_eq, Exec.pure_eq, GetClientFn.call_client _ _ c hc,
    RequiredString_string r _ ns hn, RequiredString_string r _ pr hp, SearchService.Projects,
    Exec.bind_emit, Exec.bind_after, Exec.bind_pure_left, Exec.orFailWrap_ok, Exec.orFail_ok,
    Exec.run_after]
  rcases c.Search.searchProjectFunc (ns ++ "/" ++ pr) with e | ⟨ps, resp⟩
  · simp
  · cases ps <;> simp

/-- C6, refuted as stated: `RequiredString` on a present empty string returns it without
any error, so no missing-parameter error is reported. -/
theorem RequiredString_accepts_empty :
    RequiredString ⟨"", [("query", Value.string "")]⟩ "query" = ("", none) ∧
      (RequiredString ⟨"", [("query", Value.string "")]⟩ "query").2
        ≠ some "missing required parameter: query" := by
  decide

/-- C6, amended: `RequiredString` fails with "missing required parameter: p" when the key is
absent and with "parameter p is not a string" when the value is not a string, and returns
every stored string, the empty one included, without error; so when the client accessor
returns a client, `search_projects`, `search_merge_requests`, `search_users` and
`get_repository` pass whatever strings are stored, the empty one included, to the
upstream search. -/
theorem RequiredString_spec (env : Env) (getClient : GetClientFn) (ctx : Context) (c : Client)
    (r : CallToolRequest) (hc : getClient ctx = .client c) :
    (∀ p : String, r.arguments.get p = none →
      RequiredString r p = ("", some ("missing required parameter: " ++ p))) ∧
    (∀ (p : String) (v : Value), r.arguments.get p = some v → (∀ s : String, v ≠ Value.string s) →
      RequiredString r p = ("", some ("parameter " ++ p ++ " is not a string"))) ∧
    (∀ p s : String, r.arguments.get p = some (Value.string s) → RequiredString r p = (s, none)) ∧
    (∀ q : String, r.arguments.get "query" = some (Value.string q) →
      (SearchProjectsHandler env getClient ctx r).trace
          = [.getClient, .upstream (.searchProjects q)] ∧
        (SearchMergeRequestsHandler env getClient ctx r).trace
          = [.getClient, .upstream (.searchMergeRequests q)] ∧
        (SearchUsersHandler env getClient ctx r).trace
          = [.getClient, .upstream (.searchUsers q)]) ∧
    (∀ ns pr : String, r.arguments.get "namespace" = some (Value.string ns) →
      r.arguments.get "project" = some (Value.string pr) →
      (GetRepositoryHandler getClient ctx r).trace
        = [.getClient, .upstream (.searchProjects (ns ++ "/" ++ pr))]) := by
  refine ⟨?_, ?_, ?_, ?_, ?_⟩
  · intro p h
    simp [RequiredString, h]
  · intro p v h hne
    cases v <;> first | (simp [RequiredString, h]; done) | exact absurd rfl (hne _)
  · intro p s h
    exact RequiredString_string r p s h
  · intro q hq
    exact ⟨SearchProjectsHandler_trace env getClient ctx c r q hc hq,
      SearchMergeRequestsHandler_trace env getClient ctx c r q hc hq,
      SearchUsersHandler_trace env getClient ctx c r q hc hq⟩
  · intro ns pr hn hp
    exact GetRepositoryHandler_trace getClient ctx c r ns pr hc hn hp

end Gitlab

namespace Gitlab

/-! ## What every handler does before it reaches the upstream service -/

theorem ToolId.handler_extraction_failure (tool : ToolId) (env : Env) (getClient : GetClientFn)
    (ctx : Context) (r : CallToolRequest) (c : Client) (e : String)
    (hc : getClient ctx = .client c)
    (h : firstError env.platform r tool.requiredExtractions = some e) :
    tool.handler env getClient ctx r = ⟨[.getClient], tool.onExtractionError.report e⟩ := by
  cases tool
  case get_issue =>
    simp only [ToolId.handler, GetIssueHandler, ToolId.requiredExtractions, firstError,
      Extraction.error, ToolId.onExtractionError, Propagation.report,
      GetClientFn.call_client _ _ c hc] at h ⊢
    rcases h1 : requiredParam String r "namespace" with ⟨v1, _ | e1⟩
    · rcases h2 : requiredParam String r "project" with ⟨v2, _ | e2⟩
      · rcases h3 : requiredParam Float64 r "id" with ⟨v3, _ | e3⟩
        · simp_all
        · simp_all
      · simp_all
    · simp_all
  case list_issues =>
    simp only [ToolId.handler, ListIssuesHandler, ToolId.requiredExtractions, firstError,
      Extraction.error, ToolId.onExtractionError, Propagation.report,
      GetClientFn.call_client _ _ c hc] at h ⊢
    rcases h1 : requiredParam String r "namespace" with ⟨v1, _ | e1⟩
    · rcases h2 : requiredParam String r "project" with ⟨v2, _ | e2⟩
      · simp_all
      · simp_all
    · simp_all
  case search_issues =>
    simp only [ToolId.handler, SearchIssuesHandler, ToolId.requiredExtractions, firstError,
      Extraction.error, ToolId.onExtractionError, Propagation.report,
      GetClientFn.call_client _ _ c hc] at h ⊢
    rcases h1 : requiredParam String r "namespace" with ⟨v1, _ | e1⟩
    · rcases h2 : requiredParam String r "project" with ⟨v2, _ | e2⟩
      · rcases h3 : requiredParam String r "query" with ⟨v3, _ | e3⟩
        · simp_all
        · simp_all
      · simp_all
    · simp_all
  case get_issue_comments =>
    simp only [ToolId.handler, GetIssueCommentsHandler, ToolId.requiredExtractions, firstError,
      Extraction.error, ToolId.onExtractionError, Propagation.report,
      GetClientFn.call_client _ _ c hc] at h ⊢
    rcases h1 : requiredParam String r "namespace" with ⟨v1, _ | e1⟩
    · rcases h2 : requiredParam String r "project" with ⟨v2, _ | e2⟩
      · rcases h3 : RequiredInt env.platform r "id" with ⟨v3, _ | e3⟩
        · simp_all
        · simp_all
      · simp_all
    · simp_all
  case create_issue =>
    simp only [ToolId.handler, CreateIssueHandler, ToolId.requiredExtractions, firstError,
      Extraction.error, ToolId.onExtractionError, Propagation.report,
      GetClientFn.call_client _ _ c hc] at h ⊢
    rcases h1 : requiredParam String r "namespace" with ⟨v1, _ | e1⟩
    · rcases h2 : requiredParam String r "project" with ⟨v2, _ | e2⟩
      · rcases h3 : requiredParam String r "title" with ⟨v3, _ | e3⟩
        · simp_all
        · simp_all
      · simp_all
    · simp_all
  case add_issue_comment =>
    simp only [ToolId.handler, AddIssueCommentHandler, ToolId.requiredExtractions, firstError,
      Extraction.error, ToolId.onExtractionError, Propagation.report,
      GetClientFn.call_client _ _ c hc] at h ⊢
    rcases h1 : requiredParam String r "namespace" with ⟨v1, _ | e1⟩
    · rcases h2 : requiredParam String r "project" with ⟨v2, _ | e2⟩
      · rcases h3 : RequiredInt env.platform r "id" with ⟨v3, _ | e3⟩
        · rcases h4 : requiredParam String r "body" with ⟨v4, _ | e4⟩
          · simp_all
          · simp_all
        · simp_all
      · simp_all
    · simp_all
  case update_issue =>
    simp only [ToolId.handler, UpdateIssueHandler, ToolId.requiredExtractions, firstError,
      Extraction.error, ToolId.onExtractionError, Propagation.report,
      GetClientFn.call_client _ _ c hc] at h ⊢
    rcases h1 : requiredParam String r "namespace" with ⟨v1, _ | e1⟩
    · rcases h2 : requiredParam String r "project" with ⟨v2, _ | e2⟩
      · rcases h3 : RequiredInt env.platform r "id" with ⟨v3, _ | e3⟩
        · simp_all
        · simp_all
      · simp_all
    · simp_all
  case get_merge_request =>
    simp only [ToolId.handler, GetMergeRequestHandler, ToolId.requiredExtractions, firstError,
      Extraction.error, ToolId.onExtractionError, Propagation.report,
      GetClientFn.call_client _ _ c hc] at h ⊢
    rcases h1 : RequiredString r "namespace" with ⟨v1, _ | e1⟩
    · rcases h2 : RequiredString r "project" with ⟨v2, _ | e2⟩
      · rcases h3 : RequiredInt env.platform r "id" with ⟨v3, _ | e3⟩
        · simp_all
        · simp_all
      · simp_all
    · simp_all
  case list_merge_requests =>
    simp only [ToolId.handler, ListMergeRequestsHandler, ToolId.requiredExtractions, firstError,
      Extraction.error, ToolId.onExtractionError, Propagation.report,
      GetClientFn.call_client _ _ c hc] at h ⊢
    rcases h1 : requiredParam String r "namespace" with ⟨v1, _ | e1⟩
    · rcases h2 : requiredParam String r "project" with ⟨v2, _ | e2⟩
      · simp_all
      · simp_all
    · simp_all
  case get_merge_request_comments =>
    simp only [ToolId.handler, GetMergeRequestCommentsHandler, ToolId.requiredExtractions,
    firstError,
      Extraction.error, ToolId.onExtractionError, Propagation.report,
      GetClientFn.call_client _ _ c hc] at h ⊢
    rcases h1 : requiredParam String r "namespace" with ⟨v1, _ | e1⟩
    · rcases h2 : requiredParam String r "project" with ⟨v2, _ | e2⟩
      · rcases h3 : requiredParam String r "id" with ⟨v3, _ | e3⟩
        · simp_all
        · simp_all
      · simp_all
    · simp_all
  case create_merge_request =>
    simp only [ToolId.handler, CreateMergeRequestHandler, ToolId.requiredExtractions, firstError,
      Extraction.error, ToolId.onExtractionError, Propagation.report,
      GetClientFn.call_client _ _ c hc] at h ⊢
    rcases h1 : requiredParam String r "namespace" with ⟨v1, _ | e1⟩
    · rcases h2 : requiredParam String r "project" with ⟨v2, _ | e2⟩
      · rcases h3 : requiredParam String r "title" with ⟨v3, _ | e3⟩
        · rcases h4 : requiredParam String r "description" with ⟨v4, _ | e4⟩
          · rcases h5 : requiredParam String r "source_branch" with ⟨v5, _ | e5⟩
            · rcases h6 : requiredParam String r "target_branch" with ⟨v6, _ | e6⟩
              · simp_all
              · simp_all
            · simp_all
          · simp_all
        · simp_all
      · simp_all
    · simp_all
  case add_merge_request_comment =>
    simp only [ToolId.handler, AddMergeRequestCommentHandler, ToolId.requiredExtractions,
    firstError,
      Extraction.error, ToolId.onExtractionError, Propagation.report,
      GetClientFn.call_client _ _ c hc] at h ⊢
    rcases h1 : requiredParam String r "namespace" with ⟨v1, _ | e1⟩
    · rcases h2 : requiredParam String r "project" with ⟨v2, _ | e2⟩
      · rcases h3 : requiredParam String r "id" with ⟨v3, _ | e3⟩
        · rcases h4 : requiredParam String r "body" with ⟨v4, _ | e4⟩
          · simp_all
          · simp_all
        · simp_all
      · simp_all
    · simp_all
  case update_merge_request =>
    simp only [ToolId.handler, UpdateMergeRequestHandler, ToolId.requiredExtractions, firstError,
      Extraction.error, ToolId.onExtractionError, Propagation.report,
      GetClientFn.call_client _ _ c hc] at h ⊢
    rcases h1 : requiredParam String r "namespace" with ⟨v1, _ | e1⟩
    · rcases h2 : requiredParam String r "project" with ⟨v2, _ | e2⟩
      · rcases h3 : requiredParam String r "id" with ⟨v3, _ | e3⟩
        · simp_all
        · simp_all
      · simp_all
    · simp_all
  case get_repository =>
    simp only [ToolId.handler, GetRepositoryHandler, ToolId.requiredExtractions, firstError,
      Extraction.error, ToolId.onExtractionError, Propagation.report,
      GetClientFn.call_client _ _ c hc] at h ⊢
    rcases h1 : RequiredString r "namespace" with ⟨v1, _ | e1⟩
    · rcases h2 : RequiredString r "project" with ⟨v2, _ | e2⟩
      · simp_all
      · simp_all
    · simp_all
  case list_repositories =>
    simp only [ToolId.handler, ListRepositoriesHandler, ToolId.requiredExtractions, firstError,
      Extraction.error, ToolId.onExtractionError, Propagation.report,
      GetClientFn.call_client _ _ c hc] at h ⊢
    simp at h
  case search_repositories =>
    simp only [ToolId.handler, SearchRepositoriesHandler, ToolId.requiredExtractions, firstError,
      Extraction.error, ToolId.onExtractionError, Propagation.report,
      GetClientFn.call_client _ _ c hc] at h ⊢
    rcases h1 : requiredParam String r "query" with ⟨v1, _ | e1⟩
    · simp_all
    · simp_all
  case search_projects =>
    simp only [ToolId.handler, SearchProjectsHandler, ToolId.requiredExtractions, firstError,
      Extraction.error, ToolId.onExtractionError, Propagation.report,
      GetClientFn.call_client _ _ c hc] at h ⊢
    rcases h1 : RequiredString r "query" with ⟨v1, _ | e1⟩
    · simp_all
    · simp_all
  case search_merge_requests =>
    simp only [ToolId.handler, SearchMergeRequestsHandler, ToolId.requiredExtractions, firstError,
      Extraction.error, ToolId.onExtractionError, Propagation.report,
      GetClientFn.call_client _ _ c hc] at h ⊢
    rcases h1 : RequiredString r "query" with ⟨v1, _ | e1⟩
    · simp_all
    · simp_all
  case search_users =>
    simp only [ToolId.handler, SearchUsersHandler, ToolId.requiredExtractions, firstError,
      Extraction.error, ToolId.onExtractionError, Propagation.report,
      GetClientFn.call_client _ _ c hc] at h ⊢
    rcases h1 : RequiredString r "query" with ⟨v1, _ | e1⟩
    · simp_all
    · simp_all
  case get_me =>
    simp only [ToolId.handler, GetMeHandler, ToolId.requiredExtractions, firstError,
      Extraction.error, ToolId.onExtractionError, Propagation.report,
      GetClientFn.call_client _ _ c hc] at h ⊢
    simp at h
  case get_user_profile =>
    simp only [ToolId.handler, GetUserProfileHandler, ToolId.requiredExtractions, firstError,
      Extraction.error, ToolId.onExtractionError, Propagation.report,
      GetClientFn.call_client _ _ c hc] at h ⊢
    rcases h1 : RequiredString r "username" with ⟨v1, _ | e1⟩
    · simp_all
    · simp_all
  case list_user_groups =>
    simp only [ToolId.handler, ListUserGroupsHandler, ToolId.requiredExtractions, firstError,
      Extraction.error, ToolId.onExtractionError, Propagation.report,
      GetClientFn.call_client _ _ c hc] at h ⊢
    rcases h1 : assertString (r.arguments.get "username") with _ | v1
    · simp_all
    · simp_all
  case get_user_permissions =>
    simp only [ToolId.handler, GetUserPermissionsHandler, ToolId.requiredExtractions, firstError,
      Extraction.error, ToolId.onExtractionError, Propagation.report,
      GetClientFn.call_client _ _ c hc] at h ⊢
    rcases h1 : assertString (r.arguments.get "project_id") with _ | v1
    · simp_all
    · rcases h2 : assertString (r.arguments.get "username") with _ | v2
      · simp_all
      · simp_all

theorem ToolId.handler_client_failed (tool : ToolId) (env : Env) (getClient : GetClientFn)
    (ctx : Context) (r : CallToolRequest) (e : String) (hc : getClient ctx = .failed e) :
    tool.handler env getClient ctx r
      = ⟨[.getClient], tool.onClientError.report ("failed to get GitLab client: " ++ e)⟩ := by
  cases tool <;>
    simp [ToolId.handler, ToolId.onClientError, Propagation.report,
      GetClientFn.call_failed _ _ e hc, Exec.after,
      GetIssueHandler, ListIssuesHandler, SearchIssuesHandler, GetIssueCommentsHandler,
      CreateIssueHandler, AddIssueCommentHandler, UpdateIssueHandler, GetMergeRequestHandler,
      ListMergeRequestsHandler, GetMergeRequestCommentsHandler, CreateMergeRequestHandler,
      AddMergeRequestCommentHandler, UpdateMergeRequestHandler, GetRepositoryHandler,
      ListRepositoriesHandler, SearchRepositoriesHandler, SearchProjectsHandler,
      SearchMergeRequestsHandler, SearchUsersHandler, GetMeHandler, GetUserProfileHandler,
      ListUserGroupsHandler, GetUserPermissionsHandler] <;> rfl

theorem ToolId.handler_client_panicked (tool : ToolId) (env : Env) (getClient : GetClientFn)
    (ctx : Context) (r : CallToolRequest) (msg : String) (hc : getClient ctx = .panicked msg) :
    tool.handler env getClient ctx r = ⟨[.getClient], .panic msg⟩ := by
  cases tool <;>
    simp [ToolId.handler, GetClientFn.call_panicked _ _ msg hc,
      GetIssueHandler, ListIssuesHandler, SearchIssuesHandler, GetIssueCommentsHandler,
      CreateIssueHandler, AddIssueCommentHandler, UpdateIssueHandler, GetMergeRequestHandler,
      ListMergeRequestsHandler, GetMergeRequestCommentsHandler, CreateMergeRequestHandler,
      AddMergeRequestCommentHandler, UpdateMergeRequestHandler, GetRepositoryHandler,
      ListRepositoriesHandler, SearchRepositoriesHandler, SearchProjectsHandler,
      SearchMergeRequestsHandler, SearchUsersHandler, GetMeHandler, GetUserProfileHandler,
      ListUserGroupsHandler, GetUserPermissionsHandler]

theorem ToolId.handler_trace_head (tool : ToolId) (env : Env) (getClient : GetClientFn)
    (ctx : Context) (r : CallToolRequest) :
    ∃ rest, (tool.handler env getClient ctx r).trace = .getClient :: rest := by
  rcases hc : getClient ctx with c | e | msg
  · cases tool <;>
      simp [ToolId.handler, GetClientFn.call_client _ _ c hc,
        GetIssueHandler, ListIssuesHandler, SearchIssuesHandler, GetIssueCommentsHandler,
        CreateIssueHandler, AddIssueCommentHandler, UpdateIssueHandler, GetMergeRequestHandler,
        ListMergeRequestsHandler, GetMergeRequestCommentsHandler, CreateMergeRequestHandler,
        AddMergeRequestCommentHandler, UpdateMergeRequestHandler, GetRepositoryHandler,
        ListRepositoriesHandler, SearchRepositoriesHandler, SearchProjectsHandler,
        SearchMergeRequestsHandler, SearchUsersHandler, GetMeHandler, GetUserProfileHandler,
        ListUserGroupsHandler, GetUserPermissionsHandler]
  · rw [ToolId.handler_client_failed tool env getClient ctx r e hc]
    exact ⟨[], rfl⟩
  · rw [ToolId.handler_client_panicked tool env getClient ctx r msg hc]
    exact ⟨[], rfl⟩

end Gitlab

namespace Gitlab

/-- C6, amended, at a concrete request: with the empty query, `search_projects` calls the
upstream project search with the empty string. -/
theorem RequiredString_spec_witness :
    (SearchProjectsHandler sampleEnv (fun _ => .client sampleClient) ⟨⟩
        ⟨"", [("query", Value.string "")]⟩).trace
      = [.getClient, .upstream (.searchProjects "")] :=
  ((RequiredString_spec sampleEnv (fun _ => .client sampleClient) ⟨⟩ sampleClient
    ⟨"", [("query", Value.string "")]⟩ rfl).2.2.2.1 "" rfl).1

/-- C7, refuted as stated: on a request without `namespace`, whose extraction fails with
"missing required parameter: namespace", `get_issue` with a failing client accessor
returns the accessor's failure and not the extraction error. -/
theorem extraction_error_not_returned :
    (requiredParam String ⟨"", []⟩ "namespace").2 = some "missing required parameter: namespace" ∧
      (GetIssueHandler sampleEnv (fun _ => .failed "no token") ⟨⟩ ⟨"", []⟩).outcome
        = .ret none (some "failed to get GitLab client: no token") := by
  decide

/-- C7, amended: for every tool handler and every request on which the extraction of one of
its required parameters fails, no upstream operation is invoked; whenever the client
accessor has returned a client, the handler returns the error of the first failing
extraction, in the way that handler reports extraction errors; and when the accessor itself
fails, the handler returns the accessor's failure, "failed to get GitLab client: " followed
by the accessor's error, in the way that handler reports accessor failures, instead of the
extraction error. -/
theorem extraction_failure_no_upstream (tool : ToolId) (env : Env) (getClient : GetClientFn)
    (ctx : Context) (r : CallToolRequest) (e : String)
    (h : firstError env.platform r tool.requiredExtractions = some e) :
    (∀ call : UpstreamCall, Event.upstream call ∉ (tool.handler env getClient ctx r).trace) ∧
    (∀ c : Client, getClient ctx = .client c →
      (tool.handler env getClient ctx r).outcome = tool.onExtractionError.report e) ∧
    (∀ err : String, getClient ctx = .failed err →
      (tool.handler env getClient ctx r).outcome
        = tool.onClientError.report ("failed to get GitLab client: " ++ err)) := by
  refine ⟨?_, ?_, ?_⟩
  · intro call
    rcases hc : getClient ctx with c | err | msg
    · rw [ToolId.handler_extraction_failure tool env getClient ctx r c e hc h]
      simp
    · rw [ToolId.handler_client_failed tool env getClient ctx r err hc]
      simp
    · rw [ToolId.handler_client_panicked tool env getClient ctx r msg hc]
      simp
  · intro c hc
    rw [ToolId.handler_extraction_failure tool env getClient ctx r c e hc h]
  · intro err hc
    rw [ToolId.handler_client_failed tool env getClient ctx r err hc]

/-- C7, amended, at a concrete request: `get_issue` without `id`, first with an accessor
that returns a client, then with an accessor that fails. -/
theorem extraction_failure_no_upstream_witness :
    (ToolId.get_issue.handler sampleEnv (fun _ => .client sampleClient) ⟨⟩
        ⟨"", [("namespace", Value.string "g"), ("project", Value.string "p")]⟩).outcome
      = ToolId.get_issue.onExtractionError.report "missing required parameter: id" ∧
    (ToolId.get_issue.handler sampleEnv (fun _ => .failed "no token") ⟨⟩
        ⟨"", [("namespace", Value.string "g"), ("project", Value.string "p")]⟩).outcome
      = ToolId.get_issue.onClientError.report ("failed to get GitLab client: " ++ "no token") :=
  ⟨(extraction_failure_no_upstream .get_issue sampleEnv (fun _ => .client sampleClient) ⟨⟩
      ⟨"", [("namespace", Value.string "g"), ("project", Value.string "p")]⟩
      "missing required parameter: id" (by decide)).2.1 sampleClient rfl,
    (extraction_failure_no_upstream .get_issue sampleEnv (fun _ => .failed "no token") ⟨⟩
      ⟨"", [("namespace", Value.string "g"), ("project", Value.string "p")]⟩
      "missing required parameter: id" (by decide)).2.2 "no token" rfl⟩

/-- C8, refuted as stated: on a request without any argument, `get_issue` invokes the client
accessor; with an accessor that panics the handler panics instead of returning the
missing-parameter error. -/
theorem accessor_reached_on_validation_failure :
    (GetIssueHandler sampleEnv (fun _ => .client sampleClient) ⟨⟩ ⟨"", []⟩).trace = [.getClient] ∧
      GetIssueHandler sampleEnv (fun _ => .panicked "client accessor invoked") ⟨⟩ ⟨"", []⟩
        = ⟨[.getClient], .panic "client accessor invoked"⟩ := by
  decide

/-- C8, amended: every tool handler invokes the client accessor first, on every request and
before any parameter is extracted. If the accessor fails the handler reports "failed to get
GitLab client: " followed by the accessor's error and does nothing else; if it panics the
handler panics; and when it has returned a client, a request on which the extraction of a
required parameter fails gets the error of the first failing extraction and nothing else
happens. -/
theorem accessor_invoked_first (tool : ToolId) (env : Env) (getClient : GetClientFn)
    (ctx : Context) (r : CallToolRequest) :
    (∃ rest, (tool.handler env getClient ctx r).trace = .getClient :: rest) ∧
    (∀ err : String, getClient ctx = .failed err →
      tool.handler env getClient ctx r
        = ⟨[.getClient], tool.onClientError.report ("failed to get GitLab client: " ++ err)⟩) ∧
    (∀ msg : String, getClient ctx = .panicked msg →
      tool.handler env getClient ctx r = ⟨[.getClient], .panic msg⟩) ∧
    (∀ (c : Client) (e : String), getClient ctx = .client c →
      firstError env.platform r tool.requiredExtractions = some e →
      tool.handler env getClient ctx r = ⟨[.getClient], tool.onExtractionError.report e⟩) :=
  ⟨ToolId.handler_trace_head tool env getClient ctx r,
    fun err hc => ToolId.handler_client_failed tool env getClient ctx r err hc,
    fun msg hc => ToolId.handler_client_panicked tool env getClient ctx r msg hc,
    fun c e hc h => ToolId.handler_extraction_failure tool env getClient ctx r c e hc h⟩

/-- C8, amended, at a concrete request: `update_merge_request` with a failing accessor and
no argument reports the accessor's failure as a soft error. -/
theorem accessor_invoked_first_witness :
    ToolId.update_merge_request.handler sampleEnv (fun _ => .failed "no token") ⟨⟩ ⟨"", []⟩
      = ⟨[.getClient],
          .ret (some (NewToolResultError "failed to get GitLab client: no token")) none⟩ :=
  (accessor_invoked_first .update_merge_request sampleEnv (fun _ => .failed "no token") ⟨⟩
    ⟨"", []⟩).2.1 "no token" rfl

/-! ## The registry -/

theorem MCPServer.toolNames_AddTool (s : MCPServer) (entry : Tool × ToolHandlerFunc) :
    (s.AddTool entry).toolNames = s.toolNames ++ [entry.1.name] := by
  simp [MCPServer.AddTool, MCPServer.toolNames]

theorem MCPServer.toolNames_AddResourceTemplate (s : MCPServer)
    (entry : ResourceTemplate × ResourceTemplateHandlerFunc) :
    (s.AddResourceTemplate entry).toolNames = s.toolNames := rfl

theorem NewServer_toolNames_readOnly (env : Env) (getClient : GetClientFn) (version : String)
    (t : TranslationHelperFunc) :
    (NewServer env getClient version true t).toolNames
      = ["get_issue", "search_issues", "list_issues", "get_issue_comments", "get_merge_request",
         "list_merge_requests", "get_merge_request_comments", "get_repository",
         "list_repositories", "search_repositories", "search_projects", "search_merge_requests",
         "search_users", "get_me"] := by
  simp [NewServer, MCPServer.toolNames_AddTool, MCPServer.toolNames_AddResourceTemplate,
    GetIssue, SearchIssues, ListIssues, GetIssueComments, GetMergeRequest, ListMergeRequests,
    GetMergeRequestComments, GetRepository, ListRepositories, SearchRepositories,
    SearchProjects, SearchMergeRequests, SearchUsers, GetMe]
  rfl

theorem NewServer_toolNames_readWrite (env : Env) (getClient : GetClientFn) (version : String)
    (t : TranslationHelperFunc) :
    (NewServer env getClient version false t).toolNames
      = ["get_issue", "search_issues", "list_issues", "get_issue_comments", "create_issue",
         "add_issue_comment", "update_issue", "get_merge_request", "list_merge_requests",
         "get_merge_request_comments", "create_merge_request", "add_merge_request_comment",
         "update_merge_request", "get_repository", "list_repositories", "search_repositories",
         "search_projects", "search_merge_requests", "search_users", "get_me"] := by
  simp [NewServer, MCPServer.toolNames_AddTool, MCPServer.toolNames_AddResourceTemplate,
    GetIssue, SearchIssues, ListIssues, GetIssueComments, CreateIssue, AddIssueComment,
    UpdateIssue, GetMergeRequest, ListMergeRequests, GetMergeRequestComments,
    CreateMergeRequest, AddMergeRequestComment, UpdateMergeRequest, GetRepository,
    ListRepositories, SearchRepositories, SearchProjects, SearchMergeRequests, SearchUsers,
    GetMe]
  rfl

theorem MCPServer.length_tools (s : MCPServer) : s.tools.length = s.toolNames.length := by
  simp [MCPServer.toolNames]

/-- C9: `NewServer` registers exactly 14 tools when `readOnly` is true and exactly 20 when it
is false, whatever the client accessor, the version and the translation function; in each
mode the registered names are pairwise distinct, so these are also the numbers of tools the
registry lists. -/
theorem NewServer_tool_count (env : Env) (getClient : GetClientFn) (version : String)
    (t : TranslationHelperFunc) :
    (NewServer env getClient version true t).tools.length = 14 ∧
    (NewServer env getClient version false t).tools.length = 20 ∧
    (NewServer env getClient version true t).toolNames.Nodup ∧
    (NewServer env getClient version false t).toolNames.Nodup := by
  refine ⟨?_, ?_, ?_, ?_⟩
  · rw [MCPServer.length_tools, NewServer_toolNames_readOnly]
    rfl
  · rw [MCPServer.length_tools, NewServer_toolNames_readWrite]
    rfl
  · rw [NewServer_toolNames_readOnly]
    decide
  · rw [NewServer_toolNames_readWrite]
    decide

/-- C10: each of the six mutating tools is registered exactly when `readOnly` is false, every
other name is registered in one mode exactly when it is registered in the other, so the
read-only tool set is included in the read-write one and holds no mutating tool. -/
theorem readOnly_gate (env : Env) (getClient : GetClientFn) (version : String)
    (t : TranslationHelperFunc) :
    (∀ name ∈ mutatingToolNames, ∀ readOnly : Bool,
      name ∈ (NewServer env getClient version readOnly t).toolNames ↔ readOnly = false) ∧
    (∀ name : String, name ∉ mutatingToolNames →
      (name ∈ (NewServer env getClient version true t).toolNames ↔
        name ∈ (NewServer env getClient version false t).toolNames)) ∧
    (∀ name ∈ (NewServer env getClient version true t).toolNames,
      name ∈ (NewServer env getClient version false t).toolNames ∧ name ∉ mutatingToolNames) := by
  refine ⟨?_, ?_, ?_⟩
  · intro name hm readOnly
    cases readOnly
    · rw [NewServer_toolNames_readWrite]
      simp only [mutatingToolNames, List.mem_cons, List.mem_singleton, List.not_mem_nil,
        or_false] at hm ⊢
      simp only [iff_true]
      tauto
    · rw [NewServer_toolNames_readOnly]
      simp only [mutatingToolNames, List.mem_cons, List.mem_singleton, List.not_mem_nil,
        or_false] at hm
      rcases hm with h | h | h | h | h | h <;> subst h <;> decide
  · intro name hm
    rw [NewServer_toolNames_readOnly, NewServer_toolNames_readWrite]
    simp only [mutatingToolNames, List.mem_cons, List.mem_singleton, List.not_mem_nil,
      or_false, not_or] at hm ⊢
    tauto
  · intro name hn
    rw [NewServer_toolNames_readOnly] at hn
    rw [NewServer_toolNames_readWrite]
    simp only [List.mem_cons, List.mem_singleton, List.not_mem_nil, or_false] at hn
    rcases hn with h | h | h | h | h | h | h | h | h | h | h | h | h | h <;> subst h <;> decide

end Gitlab

namespace Gitlab

/-- C10 at a concrete name: `update_issue` is registered exactly in read-write mode. -/
theorem readOnly_gate_witness :
    ∀ readOnly : Bool,
      "update_issue" ∈ (NewServer sampleEnv (fun _ => .client sampleClient) "1.0.0" readOnly
        (fun _ d => d)).toolNames ↔ readOnly = false :=
  (readOnly_gate sampleEnv (fun _ => .client sampleClient) "1.0.0" (fun _ d => d)).1
    "update_issue" (by decide)

end Gitlab

namespace Gitlab

/-! ## Names and templates of the registry -/

theorem MCPServer.templateURIs_AddTool (s : MCPServer) (entry : Tool × ToolHandlerFunc) :
    (s.AddTool entry).templateURIs = s.templateURIs := rfl

theorem MCPServer.templateURIs_AddResourceTemplate (s : MCPServer)
    (entry : ResourceTemplate × ResourceTemplateHandlerFunc) :
    (s.AddResourceTemplate entry).templateURIs = s.templateURIs ++ [entry.1.uriTemplate] := by
  simp [MCPServer.AddResourceTemplate, MCPServer.templateURIs]

theorem MCPServer.length_resourceTemplates (s : MCPServer) :
    s.resourceTemplates.length = s.templateURIs.length := by
  simp [MCPServer.templateURIs]

theorem NewServer_templateURIs (env : Env) (getClient : GetClientFn) (version : String)
    (readOnly : Bool) (t : TranslationHelperFunc) :
    (NewServer env getClient version readOnly t).templateURIs
      = ["repo://\x7bnamespace\x7d/\x7bproject\x7d/contents\x7b/path*\x7d",
         "repo://\x7bnamespace\x7d/\x7bproject\x7d/refs/heads/\x7bbranch\x7d/contents\x7b/path*\x7d",
         "repo://\x7bnamespace\x7d/\x7bproject\x7d/sha/\x7bsha\x7d/contents\x7b/path*\x7d",
         "repo://\x7bnamespace\x7d/\x7bproject\x7d/refs/tags/\x7btag\x7d/contents\x7b/path*\x7d",
         "repo://\x7bnamespace\x7d/\x7bproject\x7d/merge_requests/\x7bid\x7d"] := by
  cases readOnly <;>
    simp [NewServer, MCPServer.templateURIs_AddTool, MCPServer.templateURIs_AddResourceTemplate,
      GetRepositoryResourceContent, GetRepositoryResourceBranchContent,
      GetRepositoryResourceCommitContent, GetRepositoryResourceTagContent,
      GetRepositoryResourceMergeRequestContent] <;> rfl

/-- C11: in both modes the tool names `NewServer` registers are pairwise distinct, and so are
the five resource URI templates it registers. -/
theorem NewServer_names_distinct (env : Env) (getClient : GetClientFn) (version : String)
    (readOnly : Bool) (t : TranslationHelperFunc) :
    (NewServer env getClient version readOnly t).toolNames.Nodup ∧
    (NewServer env getClient version readOnly t).templateURIs.Nodup := by
  constructor
  · cases readOnly
    · rw [NewServer_toolNames_readWrite]
      decide
    · rw [NewServer_toolNames_readOnly]
      decide
  · rw [NewServer_templateURIs]
    decide

/-- C12: `NewServer` registers exactly five resource templates in either mode, each with a
URI template that is not empty. -/
theorem NewServer_template_count (env : Env) (getClient : GetClientFn) (version : String)
    (readOnly : Bool) (t : TranslationHelperFunc) :
    (NewServer env getClient version readOnly t).resourceTemplates.length = 5 ∧
    ∀ uri ∈ (NewServer env getClient version readOnly t).templateURIs, uri ≠ "" := by
  constructor
  · rw [MCPServer.length_resourceTemplates, NewServer_templateURIs]
    rfl
  · intro uri hmem
    rw [NewServer_templateURIs] at hmem
    simp only [List.mem_cons, List.mem_singleton, List.not_mem_nil, or_false] at hmem
    rcases hmem with h | h | h | h | h <;> rw [h] <;> decide

/-- C12 at a concrete template: the merge request template of the read-only server. -/
theorem NewServer_template_count_witness :
    "repo://\x7bnamespace\x7d/\x7bproject\x7d/merge_requests/\x7bid\x7d"
        ∈ (NewServer sampleEnv (fun _ => .client sampleClient) "1.0.0" true
            (fun _ d => d)).templateURIs ∧
      "repo://\x7bnamespace\x7d/\x7bproject\x7d/merge_requests/\x7bid\x7d" ≠ "" :=
  ⟨by rw [NewServer_templateURIs]; decide,
    (NewServer_template_count sampleEnv (fun _ => .client sampleClient) "1.0.0" true
      (fun _ d => d)).2 "repo://\x7bnamespace\x7d/\x7bproject\x7d/merge_requests/\x7bid\x7d"
      (by rw [NewServer_templateURIs]; decide)⟩

end Gitlab

namespace Gitlab

/-! ## `get_issue` and `get_repository` -/

theorem requiredParam_string_ok (r : CallToolRequest) (p s : String)
    (h : r.arguments.get p = some (Value.string s)) (hs : s ≠ "") :
    requiredParam String r p = (s, none) :=
  requiredParam_of_nonzero .string r p s h (by simpa [Kind.isZero] using hs)

theorem HasSubstring.mid (a part b : String) : HasSubstring (a ++ part ++ b) part :=
  ⟨a, b, rfl⟩

/-- C13: for every request with non-empty `namespace` and `project` and a numeric `id` that is
not zero, and every issue with an author that the upstream fetch returns, `get_issue` fetches
project `namespace/project` with the id converted to `int` (its truncation toward zero
whenever `int` can represent it) and returns exactly one text block whose text is
"Title: <title>\nState: <state>\nAuthor: <author name>"; the text contains the title, the
state and the author name. -/
theorem GetIssue_returns_summary (env : Env) (getClient : GetClientFn) (ctx : Context)
    (c : Client) (r : CallToolRequest) (ns pr : String) (v : Float64) (issue : Issue)
    (resp : Response) (author : IssueAuthor)
    (hc : getClient ctx = .client c)
    (hns : r.arguments.get "namespace" = some (Value.string ns)) (hns0 : ns ≠ "")
    (hpr : r.arguments.get "project" = some (Value.string pr)) (hpr0 : pr ≠ "")
    (hid : r.arguments.get "id" = some (Value.number v)) (hv : v.isZero = false)
    (hup : c.Issues.getFunc (ns ++ "/" ++ pr) (env.platform.toInt v) = .ok (issue, resp))
    (ha : issue.author = some author) :
    GetIssueHandler env getClient ctx r
        = ⟨[.getClient, .upstream (.issuesGetIssue (ns ++ "/" ++ pr) (env.platform.toInt v))],
            .ret (some ⟨[⟨"text", "Title: " ++ issue.title ++ "\nState: " ++ issue.state
              ++ "\nAuthor: " ++ author.name⟩], false⟩) none⟩ ∧
      (v.isFinite = true →
        -(2 ^ (env.platform.intBits - 1) : Int) ≤ truncTowardZero v.toRat →
        truncTowardZero v.toRat < (2 ^ (env.platform.intBits - 1) : Int) →
        env.platform.toInt v = truncTowardZero v.toRat) ∧
      HasSubstring ("Title: " ++ issue.title ++ "\nState: " ++ issue.state
        ++ "\nAuthor: " ++ author.name) issue.title ∧
      HasSubstring ("Title: " ++ issue.title ++ "\nState: " ++ issue.state
        ++ "\nAuthor: " ++ author.name) issue.state ∧
      HasSubstring ("Title: " ++ issue.title ++ "\nState: " ++ issue.state
        ++ "\nAuthor: " ++ author.name) author.name := by
  refine ⟨?_, ?_, ?_, ?_, ?_⟩
  · simp only [GetIssueHandler, Exec.bind_eq, Exec.pure_eq, GetClientFn.call_client _ _ c hc,
      requiredParam_string_ok r _ ns hns hns0, requiredParam_string_ok r _ pr hpr hpr0,
      requiredParam_number_ok r _ v hid hv, IssuesService.GetIssue, hup, ha, Exec.deref,
      Exec.bind_emit, Exec.bind_after, Exec.bind_pure_left, Exec.orFailWrap_ok, Exec.orFail_ok,
      Exec.run_after, Exec.run_pure]
  · intro hfin hlo hhi
    rw [Platform.toInt, Float64.trunc_eq, if_pos ⟨hfin, hlo, hhi⟩]
  · refine ⟨"Title: ", "\nState: " ++ issue.state ++ "\nAuthor: " ++ author.name, ?_⟩
    simp [String.append_assoc]
  · refine ⟨"Title: " ++ issue.title ++ "\nState: ", "\nAuthor: " ++ author.name, ?_⟩
    simp [String.append_assoc]
  · refine ⟨"Title: " ++ issue.title ++ "\nState: " ++ issue.state ++ "\nAuthor: ", "", ?_⟩
    simp [String.append_assoc]

/-- C13 at the request of the test: namespace "test-namespace", project "test-project",
id `1.0`, against a client returning the issue "Test Issue" by "Test User". -/
theorem GetIssue_returns_summary_witness :
    GetIssueHandler sampleEnv (fun _ => .client issueStubClient) ⟨⟩
        ⟨"", [("namespace", Value.string "test-namespace"),
              ("project", Value.string "test-project"),
              ("id", Value.number ⟨false, 1023, 0⟩)]⟩
      = ⟨[.getClient, .upstream (.issuesGetIssue "test-namespace/test-project" 1)],
          .ret (some ⟨[⟨"text", "Title: Test Issue\nState: opened\nAuthor: Test User"⟩], false⟩)
            none⟩ :=
  (GetIssue_returns_summary sampleEnv (fun _ => .client issueStubClient) ⟨⟩ issueStubClient
    ⟨"", [("namespace", Value.string "test-namespace"),
          ("project", Value.string "test-project"),
          ("id", Value.number ⟨false, 1023, 0⟩)]⟩
    "test-namespace" "test-project" ⟨false, 1023, 0⟩
    ⟨1, "Test Issue", "opened", some ⟨"Test User"⟩⟩ sampleResponse ⟨"Test User"⟩
    rfl rfl (by decide) rfl (by decide) rfl (by decide) rfl rfl).1

/-- C14: for every `get_repository` request with string `namespace` and `project`, when the
upstream project search returns no match the handler returns the hard failure
"repository not found", and when it returns at least one match the handler returns exactly
one text block, "Name: <name>\nPath: <path>\nURL: <url>" of the first match, which contains
that project's name, path with namespace and web URL. -/
theorem GetRepository_spec (getClient : GetClientFn) (ctx : Context) (c : Client)
    (r : CallToolRequest) (ns pr : String) (hc : getClient ctx = .client c)
    (hns : r.arguments.get "namespace" = some (Value.string ns))
    (hpr : r.arguments.get "project" = some (Value.string pr)) :
    (∀ resp : Response, c.Search.searchProjectFunc (ns ++ "/" ++ pr) = .ok ([], resp) →
      GetRepositoryHandler getClient ctx r
        = ⟨[.getClient, .upstream (.searchProjects (ns ++ "/" ++ pr))],
            .ret none (some "repository not found")⟩) ∧
    (∀ (project : Project) (others : List Project) (resp : Response),
      c.Search.searchProjectFunc (ns ++ "/" ++ pr) = .ok (project :: others, resp) →
      GetRepositoryHandler getClient ctx r
          = ⟨[.getClient, .upstream (.searchProjects (ns ++ "/" ++ pr))],
              .ret (some ⟨[⟨"text", "Name: " ++ project.name ++ "\nPath: "
                ++ project.pathWithNamespace ++ "\nURL: " ++ project.webURL⟩], false⟩) none⟩ ∧
        HasSubstring ("Name: " ++ project.name ++ "\nPath: " ++ project.pathWithNamespace
          ++ "\nURL: " ++ project.webURL) project.name ∧
        HasSubstring ("Name: " ++ project.name ++ "\nPath: " ++ project.pathWithNamespace
          ++ "\nURL: " ++ project.webURL) project.pathWithNamespace ∧
        HasSubstring ("Name: " ++ project.name ++ "\nPath: " ++ project.pathWithNamespace
          ++ "\nURL: " ++ project.webURL) project.webURL) := by
  constructor
  · intro resp hup
    simp only [GetRepositoryHandler, Exec.bind_eq, Exec.pure_eq,
      GetClientFn.call_client _ _ c hc, RequiredString_string r _ ns hns,
      RequiredString_string r _ pr hpr, SearchService.Projects, hup, Exec.bind_emit,
      Exec.bind_after, Exec.bind_pure_left, Exec.orFailWrap_ok, Exec.orFail_ok, Exec.run_after,
      Exec.run_fail]
  · intro project others resp hup
    refine ⟨?_, ?_, ?_, ?_⟩
    · simp only [GetRepositoryHandler, Exec.bind_eq, Exec.pure_eq,
        GetClientFn.call_client _ _ c hc, RequiredString_string r _ ns hns,
        RequiredString_string r _ pr hpr, SearchService.Projects, hup, Exec.bind_emit,
        Exec.bind_after, Exec.bind_pure_left, Exec.orFailWrap_ok, Exec.orFail_ok,
        Exec.run_after, Exec.run_pure]
    · refine ⟨"Name: ", "\nPath: " ++ project.pathWithNamespace ++ "\nURL: " ++ project.webURL,
        ?_⟩
      simp [String.append_assoc]
    · refine ⟨"Name: " ++ project.name ++ "\nPath: ", "\nURL: " ++ project.webURL, ?_⟩
      simp [String.append_assoc]
    · refine ⟨"Name: " ++ project.name ++ "\nPath: " ++ project.pathWithNamespace ++ "\nURL: ",
        "", ?_⟩
      simp [String.append_assoc]

/-- C14 at the request of the test against a search without match. -/
theorem GetRepository_spec_witness :
    GetRepositoryHandler (fun _ => .client emptySearchStubClient) ⟨⟩
        ⟨"", [("namespace", Value.string "test-group"), ("project", Value.string "test-repo")]⟩
      = ⟨[.getClient, .upstream (.searchProjects "test-group/test-repo")],
          .ret none (some "repository not found")⟩ :=
  (GetRepository_spec (fun _ => .client emptySearchStubClient) ⟨⟩ emptySearchStubClient
    ⟨"", [("namespace", Value.string "test-group"), ("project", Value.string "test-repo")]⟩
    "test-group" "test-repo" rfl rfl rfl).1 sampleResponse rfl

end Gitlab

namespace Gitlab

/-! ## `list_issues` and the text it returns -/

theorem sampleDecodeField_encode (cs after : List Char) :
    sampleDecodeField (sampleEncodeField cs ++ after) = some (cs, after) := by
  induction cs with
  | nil =>
    cases after with
    | nil => rfl
    | cons x rest => rfl
  | cons x rest ih =>
    show sampleDecodeField ('c' :: x :: (sampleEncodeField rest ++ after)) = _
    rw [sampleDecodeField]
    simp [ih]

theorem sampleDecodeIssues_encode (issues : List Issue) :
    ∀ fuel : Nat, issues.length < fuel →
      sampleDecodeIssues fuel (sampleEncodeIssues issues)
        = some (issues.map (fun issue => (issue.title, issue.state))) := by
  induction issues with
  | nil =>
    intro fuel hfuel
    cases fuel with
    | zero => omega
    | succ n => rfl
  | cons issue rest ih =>
    intro fuel hfuel
    cases fuel with
    | zero => omega
    | succ n =>
      have hn : rest.length < n := by
        simp only [List.length_cons] at hfuel
        omega
      show sampleDecodeIssues (n + 1)
        ('i' :: (sampleEncodeField issue.title.data
          ++ (sampleEncodeField issue.state.data ++ sampleEncodeIssues rest))) = _
      rw [sampleDecodeIssues]
      simp [sampleDecodeField_encode, ih n hn]

theorem sampleEncodeIssues_length (issues : List Issue) :
    issues.length < (sampleEncodeIssues issues).length := by
  induction issues with
  | nil => simp [sampleEncodeIssues]
  | cons issue rest ih =>
    simp only [sampleEncodeIssues, List.length_cons, List.length_append]
    omega

theorem sampleCodec_round_trip (issues : List Issue) :
    ∃ text : String, sampleMarshalIssues issues = .ok text ∧
      sampleUnmarshalIssues text = some (issues.map (fun issue => (issue.title, issue.state))) := by
  refine ⟨String.mk (sampleEncodeIssues issues), rfl, ?_⟩
  unfold sampleUnmarshalIssues
  exact sampleDecodeIssues_encode issues _ (by
    have := sampleEncodeIssues_length issues
    show issues.length < (sampleEncodeIssues issues).length + 1
    omega)

/-- C15: for every list of issues the upstream list operation returns, `list_issues` returns
one text block, the encoding of exactly that list; so with any decoder that reads back the
titles and states of what the encoder wrote (as JSON decoding does for `json.Marshal`), the
text decodes to a list of the same length whose i-th element has the title and the state of
the i-th upstream issue. -/
theorem ListIssues_round_trip (env : Env) (getClient : GetClientFn) (ctx : Context)
    (c : Client) (r : CallToolRequest) (ns pr : String) (issues : List Issue) (resp : Response)
    (unmarshal : String → Option (List (String × String)))
    (hcodec : ∀ xs : List Issue, ∃ text : String, env.marshalIssues xs = .ok text ∧
      unmarshal text = some (xs.map (fun issue => (issue.title, issue.state))))
    (hc : getClient ctx = .client c)
    (hns : r.arguments.get "namespace" = some (Value.string ns)) (hns0 : ns ≠ "")
    (hpr : r.arguments.get "project" = some (Value.string pr)) (hpr0 : pr ≠ "")
    (hup : c.Issues.listFunc (ns ++ "/" ++ pr) {} = .ok (issues, resp)) :
    ∃ (text : String) (decoded : List (String × String)),
      (ListIssuesHandler env getClient ctx r).outcome
          = .ret (some ⟨[⟨"text", text⟩], false⟩) none ∧
        env.marshalIssues issues = .ok text ∧
        unmarshal text = some decoded ∧
        decoded.length = issues.length ∧
        ∀ (i : Nat) (issue : Issue), issues[i]? = some issue →
          decoded[i]? = some (issue.title, issue.state) := by
  obtain ⟨text, hm, hd⟩ := hcodec issues
  refine ⟨text, issues.map (fun issue => (issue.title, issue.state)), ?_, hm, hd, ?_, ?_⟩
  · simp only [ListIssuesHandler, Exec.bind_eq, Exec.pure_eq, GetClientFn.call_client _ _ c hc,
      requiredParam_string_ok r _ ns hns hns0, requiredParam_string_ok r _ pr hpr hpr0,
      IssuesService.ListProjectIssues, hup, hm, Exec.bind_emit, Exec.bind_after,
      Exec.bind_pure_left, Exec.orFailWrap_ok, Exec.orFail_ok, Exec.run_after, Exec.run_pure]
  · simp
  · intro i issue hi
    simp [List.getElem?_map, hi]

/-- C15 at the request of the test, with the stand-in codec: the two issues come back with
their titles and states, in order. -/
theorem ListIssues_round_trip_witness :
    ∃ (text : String) (decoded : List (String × String)),
      (ListIssuesHandler codecEnv (fun _ => .client issueStubClient) ⟨⟩
          ⟨"", [("namespace", Value.string "test-namespace"),
                ("project", Value.string "test-project")]⟩).outcome
          = .ret (some ⟨[⟨"text", text⟩], false⟩) none ∧
        codecEnv.marshalIssues
            [⟨1, "Test Issue 1", "opened", none⟩, ⟨2, "Test Issue 2", "closed", none⟩]
          = .ok text ∧
        sampleUnmarshalIssues text = some decoded ∧
        decoded.length
          = [(⟨1, "Test Issue 1", "opened", none⟩ : Issue),
             ⟨2, "Test Issue 2", "closed", none⟩].length ∧
        ∀ (i : Nat) (issue : Issue),
          [(⟨1, "Test Issue 1", "opened", none⟩ : Issue),
            ⟨2, "Test Issue 2", "closed", none⟩][i]? = some issue →
          decoded[i]? = some (issue.title, issue.state) :=
  ListIssues_round_trip codecEnv (fun _ => .client issueStubClient) ⟨⟩ issueStubClient
    ⟨"", [("namespace", Value.string "test-namespace"),
          ("project", Value.string "test-project")]⟩
    "test-namespace" "test-project"
    [⟨1, "Test Issue 1", "opened", none⟩, ⟨2, "Test Issue 2", "closed", none⟩] sampleResponse
    sampleUnmarshalIssues sampleCodec_round_trip rfl rfl (by decide) rfl (by decide) rfl

end Gitlab

namespace Gitlab

/-! ## Filters of the list tools and the id of `update_merge_request` -/

/-- C16, the code at the request of its own test "successful list with filters": with
`state` "opened" among the arguments, `list_issues` calls the upstream listing with empty
options, the state filter unset. -/
theorem ListIssues_drops_state_filter :
    (ListIssuesHandler codecEnv (fun _ => .client issueStubClient) ⟨⟩
        ⟨"", [("namespace", Value.string "test-namespace"),
              ("project", Value.string "test-project"),
              ("state", Value.string "opened")]⟩).trace
      = [.getClient,
         .upstream (.issuesListProjectIssues "test-namespace/test-project"
           { state := none, orderBy := none, sort := none, search := none })] := by
  decide

theorem assertString_eq_some (v : Option Value) (s : String) :
    assertString v = some s ↔ v = some (Value.string s) := by
  unfold assertString
  split
  · rename_i x
    simp
  · rename_i hne
    constructor
    · intro h
      simp at h
    · intro h
      exact absurd h (hne s)

theorem ListMergeRequestsHandler_trace (env : Env) (getClient : GetClientFn) (ctx : Context)
    (c : Client) (r : CallToolRequest) (ns pr : String) (hc : getClient ctx = .client c)
    (hns : r.arguments.get "namespace" = some (Value.string ns)) (hns0 : ns ≠ "")
    (hpr : r.arguments.get "project" = some (Value.string pr)) (hpr0 : pr ≠ "") :
    (ListMergeRequestsHandler env getClient ctx r).trace
      = [.getClient,
         .upstream (.mergeRequestsListProjectMergeRequests (ns ++ "/" ++ pr)
           { state := assertString (r.arguments.get "state"),
             orderBy := assertString (r.arguments.get "order_by"),
             sort := assertString (r.arguments.get "sort") })] := by
  simp only [ListMergeRequestsHandler, Exec.bind_eq, Exec.pure_eq,
    GetClientFn.call_client _ _ c hc, requiredParam_string_ok r _ ns hns hns0,
    requiredParam_string_ok r _ pr hpr hpr0, MergeRequestsService.ListProjectMergeRequests,
    Exec.bind_emit, Exec.bind_after, Exec.bind_pure_left, Exec.orFailWrap_ok, Exec.orFail_ok,
    Exec.run_after]
  rcases c.MergeRequests.listFunc (ns ++ "/" ++ pr)
      { state := assertString (r.arguments.get "state"),
        orderBy := assertString (r.arguments.get "order_by"),
        sort := assertString (r.arguments.get "sort") } with e | ⟨mrs, resp⟩
  · simp
  · rcases h : env.marshalMergeRequests mrs with e | js <;> simp [h]

/-- C17, where the code departs from the claim: with `state` present as the empty string,
`list_merge_requests` sets the state option of the upstream listing, to the empty string,
instead of leaving it unset. -/
theorem ListMergeRequests_sets_empty_filter :
    (ListMergeRequestsHandler sampleEnv (fun _ => .client sampleClient) ⟨⟩
        ⟨"", [("namespace", Value.string "g"), ("project", Value.string "p"),
              ("state", Value.string "")]⟩).trace
      = [.getClient,
         .upstream (.mergeRequestsListProjectMergeRequests "g/p"
           { state := some "", orderBy := none, sort := none })] := by
  decide

/-- What `list_merge_requests` sends upstream: once the client accessor has returned a
client and `namespace` and `project` are non-empty strings, the handler calls the upstream
listing once, and each of the options state, order_by and sort is set exactly when the
argument of that name is present as a string, the empty string included, and then to exactly
that string. -/
theorem ListMergeRequestsHandler_options (env : Env) (getClient : GetClientFn) (ctx : Context)
    (c : Client) (r : CallToolRequest) (ns pr : String) (hc : getClient ctx = .client c)
    (hns : r.arguments.get "namespace" = some (Value.string ns)) (hns0 : ns ≠ "")
    (hpr : r.arguments.get "project" = some (Value.string pr)) (hpr0 : pr ≠ "") :
    ∃ opts : ListProjectMergeRequestsOptions,
      (ListMergeRequestsHandler env getClient ctx r).trace
          = [.getClient, .upstream (.mergeRequestsListProjectMergeRequests (ns ++ "/" ++ pr) opts)] ∧
        (∀ s : String, opts.state = some s ↔ r.arguments.get "state" = some (Value.string s)) ∧
        (∀ s : String,
          opts.orderBy = some s ↔ r.arguments.get "order_by" = some (Value.string s)) ∧
        (∀ s : String, opts.sort = some s ↔ r.arguments.get "sort" = some (Value.string s)) :=
  ⟨_, ListMergeRequestsHandler_trace env getClient ctx c r ns pr hc hns hns0 hpr hpr0,
    fun s => assertString_eq_some _ s, fun s => assertString_eq_some _ s,
    fun s => assertString_eq_some _ s⟩

theorem UpdateMergeRequestHandler_bad_id (env : Env) (getClient : GetClientFn) (ctx : Context)
    (c : Client) (r : CallToolRequest) (ns pr id err : String) (n : Int)
    (hc : getClient ctx = .client c)
    (hns : r.arguments.get "namespace" = some (Value.string ns)) (hns0 : ns ≠ "")
    (hpr : r.arguments.get "project" = some (Value.string pr)) (hpr0 : pr ≠ "")
    (hid : r.arguments.get "id" = some (Value.string id)) (hid0 : id ≠ "")
    (hparse : Atoi env id = (n, some err)) :
    UpdateMergeRequestHandler env getClient ctx r
      = ⟨[.getClient], .ret (some (NewToolResultError ("invalid merge request ID: " ++ err))) none⟩ := by
  simp only [UpdateMergeRequestHandler, Exec.bind_eq, Exec.pure_eq,
    GetClientFn.call_client _ _ c hc, requiredParam_string_ok r _ ns hns hns0,
    requiredParam_string_ok r _ pr hpr hpr0, requiredParam_string_ok r _ id hid hid0, hparse,
    Exec.bind_emit, Exec.bind_after, Exec.bind_pure_left, Exec.orSoftWrap_ok, Exec.orSoft_ok,
    Exec.bind_soft, Exec.run_after, Exec.run_soft]

/-- C18, refuted as stated: with `namespace` "g", `project` "p" and the id "abc", which does
not parse, and a client accessor that fails, `update_merge_request` returns a soft error
whose text is the accessor's failure and does not begin "invalid merge request ID". -/
theorem UpdateMergeRequest_bad_id_accessor_failure :
    (Atoi sampleEnv "abc").2 = some "strconv.Atoi: parsing \"abc\": invalid syntax" ∧
      UpdateMergeRequestHandler sampleEnv (fun _ => .failed "no token") ⟨⟩
          ⟨"", [("namespace", Value.string "g"), ("project", Value.string "p"),
                ("id", Value.string "abc")]⟩
        = ⟨[.getClient],
            .ret (some ⟨[⟨"text", "failed to get GitLab client: no token"⟩], true⟩) none⟩ := by
  decide

/-- C18, amended: for every `update_merge_request` request with non-empty `namespace` and
`project` and a non-empty id string that `strconv.Atoi` does not parse, no upstream operation
is invoked; once the client accessor has returned a client, the handler returns a soft
error, a result flagged as error with a nil Go error, whose text is
"invalid merge request ID: " followed by the parse error; and when the accessor fails, the
handler returns a soft error whose text is the accessor's failure,
"failed to get GitLab client: " followed by the accessor's error. -/
theorem UpdateMergeRequest_bad_id (env : Env) (getClient : GetClientFn) (ctx : Context)
    (r : CallToolRequest) (ns pr id err : String) (n : Int)
    (hns : r.arguments.get "namespace" = some (Value.string ns)) (hns0 : ns ≠ "")
    (hpr : r.arguments.get "project" = some (Value.string pr)) (hpr0 : pr ≠ "")
    (hid : r.arguments.get "id" = some (Value.string id)) (hid0 : id ≠ "")
    (hparse : Atoi env id = (n, some err)) :
    (∀ call : UpstreamCall,
      Event.upstream call ∉ (UpdateMergeRequestHandler env getClient ctx r).trace) ∧
    (∀ c : Client, getClient ctx = .client c →
      UpdateMergeRequestHandler env getClient ctx r
        = ⟨[.getClient],
            .ret (some ⟨[⟨"text", "invalid merge request ID: " ++ err⟩], true⟩) none⟩) ∧
    (∀ e : String, getClient ctx = .failed e →
      UpdateMergeRequestHandler env getClient ctx r
        = ⟨[.getClient],
            .ret (some ⟨[⟨"text", "failed to get GitLab client: " ++ e⟩], true⟩) none⟩) := by
  refine ⟨?_, ?_, ?_⟩
  · intro call
    rcases hc : getClient ctx with c | e | msg
    · rw [UpdateMergeRequestHandler_bad_id env getClient ctx c r ns pr id err n hc hns hns0 hpr
        hpr0 hid hid0 hparse]
      simp
    · have h := ToolId.handler_client_failed .update_merge_request env getClient ctx r e hc
      simp only [ToolId.handler] at h
      rw [h]
      simp
    · have h := ToolId.handler_client_panicked .update_merge_request env getClient ctx r msg hc
      simp only [ToolId.handler] at h
      rw [h]
      simp
  · intro c hc
    exact UpdateMergeRequestHandler_bad_id env getClient ctx c r ns pr id err n hc hns hns0 hpr
      hpr0 hid hid0 hparse
  · intro e hc
    have h := ToolId.handler_client_failed .update_merge_request env getClient ctx r e hc
    simp only [ToolId.handler] at h
    rw [h]
    rfl

/-- C18, amended, at the id "abc", first with an accessor that returns a client, then with
an accessor that fails. -/
theorem UpdateMergeRequest_bad_id_witness :
    UpdateMergeRequestHandler sampleEnv (fun _ => .client sampleClient) ⟨⟩
        ⟨"", [("namespace", Value.string "g"), ("project", Value.string "p"),
              ("id", Value.string "abc")]⟩
      = ⟨[.getClient],
          .ret (some ⟨[⟨"text", "invalid merge request ID: "
            ++ "strconv.Atoi: parsing \"abc\": invalid syntax"⟩], true⟩) none⟩ ∧
    UpdateMergeRequestHandler sampleEnv (fun _ => .failed "no token") ⟨⟩
        ⟨"", [("namespace", Value.string "g"), ("project", Value.string "p"),
              ("id", Value.string "abc")]⟩
      = ⟨[.getClient],
          .ret (some ⟨[⟨"text", "failed to get GitLab client: " ++ "no token"⟩], true⟩) none⟩ :=
  ⟨(UpdateMergeRequest_bad_id sampleEnv (fun _ => .client sampleClient) ⟨⟩
      ⟨"", [("namespace", Value.string "g"), ("project", Value.string "p"),
            ("id", Value.string "abc")]⟩
      "g" "p" "abc" "strconv.Atoi: parsing \"abc\": invalid syntax" 0
      rfl (by decide) rfl (by decide) rfl (by decide) (by decide)).2.1 sampleClient rfl,
    (UpdateMergeRequest_bad_id sampleEnv (fun _ => .failed "no token") ⟨⟩
      ⟨"", [("namespace", Value.string "g"), ("project", Value.string "p"),
            ("id", Value.string "abc")]⟩
      "g" "p" "abc" "strconv.Atoi: parsing \"abc\": invalid syntax" 0
      rfl (by decide) rfl (by decide) rfl (by decide) (by decide)).2.2 "no token" rfl⟩

end Gitlab

namespace Gitlab

/-! ## What every handler reports when an upstream call fails -/

theorem Exec.trace_run {ρ : Type} (m : Exec ρ (Outcome ρ)) : (Exec.run m).trace = m.trace := by
  unfold Exec.run
  cases m.next <;> rfl

theorem GetIssueHandler_upstream_failure (env : Env) (getClient : GetClientFn) (ctx : Context)
    (r : CallToolRequest) (c : Client) (call : UpstreamCall) (e : String)
    (hc : getClient ctx = .client c)
    (hmem : Event.upstream call ∈ (ToolId.get_issue.handler env getClient ctx r).trace)
    (hfail : c.failure call = some e) :
    (ToolId.get_issue.handler env getClient ctx r).outcome
      = ToolId.get_issue.onUpstreamError.report (ToolId.get_issue.failurePrefix call ++ e) := by
  simp only [ToolId.handler, GetIssueHandler, ToolId.onUpstreamError, ToolId.failurePrefix,
    Propagation.report, GetClientFn.call_client _ _ c hc,
    IssuesService.GetIssue, IssuesService.ListProjectIssues, IssuesService.CreateIssue,
    IssuesService.UpdateIssue, NotesService.ListIssueNotes, NotesService.CreateIssueNote,
    NotesService.ListMergeRequestNotes, NotesService.CreateMergeRequestNote,
    MergeRequestsService.GetMergeRequest, MergeRequestsService.ListProjectMergeRequests,
    MergeRequestsService.CreateMergeRequest, MergeRequestsService.UpdateMergeRequest,
    SearchService.Projects, SearchService.MergeRequests, SearchService.Users,
    ProjectsService.ListProjects, UsersService.CurrentUser, UsersService.ListUsers] at hmem ⊢
  rcases h1 : requiredParam String r "namespace" with ⟨v1, _ | e1⟩
  · rcases h2 : requiredParam String r "project" with ⟨v2, _ | e2⟩
    · rcases h3 : requiredParam Float64 r "id" with ⟨v3, _ | e3⟩
      · simp only [h1, h2, h3, Exec.bind_eq, Exec.pure_eq, Exec.orFail_ok, Exec.orSoft_ok,
          Exec.orFailWrap_ok, Exec.orSoftWrap_ok, Exec.bind_pure_left, Exec.bind_emit,
          Exec.bind_after, Exec.run_after] at hmem ⊢
        generalize hr : c.Issues.getFunc _ _ = reply at hmem ⊢
        rcases reply with e' | ⟨x, resp⟩
        · simp_all [Client.failure, Reply.failure]
        · simp only [Exec.orFailWrap_ok, Exec.orSoftWrap_ok, Exec.bind_pure_left, Exec.deref,
            Exec.orFailWrap, Exec.orSoftWrap] at hmem ⊢
          split at hmem <;> simp_all [Client.failure, Reply.failure]
      · simp_all
    · simp_all
  · simp_all

theorem ListIssuesHandler_upstream_failure (env : Env) (getClient : GetClientFn) (ctx : Context)
    (r : CallToolRequest) (c : Client) (call : UpstreamCall) (e : String)
    (hc : getClient ctx = .client c)
    (hmem : Event.upstream call ∈ (ToolId.list_issues.handler env getClient ctx r).trace)
    (hfail : c.failure call = some e) :
    (ToolId.list_issues.handler env getClient ctx r).outcome
      = ToolId.list_issues.onUpstreamError.report (ToolId.list_issues.failurePrefix call ++ e) := by
  simp only [ToolId.handler, ListIssuesHandler, ToolId.onUpstreamError, ToolId.failurePrefix,
    Propagation.report, GetClientFn.call_client _ _ c hc,
    IssuesService.GetIssue, IssuesService.ListProjectIssues, IssuesService.CreateIssue,
    IssuesService.UpdateIssue, NotesService.ListIssueNotes, NotesService.CreateIssueNote,
    NotesService.ListMergeRequestNotes, NotesService.CreateMergeRequestNote,
    MergeRequestsService.GetMergeRequest, MergeRequestsService.ListProjectMergeRequests,
    MergeRequestsService.CreateMergeRequest, MergeRequestsService.UpdateMergeRequest,
    SearchService.Projects, SearchService.MergeRequests, SearchService.Users,
    ProjectsService.ListProjects, UsersService.CurrentUser, UsersService.ListUsers] at hmem ⊢
  rcases h1 : requiredParam String r "namespace" with ⟨v1, _ | e1⟩
  · rcases h2 : requiredParam String r "project" with ⟨v2, _ | e2⟩
    · simp only [h1, h2, Exec.bind_eq, Exec.pure_eq, Exec.orFail_ok, Exec.orSoft_ok,
        Exec.orFailWrap_ok, Exec.orSoftWrap_ok, Exec.bind_pure_left, Exec.bind_emit,
        Exec.bind_after, Exec.run_after] at hmem ⊢
      generalize hr : c.Issues.listFunc _ _ = reply at hmem ⊢
      rcases reply with e' | ⟨x, resp⟩
      · simp_all [Client.failure, Reply.failure]
      · simp only [Exec.orFailWrap_ok, Exec.orSoftWrap_ok, Exec.bind_pure_left, Exec.deref,
          Exec.orFailWrap, Exec.orSoftWrap] at hmem ⊢
        split at hmem <;> simp_all [Client.failure, Reply.failure]
    · simp_all
  · simp_all

theorem SearchIssuesHandler_upstream_failure (env : Env) (getClient : GetClientFn) (ctx : Context)
    (r : CallToolRequest) (c : Client) (call : UpstreamCall) (e : String)
    (hc : getClient ctx = .client c)
    (hmem : Event.upstream call ∈ (ToolId.search_issues.handler env getClient ctx r).trace)
    (hfail : c.failure call = some e) :
    (ToolId.search_issues.handler env getClient ctx r).outcome
      = ToolId.search_issues.onUpstreamError.report (ToolId.search_issues.failurePrefix call ++ e) := by
  simp only [ToolId.handler, SearchIssuesHandler, ToolId.onUpstreamError, ToolId.failurePrefix,
    Propagation.report, GetClientFn.call_client _ _ c hc,
    IssuesService.GetIssue, IssuesService.ListProjectIssues, IssuesService.CreateIssue,
    IssuesService.UpdateIssue, NotesService.ListIssueNotes, NotesService.CreateIssueNote,
    NotesService.ListMergeRequestNotes, NotesService.CreateMergeRequestNote,
    MergeRequestsService.GetMergeRequest, MergeRequestsService.ListProjectMergeRequests,
    MergeRequestsService.CreateMergeRequest, MergeRequestsService.UpdateMergeRequest,
    SearchService.Projects, SearchService.MergeRequests, SearchService.Users,
    ProjectsService.ListProjects, UsersService.CurrentUser, UsersService.ListUsers] at hmem ⊢
  rcases h1 : requiredParam String r "namespace" with ⟨v1, _ | e1⟩
  · rcases h2 : requiredParam String r "project" with ⟨v2, _ | e2⟩
    · rcases h3 : requiredParam String r "query" with ⟨v3, _ | e3⟩
      · simp only [h1, h2, h3, Exec.bind_eq, Exec.pure_eq, Exec.orFail_ok, Exec.orSoft_ok,
          Exec.orFailWrap_ok, Exec.orSoftWrap_ok, Exec.bind_pure_left, Exec.bind_emit,
          Exec.bind_after, Exec.run_after] at hmem ⊢
        generalize hr : c.Issues.listFunc _ _ = reply at hmem ⊢
        rcases reply with e' | ⟨x, resp⟩
        · simp_all [Client.failure, Reply.failure]
        · simp only [Exec.orFailWrap_ok, Exec.orSoftWrap_ok, Exec.bind_pure_left, Exec.deref,
            Exec.orFailWrap, Exec.orSoftWrap] at hmem ⊢
          split at hmem <;> simp_all [Client.failure, Reply.failure]
      · simp_all
    · simp_all
  · simp_all

theorem GetIssueCommentsHandler_upstream_failure (env : Env) (getClient : GetClientFn) (ctx : Context)
    (r : CallToolRequest) (c : Client) (call : UpstreamCall) (e : String)
    (hc : getClient ctx = .client c)
    (hmem : Event.upstream call ∈ (ToolId.get_issue_comments.handler env getClient ctx r).trace)
    (hfail : c.failure call = some e) :
    (ToolId.get_issue_comments.handler env getClient ctx r).outcome
      = ToolId.get_issue_comments.onUpstreamError.report (ToolId.get_issue_comments.failurePrefix call ++ e) := by
  simp only [ToolId.handler, GetIssueCommentsHandler, ToolId.onUpstreamError, ToolId.failurePrefix,
    Propagation.report, GetClientFn.call_client _ _ c hc,
    IssuesService.GetIssue, IssuesService.ListProjectIssues, IssuesService.CreateIssue,
    IssuesService.UpdateIssue, NotesService.ListIssueNotes, NotesService.CreateIssueNote,
    NotesService.ListMergeRequestNotes, NotesService.CreateMergeRequestNote,
    MergeRequestsService.GetMergeRequest, MergeRequestsService.ListProjectMergeRequests,
    MergeRequestsService.CreateMergeRequest, MergeRequestsService.UpdateMergeRequest,
    SearchService.Projects, SearchService.MergeRequests, SearchService.Users,
    ProjectsService.ListProjects, UsersService.CurrentUser, UsersService.ListUsers] at hmem ⊢
  rcases h1 : requiredParam String r "namespace" with ⟨v1, _ | e1⟩
  · rcases h2 : requiredParam String r "project" with ⟨v2, _ | e2⟩
    · rcases h3 : RequiredInt env.platform r "id" with ⟨v3, _ | e3⟩
      · simp only [h1, h2, h3, Exec.bind_eq, Exec.pure_eq, Exec.orFail_ok, Exec.orSoft_ok,
          Exec.orFailWrap_ok, Exec.orSoftWrap_ok, Exec.bind_pure_left, Exec.bind_emit,
          Exec.bind_after, Exec.run_after] at hmem ⊢
        generalize hr : c.Notes.listIssueNotesFunc _ _ = reply at hmem ⊢
        rcases reply with e' | ⟨x, resp⟩
        · simp_all [Client.failure, Reply.failure]
        · simp only [Exec.orFailWrap_ok, Exec.orSoftWrap_ok, Exec.bind_pure_left, Exec.deref,
            Exec.orFailWrap, Exec.orSoftWrap] at hmem ⊢
          split at hmem <;> simp_all [Client.failure, Reply.failure]
      · simp_all
    · simp_all
  · simp_all

theorem CreateIssueHandler_upstream_failure (env : Env) (getClient : GetClientFn) (ctx : Context)
    (r : CallToolRequest) (c : Client) (call : UpstreamCall) (e : String)
    (hc : getClient ctx = .client c)
    (hmem : Event.upstream call ∈ (ToolId.create_issue.handler env getClient ctx r).trace)
    (hfail : c.failure call = some e) :
    (ToolId.create_issue.handler env getClient ctx r).outcome
      = ToolId.create_issue.onUpstreamError.report (ToolId.create_issue.failurePrefix call ++ e) := by
  simp only [ToolId.handler, CreateIssueHandler, ToolId.onUpstreamError, ToolId.failurePrefix,
    Propagation.report, GetClientFn.call_client _ _ c hc,
    IssuesService.GetIssue, IssuesService.ListProjectIssues, IssuesService.CreateIssue,
    IssuesService.UpdateIssue, NotesService.ListIssueNotes, NotesService.CreateIssueNote,
    NotesService.ListMergeRequestNotes, NotesService.CreateMergeRequestNote,
    MergeRequestsService.GetMergeRequest, MergeRequestsService.ListProjectMergeRequests,
    MergeRequestsService.CreateMergeRequest, MergeRequestsService.UpdateMergeRequest,
    SearchService.Projects, SearchService.MergeRequests, SearchService.Users,
    ProjectsService.ListProjects, UsersService.CurrentUser, UsersService.ListUsers] at hmem ⊢
  rcases h1 : requiredParam String r "namespace" with ⟨v1, _ | e1⟩
  · rcases h2 : requiredParam String r "project" with ⟨v2, _ | e2⟩
    · rcases h3 : requiredParam String r "title" with ⟨v3, _ | e3⟩
      · simp only [h1, h2, h3, Exec.bind_eq, Exec.pure_eq, Exec.orFail_ok, Exec.orSoft_ok,
          Exec.orFailWrap_ok, Exec.orSoftWrap_ok, Exec.bind_pure_left, Exec.bind_emit,
          Exec.bind_after, Exec.run_after] at hmem ⊢
        generalize hr : c.Issues.createFunc _ _ = reply at hmem ⊢
        rcases reply with e' | ⟨x, resp⟩
        · simp_all [Client.failure, Reply.failure]
        · simp only [Exec.orFailWrap_ok, Exec.orSoftWrap_ok, Exec.bind_pure_left, Exec.deref,
            Exec.orFailWrap, Exec.orSoftWrap] at hmem ⊢
          split at hmem <;> simp_all [Client.failure, Reply.failure]
      · simp_all
    · simp_all
  · simp_all

theorem AddIssueCommentHandler_upstream_failure (env : Env) (getClient : GetClientFn) (ctx : Context)
    (r : CallToolRequest) (c : Client) (call : UpstreamCall) (e : String)
    (hc : getClient ctx = .client c)
    (hmem : Event.upstream call ∈ (ToolId.add_issue_comment.handler env getClient ctx r).trace)
    (hfail : c.failure call = some e) :
    (ToolId.add_issue_comment.handler env getClient ctx r).outcome
      = ToolId.add_issue_comment.onUpstreamError.report (ToolId.add_issue_comment.failurePrefix call ++ e) := by
  simp only [ToolId.handler, AddIssueCommentHandler, ToolId.onUpstreamError, ToolId.failurePrefix,
    Propagation.report, GetClientFn.call_client _ _ c hc,
    IssuesService.GetIssue, IssuesService.ListProjectIssues, IssuesService.CreateIssue,
    IssuesService.UpdateIssue, NotesService.ListIssueNotes, NotesService.CreateIssueNote,
    NotesService.ListMergeRequestNotes, NotesService.CreateMergeRequestNote,
    MergeRequestsService.GetMergeRequest, MergeRequestsService.ListProjectMergeRequests,
    MergeRequestsService.CreateMergeRequest, MergeRequestsService.UpdateMergeRequest,
    SearchService.Projects, SearchService.MergeRequests, SearchService.Users,
    ProjectsService.ListProjects, UsersService.CurrentUser, UsersService.ListUsers] at hmem ⊢
  rcases h1 : requiredParam String r "namespace" with ⟨v1, _ | e1⟩
  · rcases h2 : requiredParam String r "project" with ⟨v2, _ | e2⟩
    · rcases h3 : RequiredInt env.platform r "id" with ⟨v3, _ | e3⟩
      · rcases h4 : requiredParam String r "body" with ⟨v4, _ | e4⟩
        · simp only [h1, h2, h3, h4, Exec.bind_eq, Exec.pure_eq, Exec.orFail_ok, Exec.orSoft_ok,
            Exec.orFailWrap_ok, Exec.orSoftWrap_ok, Exec.bind_pure_left, Exec.bind_emit,
            Exec.bind_after, Exec.run_after] at hmem ⊢
          generalize hr : c.Notes.createIssueNoteFunc _ _ _ = reply at hmem ⊢
          rcases reply with e' | ⟨x, resp⟩
          · simp_all [Client.failure, Reply.failure]
          · simp only [Exec.orFailWrap_ok, Exec.orSoftWrap_ok, Exec.bind_pure_left, Exec.deref,
              Exec.orFailWrap, Exec.orSoftWrap] at hmem ⊢
            split at hmem <;> simp_all [Client.failure, Reply.failure]
        · simp_all
      · simp_all
    · simp_all
  · simp_all

theorem UpdateIssueHandler_upstream_failure (env : Env) (getClient : GetClientFn) (ctx : Context)
    (r : CallToolRequest) (c : Client) (call : UpstreamCall) (e : String)
    (hc : getClient ctx = .client c)
    (hmem : Event.upstream call ∈ (ToolId.update_issue.handler env getClient ctx r).trace)
    (hfail : c.failure call = some e) :
    (ToolId.update_issue.handler env getClient ctx r).outcome
      = ToolId.update_issue.onUpstreamError.report (ToolId.update_issue.failurePrefix call ++ e) := by
  simp only [ToolId.handler, UpdateIssueHandler, ToolId.onUpstreamError, ToolId.failurePrefix,
    Propagation.report, GetClientFn.call_client _ _ c hc,
    IssuesService.GetIssue, IssuesService.ListProjectIssues, IssuesService.CreateIssue,
    IssuesService.UpdateIssue, NotesService.ListIssueNotes, NotesService.CreateIssueNote,
    NotesService.ListMergeRequestNotes, NotesService.CreateMergeRequestNote,
    MergeRequestsService.GetMergeRequest, MergeRequestsService.ListProjectMergeRequests,
    MergeRequestsService.CreateMergeRequest, MergeRequestsService.UpdateMergeRequest,
    SearchService.Projects, SearchService.MergeRequests, SearchService.Users,
    ProjectsService.ListProjects, UsersService.CurrentUser, UsersService.ListUsers] at hmem ⊢
  rcases h1 : requiredParam String r "namespace" with ⟨v1, _ | e1⟩
  · rcases h2 : requiredParam String r "project" with ⟨v2, _ | e2⟩
    · rcases h3 : RequiredInt env.platform r "id" with ⟨v3, _ | e3⟩
      · simp only [h1, h2, h3, Exec.bind_eq, Exec.pure_eq, Exec.orFail_ok, Exec.orSoft_ok,
          Exec.orFailWrap_ok, Exec.orSoftWrap_ok, Exec.bind_pure_left, Exec.bind_emit,
          Exec.bind_after, Exec.run_after] at hmem ⊢
        generalize hr : c.Issues.updateFunc _ _ _ = reply at hmem ⊢
        rcases reply with e' | ⟨x, resp⟩
        · simp_all [Client.failure, Reply.failure]
        · simp only [Exec.orFailWrap_ok, Exec.orSoftWrap_ok, Exec.bind_pure_left, Exec.deref,
            Exec.orFailWrap, Exec.orSoftWrap] at hmem ⊢
          split at hmem <;> simp_all [Client.failure, Reply.failure]
      · simp_all
    · simp_all
  · simp_all

theorem GetMergeRequestHandler_upstream_failure (env : Env) (getClient : GetClientFn) (ctx : Context)
    (r : CallToolRequest) (c : Client) (call : UpstreamCall) (e : String)
    (hc : getClient ctx = .client c)
    (hmem : Event.upstream call ∈ (ToolId.get_merge_request.handler env getClient ctx r).trace)
    (hfail : c.failure call = some e) :
    (ToolId.get_merge_request.handler env getClient ctx r).outcome
      = ToolId.get_merge_request.onUpstreamError.report (ToolId.get_merge_request.failurePrefix call ++ e) := by
  simp only [ToolId.handler, GetMergeRequestHandler, ToolId.onUpstreamError, ToolId.failurePrefix,
    Propagation.report, GetClientFn.call_client _ _ c hc,
    IssuesService.GetIssue, IssuesService.ListProjectIssues, IssuesService.CreateIssue,
    IssuesService.UpdateIssue, NotesService.ListIssueNotes, NotesService.CreateIssueNote,
    NotesService.ListMergeRequestNotes, NotesService.CreateMergeRequestNote,
    MergeRequestsService.GetMergeRequest, MergeRequestsService.ListProjectMergeRequests,
    MergeRequestsService.CreateMergeRequest, MergeRequestsService.UpdateMergeRequest,
    SearchService.Projects, SearchService.MergeRequests, SearchService.Users,
    ProjectsService.ListProjects, UsersService.CurrentUser, UsersService.ListUsers] at hmem ⊢
  rcases h1 : RequiredString r "namespace" with ⟨v1, _ | e1⟩
  · rcases h2 : RequiredString r "project" with ⟨v2, _ | e2⟩
    · rcases h3 : RequiredInt env.platform r "id" with ⟨v3, _ | e3⟩
      · simp only [h1, h2, h3, Exec.bind_eq, Exec.pure_eq, Exec.orFail_ok, Exec.orSoft_ok,
          Exec.orFailWrap_ok, Exec.orSoftWrap_ok, Exec.bind_pure_left, Exec.bind_emit,
          Exec.bind_after, Exec.run_after] at hmem ⊢
        generalize hr : c.MergeRequests.getFunc _ _ = reply at hmem ⊢
        rcases reply with e' | ⟨x, resp⟩
        · simp_all [Client.failure, Reply.failure]
        · simp only [Exec.orFailWrap_ok, Exec.orSoftWrap_ok, Exec.bind_pure_left, Exec.deref,
            Exec.orFailWrap, Exec.orSoftWrap] at hmem ⊢
          split at hmem <;> simp_all [Client.failure, Reply.failure]
      · simp_all
    · simp_all
  · simp_all

theorem ListMergeRequestsHandler_upstream_failure (env : Env) (getClient : GetClientFn) (ctx : Context)
    (r : CallToolRequest) (c : Client) (call : UpstreamCall) (e : String)
    (hc : getClient ctx = .client c)
    (hmem : Event.upstream call ∈ (ToolId.list_merge_requests.handler env getClient ctx r).trace)
    (hfail : c.failure call = some e) :
    (ToolId.list_merge_requests.handler env getClient ctx r).outcome
      = ToolId.list_merge_requests.onUpstreamError.report (ToolId.list_merge_requests.failurePrefix call ++ e) := by
  simp only [ToolId.handler, ListMergeRequestsHandler, ToolId.onUpstreamError, ToolId.failurePrefix,
    Propagation.report, GetClientFn.call_client _ _ c hc,
    IssuesService.GetIssue, IssuesService.ListProjectIssues, IssuesService.CreateIssue,
    IssuesService.UpdateIssue, NotesService.ListIssueNotes, NotesService.CreateIssueNote,
    NotesService.ListMergeRequestNotes, NotesService.CreateMergeRequestNote,
    MergeRequestsService.GetMergeRequest, MergeRequestsService.ListProjectMergeRequests,
    MergeRequestsService.CreateMergeRequest, MergeRequestsService.UpdateMergeRequest,
    SearchService.Projects, SearchService.MergeRequests, SearchService.Users,
    ProjectsService.ListProjects, UsersService.CurrentUser, UsersService.ListUsers] at hmem ⊢
  rcases h1 : requiredParam String r "namespace" with ⟨v1, _ | e1⟩
  · rcases h2 : requiredParam String r "project" with ⟨v2, _ | e2⟩
    · simp only [h1, h2, Exec.bind_eq, Exec.pure_eq, Exec.orFail_ok, Exec.orSoft_ok,
        Exec.orFailWrap_ok, Exec.orSoftWrap_ok, Exec.bind_pure_left, Exec.bind_emit,
        Exec.bind_after, Exec.run_after] at hmem ⊢
      generalize hr : c.MergeRequests.listFunc _ _ = reply at hmem ⊢
      rcases reply with e' | ⟨x, resp⟩
      · simp_all [Client.failure, Reply.failure]
      · simp only [Exec.orFailWrap_ok, Exec.orSoftWrap_ok, Exec.bind_pure_left, Exec.deref,
          Exec.orFailWrap, Exec.orSoftWrap] at hmem ⊢
        split at hmem <;> simp_all [Client.failure, Reply.failure]
    · simp_all
  · simp_all

theorem GetMergeRequestCommentsHandler_upstream_failure (env : Env) (getClient : GetClientFn) (ctx : Context)
    (r : CallToolRequest) (c : Client) (call : UpstreamCall) (e : String)
    (hc : getClient ctx = .client c)
    (hmem : Event.upstream call ∈ (ToolId.get_merge_request_comments.handler env getClient ctx r).trace)
    (hfail : c.failure call = some e) :
    (ToolId.get_merge_request_comments.handler env getClient ctx r).outcome
      = ToolId.get_merge_request_comments.onUpstreamError.report (ToolId.get_merge_request_comments.failurePrefix call ++ e) := by
  simp only [ToolId.handler, GetMergeRequestCommentsHandler, ToolId.onUpstreamError, ToolId.failurePrefix,
    Propagation.report, GetClientFn.call_client _ _ c hc,
    IssuesService.GetIssue, IssuesService.ListProjectIssues, IssuesService.CreateIssue,
    IssuesService.UpdateIssue, NotesService.ListIssueNotes, NotesService.CreateIssueNote,
    NotesService.ListMergeRequestNotes, NotesService.CreateMergeRequestNote,
    MergeRequestsService.GetMergeRequest, MergeRequestsService.ListProjectMergeRequests,
    MergeRequestsService.CreateMergeRequest, MergeRequestsService.UpdateMergeRequest,
    SearchService.Projects, SearchService.MergeRequests, SearchService.Users,
    ProjectsService.ListProjects, UsersService.CurrentUser, UsersService.ListUsers] at hmem ⊢
  rcases h1 : requiredParam String r "namespace" with ⟨v1, _ | e1⟩
  · rcases h2 : requiredParam String r "project" with ⟨v2, _ | e2⟩
    · rcases h3 : requiredParam String r "id" with ⟨v3, _ | e3⟩
      · simp only [h1, h2, h3, Exec.bind_eq, Exec.pure_eq, Exec.orFail_ok, Exec.orSoft_ok,
          Exec.orFailWrap_ok, Exec.orSoftWrap_ok, Exec.bind_pure_left, Exec.bind_emit,
          Exec.bind_after, Exec.run_after] at hmem ⊢
        rcases hA : Atoi env v3 with ⟨n, _ | ea⟩
        · simp only [hA, Exec.bind_eq, Exec.pure_eq, Exec.orFail_ok, Exec.orSoft_ok,
            Exec.orFailWrap_ok, Exec.orSoftWrap_ok, Exec.bind_pure_left, Exec.bind_emit,
            Exec.bind_after, Exec.run_after] at hmem ⊢
          generalize hr : c.Notes.listMergeRequestNotesFunc _ _ = reply at hmem ⊢
          rcases reply with e' | ⟨x, resp⟩
          · simp_all [Client.failure, Reply.failure]
          · simp only [Exec.orFailWrap_ok, Exec.orSoftWrap_ok, Exec.bind_pure_left, Exec.deref,
              Exec.orFailWrap, Exec.orSoftWrap] at hmem ⊢
            split at hmem <;> split at hmem <;> simp_all [Client.failure, Reply.failure]
        · simp_all
      · simp_all
    · simp_all
  · simp_all

theorem CreateMergeRequestHandler_upstream_failure (env : Env) (getClient : GetClientFn) (ctx : Context)
    (r : CallToolRequest) (c : Client) (call : UpstreamCall) (e : String)
    (hc : getClient ctx = .client c)
    (hmem : Event.upstream call ∈ (ToolId.create_merge_request.handler env getClient ctx r).trace)
    (hfail : c.failure call = some e) :
    (ToolId.create_merge_request.handler env getClient ctx r).outcome
      = ToolId.create_merge_request.onUpstreamError.report (ToolId.create_merge_request.failurePrefix call ++ e) := by
  simp only [ToolId.handler, CreateMergeRequestHandler, ToolId.onUpstreamError, ToolId.failurePrefix,
    Propagation.report, GetClientFn.call_client _ _ c hc,
    IssuesService.GetIssue, IssuesService.ListProjectIssues, IssuesService.CreateIssue,
    IssuesService.UpdateIssue, NotesService.ListIssueNotes, NotesService.CreateIssueNote,
    NotesService.ListMergeRequestNotes, NotesService.CreateMergeRequestNote,
    MergeRequestsService.GetMergeRequest, MergeRequestsService.ListProjectMergeRequests,
    MergeRequestsService.CreateMergeRequest, MergeRequestsService.UpdateMergeRequest,
    SearchService.Projects, SearchService.MergeRequests, SearchService.Users,
    ProjectsService.ListProjects, UsersService.CurrentUser, UsersService.ListUsers] at hmem ⊢
  rcases h1 : requiredParam String r "namespace" with ⟨v1, _ | e1⟩
  · rcases h2 : requiredParam String r "project" with ⟨v2, _ | e2⟩
    · rcases h3 : requiredParam String r "title" with ⟨v3, _ | e3⟩
      · rcases h4 : requiredParam String r "description" with ⟨v4, _ | e4⟩
        · rcases h5 : requiredParam String r "source_branch" with ⟨v5, _ | e5⟩
          · rcases h6 : requiredParam String r "target_branch" with ⟨v6, _ | e6⟩
            · simp only [h1, h2, h3, h4, h5, h6, Exec.bind_eq, Exec.pure_eq, Exec.orFail_ok,
                Exec.orSoft_ok, Exec.orFailWrap_ok, Exec.orSoftWrap_ok, Exec.bind_pure_left,
                Exec.bind_emit, Exec.bind_after, Exec.run_after] at hmem ⊢
              generalize hr : c.MergeRequests.createFunc _ _ = reply at hmem ⊢
              rcases reply with e' | ⟨x, resp⟩
              · simp_all [Client.failure, Reply.failure]
              · simp only [Exec.orFailWrap_ok, Exec.orSoftWrap_ok, Exec.bind_pure_left, Exec.deref,
                  Exec.orFailWrap, Exec.orSoftWrap] at hmem ⊢
                split at hmem <;> simp_all [Client.failure, Reply.failure]
            · simp_all
          · simp_all
        · simp_all
      · simp_all
    · simp_all
  · simp_all

theorem AddMergeRequestCommentHandler_upstream_failure (env : Env) (getClient : GetClientFn) (ctx : Context)
    (r : CallToolRequest) (c : Client) (call : UpstreamCall) (e : String)
    (hc : getClient ctx = .client c)
    (hmem : Event.upstream call ∈ (ToolId.add_merge_request_comment.handler env getClient ctx r).trace)
    (hfail : c.failure call = some e) :
    (ToolId.add_merge_request_comment.handler env getClient ctx r).outcome
      = ToolId.add_merge_request_comment.onUpstreamError.report (ToolId.add_merge_request_comment.failurePrefix call ++ e) := by
  simp only [ToolId.handler, AddMergeRequestCommentHandler, ToolId.onUpstreamError, ToolId.failurePrefix,
    Propagation.report, GetClientFn.call_client _ _ c hc,
    IssuesService.GetIssue, IssuesService.ListProjectIssues, IssuesService.CreateIssue,
    IssuesService.UpdateIssue, NotesService.ListIssueNotes, NotesService.CreateIssueNote,
    NotesService.ListMergeRequestNotes, NotesService.CreateMergeRequestNote,
    MergeRequestsService.GetMergeRequest, MergeRequestsService.ListProjectMergeRequests,
    MergeRequestsService.CreateMergeRequest, MergeRequestsService.UpdateMergeRequest,
    SearchService.Projects, SearchService.MergeRequests, SearchService.Users,
    ProjectsService.ListProjects, UsersService.CurrentUser, UsersService.ListUsers] at hmem ⊢
  rcases h1 : requiredParam String r "namespace" with ⟨v1, _ | e1⟩
  · rcases h2 : requiredParam String r "project" with ⟨v2, _ | e2⟩
    · rcases h3 : requiredParam String r "id" with ⟨v3, _ | e3⟩
      · rcases h4 : requiredParam String r "body" with ⟨v4, _ | e4⟩
        · simp only [h1, h2, h3, h4, Exec.bind_eq, Exec.pure_eq, Exec.orFail_ok, Exec.orSoft_ok,
            Exec.orFailWrap_ok, Exec.orSoftWrap_ok, Exec.bind_pure_left, Exec.bind_emit,
            Exec.bind_after, Exec.run_after] at hmem ⊢
          rcases hA : Atoi env v3 with ⟨n, _ | ea⟩
          · simp only [hA, Exec.bind_eq, Exec.pure_eq, Exec.orFail_ok, Exec.orSoft_ok,
              Exec.orFailWrap_ok, Exec.orSoftWrap_ok, Exec.bind_pure_left, Exec.bind_emit,
              Exec.bind_after, Exec.run_after] at hmem ⊢
            generalize hr : c.Notes.createMergeRequestNoteFunc _ _ _ = reply at hmem ⊢
            rcases reply with e' | ⟨x, resp⟩
            · simp_all [Client.failure, Reply.failure]
            · simp only [Exec.orFailWrap_ok, Exec.orSoftWrap_ok, Exec.bind_pure_left, Exec.deref,
                Exec.orFailWrap, Exec.orSoftWrap] at hmem ⊢
              split at hmem <;> split at hmem <;> simp_all [Client.failure, Reply.failure]
          · simp_all
        · simp_all
      · simp_all
    · simp_all
  · simp_all

theorem UpdateMergeRequestHandler_upstream_failure (env : Env) (getClient : GetClientFn) (ctx : Context)
    (r : CallToolRequest) (c : Client) (call : UpstreamCall) (e : String)
    (hc : getClient ctx = .client c)
    (hmem : Event.upstream call ∈ (ToolId.update_merge_request.handler env getClient ctx r).trace)
    (hfail : c.failure call = some e) :
    (ToolId.update_merge_request.handler env getClient ctx r).outcome
      = ToolId.update_merge_request.onUpstreamError.report (ToolId.update_merge_request.failurePrefix call ++ e) := by
  simp only [ToolId.handler, UpdateMergeRequestHandler, ToolId.onUpstreamError, ToolId.failurePrefix,
    Propagation.report, GetClientFn.call_client _ _ c hc,
    IssuesService.GetIssue, IssuesService.ListProjectIssues, IssuesService.CreateIssue,
    IssuesService.UpdateIssue, NotesService.ListIssueNotes, NotesService.CreateIssueNote,
    NotesService.ListMergeRequestNotes, NotesService.CreateMergeRequestNote,
    MergeRequestsService.GetMergeRequest, MergeRequestsService.ListProjectMergeRequests,
    MergeRequestsService.CreateMergeRequest, MergeRequestsService.UpdateMergeRequest,
    SearchService.Projects, SearchService.MergeRequests, SearchService.Users,
    ProjectsService.ListProjects, UsersService.CurrentUser, UsersService.ListUsers] at hmem ⊢
  rcases h1 : requiredParam String r "namespace" with ⟨v1, _ | e1⟩
  · rcases h2 : requiredParam String r "project" with ⟨v2, _ | e2⟩
    · rcases h3 : requiredParam String r "id" with ⟨v3, _ | e3⟩
      · simp only [h1, h2, h3, Exec.bind_eq, Exec.pure_eq, Exec.orFail_ok, Exec.orSoft_ok,
          Exec.orFailWrap_ok, Exec.orSoftWrap_ok, Exec.bind_pure_left, Exec.bind_emit,
          Exec.bind_after, Exec.run_after] at hmem ⊢
        rcases hA : Atoi env v3 with ⟨n, _ | ea⟩
        · simp only [hA, Exec.bind_eq, Exec.pure_eq, Exec.orFail_ok, Exec.orSoft_ok,
            Exec.orFailWrap_ok, Exec.orSoftWrap_ok, Exec.bind_pure_left, Exec.bind_emit,
            Exec.bind_after, Exec.run_after] at hmem ⊢
          generalize hr : c.MergeRequests.updateFunc _ _ _ = reply at hmem ⊢
          rcases reply with e' | ⟨x, resp⟩
          · simp_all [Client.failure, Reply.failure]
          · simp only [Exec.orFailWrap_ok, Exec.orSoftWrap_ok, Exec.bind_pure_left, Exec.deref,
              Exec.orFailWrap, Exec.orSoftWrap] at hmem ⊢
            split at hmem <;> split at hmem <;> simp_all [Client.failure, Reply.failure]
        · simp_all
      · simp_all
    · simp_all
  · simp_all

theorem GetRepositoryHandler_upstream_failure (env : Env) (getClient : GetClientFn) (ctx : Context)
    (r : CallToolRequest) (c : Client) (call : UpstreamCall) (e : String)
    (hc : getClient ctx = .client c)
    (hmem : Event.upstream call ∈ (ToolId.get_repository.handler env getClient ctx r).trace)
    (hfail : c.failure call = some e) :
    (ToolId.get_repository.handler env getClient ctx r).outcome
      = ToolId.get_repository.onUpstreamError.report (ToolId.get_repository.failurePrefix call ++ e) := by
  simp only [ToolId.handler, GetRepositoryHandler, ToolId.onUpstreamError, ToolId.failurePrefix,
    Propagation.report, GetClientFn.call_client _ _ c hc,
    IssuesService.GetIssue, IssuesService.ListProjectIssues, IssuesService.CreateIssue,
    IssuesService.UpdateIssue, NotesService.ListIssueNotes, NotesService.CreateIssueNote,
    NotesService.ListMergeRequestNotes, NotesService.CreateMergeRequestNote,
    MergeRequestsService.GetMergeRequest, MergeRequestsService.ListProjectMergeRequests,
    MergeRequestsService.CreateMergeRequest, MergeRequestsService.UpdateMergeRequest,
    SearchService.Projects, SearchService.MergeRequests, SearchService.Users,
    ProjectsService.ListProjects, UsersService.CurrentUser, UsersService.ListUsers] at hmem ⊢
  rcases h1 : RequiredString r "namespace" with ⟨v1, _ | e1⟩
  · rcases h2 : RequiredString r "project" with ⟨v2, _ | e2⟩
    · simp only [h1, h2, Exec.bind_eq, Exec.pure_eq, Exec.orFail_ok, Exec.orSoft_ok,
        Exec.orFailWrap_ok, Exec.orSoftWrap_ok, Exec.bind_pure_left, Exec.bind_emit,
        Exec.bind_after, Exec.run_after] at hmem ⊢
      generalize hr : c.Search.searchProjectFunc _ = reply at hmem ⊢
      rcases reply with e' | ⟨x, resp⟩
      · simp_all [Client.failure, Reply.failure]
      · simp only [Exec.orFailWrap_ok, Exec.orSoftWrap_ok, Exec.bind_pure_left, Exec.deref,
          Exec.orFailWrap, Exec.orSoftWrap] at hmem ⊢
        split at hmem <;> simp_all [Client.failure, Reply.failure]
    · simp_all
  · simp_all

theorem ListRepositoriesHandler_upstream_failure (env : Env) (getClient : GetClientFn) (ctx : Context)
    (r : CallToolRequest) (c : Client) (call : UpstreamCall) (e : String)
    (hc : getClient ctx = .client c)
    (hmem : Event.upstream call ∈ (ToolId.list_repositories.handler env getClient ctx r).trace)
    (hfail : c.failure call = some e) :
    (ToolId.list_repositories.handler env getClient ctx r).outcome
      = ToolId.list_repositories.onUpstreamError.report (ToolId.list_repositories.failurePrefix call ++ e) := by
  simp only [ToolId.handler, ListRepositoriesHandler, ToolId.onUpstreamError, ToolId.failurePrefix,
    Propagation.report, GetClientFn.call_client _ _ c hc,
    IssuesService.GetIssue, IssuesService.ListProjectIssues, IssuesService.CreateIssue,
    IssuesService.UpdateIssue, NotesService.ListIssueNotes, NotesService.CreateIssueNote,
    NotesService.ListMergeRequestNotes, NotesService.CreateMergeRequestNote,
    MergeRequestsService.GetMergeRequest, MergeRequestsService.ListProjectMergeRequests,
    MergeRequestsService.CreateMergeRequest, MergeRequestsService.UpdateMergeRequest,
    SearchService.Projects, SearchService.MergeRequests, SearchService.Users,
    ProjectsService.ListProjects, UsersService.CurrentUser, UsersService.ListUsers] at hmem ⊢
  simp only [Exec.bind_eq, Exec.pure_eq, Exec.orFail_ok, Exec.orSoft_ok, Exec.orFailWrap_ok,
    Exec.orSoftWrap_ok, Exec.bind_pure_left, Exec.bind_emit, Exec.bind_after, Exec.run_after]
    at hmem ⊢
  generalize hr : c.Projects.listFunc _ = reply at hmem ⊢
  rcases reply with e' | ⟨x, resp⟩
  · simp_all [Client.failure, Reply.failure]
  · simp only [Exec.orFailWrap_ok, Exec.orSoftWrap_ok, Exec.bind_pure_left, Exec.deref,
      Exec.orFailWrap, Exec.orSoftWrap] at hmem ⊢
    split at hmem <;> split at hmem <;> simp_all [Client.failure, Reply.failure]

theorem SearchRepositoriesHandler_upstream_failure (env : Env) (getClient : GetClientFn) (ctx : Context)
    (r : CallToolRequest) (c : Client) (call : UpstreamCall) (e : String)
    (hc : getClient ctx = .client c)
    (hmem : Event.upstream call ∈ (ToolId.search_repositories.handler env getClient ctx r).trace)
    (hfail : c.failure call = some e) :
    (ToolId.search_repositories.handler env getClient ctx r).outcome
      = ToolId.search_repositories.onUpstreamError.report (ToolId.search_repositories.failurePrefix call ++ e) := by
  simp only [ToolId.handler, SearchRepositoriesHandler, ToolId.onUpstreamError, ToolId.failurePrefix,
    Propagation.report, GetClientFn.call_client _ _ c hc,
    IssuesService.GetIssue, IssuesService.ListProjectIssues, IssuesService.CreateIssue,
    IssuesService.UpdateIssue, NotesService.ListIssueNotes, NotesService.CreateIssueNote,
    NotesService.ListMergeRequestNotes, NotesService.CreateMergeRequestNote,
    MergeRequestsService.GetMergeRequest, MergeRequestsService.ListProjectMergeRequests,
    MergeRequestsService.CreateMergeRequest, MergeRequestsService.UpdateMergeRequest,
    SearchService.Projects, SearchService.MergeRequests, SearchService.Users,
    ProjectsService.ListProjects, UsersService.CurrentUser, UsersService.ListUsers] at hmem ⊢
  rcases h1 : requiredParam String r "query" with ⟨v1, _ | e1⟩
  · simp only [h1, Exec.bind_eq, Exec.pure_eq, Exec.orFail_ok, Exec.orSoft_ok,
      Exec.orFailWrap_ok, Exec.orSoftWrap_ok, Exec.bind_pure_left, Exec.bind_emit,
      Exec.bind_after, Exec.run_after] at hmem ⊢
    generalize hr : c.Projects.listFunc _ = reply at hmem ⊢
    rcases reply with e' | ⟨x, resp⟩
    · simp_all [Client.failure, Reply.failure]
    · simp only [Exec.orFailWrap_ok, Exec.orSoftWrap_ok, Exec.bind_pure_left, Exec.deref,
        Exec.orFailWrap, Exec.orSoftWrap] at hmem ⊢
      split at hmem <;> split at hmem <;> simp_all [Client.failure, Reply.failure]
  · simp_all

theorem SearchProjectsHandler_upstream_failure (env : Env) (getClient : GetClientFn) (ctx : Context)
    (r : CallToolRequest) (c : Client) (call : UpstreamCall) (e : String)
    (hc : getClient ctx = .client c)
    (hmem : Event.upstream call ∈ (ToolId.search_projects.handler env getClient ctx r).trace)
    (hfail : c.failure call = some e) :
    (ToolId.search_projects.handler env getClient ctx r).outcome
      = ToolId.search_projects.onUpstreamError.report (ToolId.search_projects.failurePrefix call ++ e) := by
  simp only [ToolId.handler, SearchProjectsHandler, ToolId.onUpstreamError, ToolId.failurePrefix,
    Propagation.report, GetClientFn.call_client _ _ c hc,
    IssuesService.GetIssue, IssuesService.ListProjectIssues, IssuesService.CreateIssue,
    IssuesService.UpdateIssue, NotesService.ListIssueNotes, NotesService.CreateIssueNote,
    NotesService.ListMergeRequestNotes, NotesService.CreateMergeRequestNote,
    MergeRequestsService.GetMergeRequest, MergeRequestsService.ListProjectMergeRequests,
    MergeRequestsService.CreateMergeRequest, MergeRequestsService.UpdateMergeRequest,
    SearchService.Projects, SearchService.MergeRequests, SearchService.Users,
    ProjectsService.ListProjects, UsersService.CurrentUser, UsersService.ListUsers] at hmem ⊢
  rcases h1 : RequiredString r "query" with ⟨v1, _ | e1⟩
  · simp only [h1, Exec.bind_eq, Exec.pure_eq, Exec.orFail_ok, Exec.orSoft_ok,
      Exec.orFailWrap_ok, Exec.orSoftWrap_ok, Exec.bind_pure_left, Exec.bind_emit,
      Exec.bind_after, Exec.run_after] at hmem ⊢
    generalize hr : c.Search.searchProjectFunc _ = reply at hmem ⊢
    rcases reply with e' | ⟨x, resp⟩
    · simp_all [Client.failure, Reply.failure]
    · simp only [Exec.orFailWrap_ok, Exec.orSoftWrap_ok, Exec.bind_pure_left, Exec.deref,
        Exec.orFailWrap, Exec.orSoftWrap] at hmem ⊢
      split at hmem <;> simp_all [Client.failure, Reply.failure]
  · simp_all

theorem SearchMergeRequestsHandler_upstream_failure (env : Env) (getClient : GetClientFn) (ctx : Context)
    (r : CallToolRequest) (c : Client) (call : UpstreamCall) (e : String)
    (hc : getClient ctx = .client c)
    (hmem : Event.upstream call ∈ (ToolId.search_merge_requests.handler env getClient ctx r).trace)
    (hfail : c.failure call = some e) :
    (ToolId.search_merge_requests.handler env getClient ctx r).outcome
      = ToolId.search_merge_requests.onUpstreamError.report (ToolId.search_merge_requests.failurePrefix call ++ e) := by
  simp only [ToolId.handler, SearchMergeRequestsHandler, ToolId.onUpstreamError, ToolId.failurePrefix,
    Propagation.report, GetClientFn.call_client _ _ c hc,
    IssuesService.GetIssue, IssuesService.ListProjectIssues, IssuesService.CreateIssue,
    IssuesService.UpdateIssue, NotesService.ListIssueNotes, NotesService.CreateIssueNote,
    NotesService.ListMergeRequestNotes, NotesService.CreateMergeRequestNote,
    MergeRequestsService.GetMergeRequest, MergeRequestsService.ListProjectMergeRequests,
    MergeRequestsService.CreateMergeRequest, MergeRequestsService.UpdateMergeRequest,
    SearchService.Projects, SearchService.MergeRequests, SearchService.Users,
    ProjectsService.ListProjects, UsersService.CurrentUser, UsersService.ListUsers] at hmem ⊢
  rcases h1 : RequiredString r "query" with ⟨v1, _ | e1⟩
  · simp only [h1, Exec.bind_eq, Exec.pure_eq, Exec.orFail_ok, Exec.orSoft_ok,
      Exec.orFailWrap_ok, Exec.orSoftWrap_ok, Exec.bind_pure_left, Exec.bind_emit,
      Exec.bind_after, Exec.run_after] at hmem ⊢
    generalize hr : c.Search.searchMergeRequestFunc _ = reply at hmem ⊢
    rcases reply with e' | ⟨x, resp⟩
    · simp_all [Client.failure, Reply.failure]
    · simp only [Exec.orFailWrap_ok, Exec.orSoftWrap_ok, Exec.bind_pure_left, Exec.deref,
        Exec.orFailWrap, Exec.orSoftWrap] at hmem ⊢
      split at hmem <;> simp_all [Client.failure, Reply.failure]
  · simp_all

theorem SearchUsersHandler_upstream_failure (env : Env) (getClient : GetClientFn) (ctx : Context)
    (r : CallToolRequest) (c : Client) (call : UpstreamCall) (e : String)
    (hc : getClient ctx = .client c)
    (hmem : Event.upstream call ∈ (ToolId.search_users.handler env getClient ctx r).trace)
    (hfail : c.failure call = some e) :
    (ToolId.search_users.handler env getClient ctx r).outcome
      = ToolId.search_users.onUpstreamError.report (ToolId.search_users.failurePrefix call ++ e) := by
  simp only [ToolId.handler, SearchUsersHandler, ToolId.onUpstreamError, ToolId.failurePrefix,
    Propagation.report, GetClientFn.call_client _ _ c hc,
    IssuesService.GetIssue, IssuesService.ListProjectIssues, IssuesService.CreateIssue,
    IssuesService.UpdateIssue, NotesService.ListIssueNotes, NotesService.CreateIssueNote,
    NotesService.ListMergeRequestNotes, NotesService.CreateMergeRequestNote,
    MergeRequestsService.GetMergeRequest, MergeRequestsService.ListProjectMergeRequests,
    MergeRequestsService.CreateMergeRequest, MergeRequestsService.UpdateMergeRequest,
    SearchService.Projects, SearchService.MergeRequests, SearchService.Users,
    ProjectsService.ListProjects, UsersService.CurrentUser, UsersService.ListUsers] at hmem ⊢
  rcases h1 : RequiredString r "query" with ⟨v1, _ | e1⟩
  · simp only [h1, Exec.bind_eq, Exec.pure_eq, Exec.orFail_ok, Exec.orSoft_ok,
      Exec.orFailWrap_ok, Exec.orSoftWrap_ok, Exec.bind_pure_left, Exec.bind_emit,
      Exec.bind_after, Exec.run_after] at hmem ⊢
    generalize hr : c.Search.searchUserFunc _ = reply at hmem ⊢
    rcases reply with e' | ⟨x, resp⟩
    · simp_all [Client.failure, Reply.failure]
    · simp only [Exec.orFailWrap_ok, Exec.orSoftWrap_ok, Exec.bind_pure_left, Exec.deref,
        Exec.orFailWrap, Exec.orSoftWrap] at hmem ⊢
      split at hmem <;> simp_all [Client.failure, Reply.failure]
  · simp_all

theorem GetMeHandler_upstream_failure (env : Env) (getClient : GetClientFn) (ctx : Context)
    (r : CallToolRequest) (c : Client) (call : UpstreamCall) (e : String)
    (hc : getClient ctx = .client c)
    (hmem : Event.upstream call ∈ (ToolId.get_me.handler env getClient ctx r).trace)
    (hfail : c.failure call = some e) :
    (ToolId.get_me.handler env getClient ctx r).outcome
      = ToolId.get_me.onUpstreamError.report (ToolId.get_me.failurePrefix call ++ e) := by
  simp only [ToolId.handler, GetMeHandler, ToolId.onUpstreamError, ToolId.failurePrefix,
    Propagation.report, GetClientFn.call_client _ _ c hc,
    IssuesService.GetIssue, IssuesService.ListProjectIssues, IssuesService.CreateIssue,
    IssuesService.UpdateIssue, NotesService.ListIssueNotes, NotesService.CreateIssueNote,
    NotesService.ListMergeRequestNotes, NotesService.CreateMergeRequestNote,
    MergeRequestsService.GetMergeRequest, MergeRequestsService.ListProjectMergeRequests,
    MergeRequestsService.CreateMergeRequest, MergeRequestsService.UpdateMergeRequest,
    SearchService.Projects, SearchService.MergeRequests, SearchService.Users,
    ProjectsService.ListProjects, UsersService.CurrentUser, UsersService.ListUsers] at hmem ⊢
  simp only [Exec.bind_eq, Exec.pure_eq, Exec.orFail_ok, Exec.orSoft_ok, Exec.orFailWrap_ok,
    Exec.orSoftWrap_ok, Exec.bind_pure_left, Exec.bind_emit, Exec.bind_after, Exec.run_after]
    at hmem ⊢
  generalize hr : c.Users.currentUserFunc = reply at hmem ⊢
  rcases reply with e' | ⟨x, resp⟩
  · simp_all [Client.failure, Reply.failure]
  · simp only [Exec.orFailWrap_ok, Exec.orSoftWrap_ok, Exec.bind_pure_left, Exec.deref,
      Exec.orFailWrap, Exec.orSoftWrap] at hmem ⊢
    simp_all [Client.failure, Reply.failure]

theorem GetUserProfileHandler_upstream_failure (env : Env) (getClient : GetClientFn) (ctx : Context)
    (r : CallToolRequest) (c : Client) (call : UpstreamCall) (e : String)
    (hc : getClient ctx = .client c)
    (hmem : Event.upstream call ∈ (ToolId.get_user_profile.handler env getClient ctx r).trace)
    (hfail : c.failure call = some e) :
    (ToolId.get_user_profile.handler env getClient ctx r).outcome
      = ToolId.get_user_profile.onUpstreamError.report (ToolId.get_user_profile.failurePrefix call ++ e) := by
  simp only [ToolId.handler, GetUserProfileHandler, ToolId.onUpstreamError, ToolId.failurePrefix,
    Propagation.report, GetClientFn.call_client _ _ c hc,
    IssuesService.GetIssue, IssuesService.ListProjectIssues, IssuesService.CreateIssue,
    IssuesService.UpdateIssue, NotesService.ListIssueNotes, NotesService.CreateIssueNote,
    NotesService.ListMergeRequestNotes, NotesService.CreateMergeRequestNote,
    MergeRequestsService.GetMergeRequest, MergeRequestsService.ListProjectMergeRequests,
    MergeRequestsService.CreateMergeRequest, MergeRequestsService.UpdateMergeRequest,
    SearchService.Projects, SearchService.MergeRequests, SearchService.Users,
    ProjectsService.ListProjects, UsersService.CurrentUser, UsersService.ListUsers] at hmem ⊢
  rcases h1 : RequiredString r "username" with ⟨v1, _ | e1⟩
  · simp only [h1, Exec.bind_eq, Exec.pure_eq, Exec.orFail_ok, Exec.orSoft_ok,
      Exec.orFailWrap_ok, Exec.orSoftWrap_ok, Exec.bind_pure_left, Exec.bind_emit,
      Exec.bind_after, Exec.run_after] at hmem ⊢
    generalize hr : c.Users.listFunc _ = reply at hmem ⊢
    rcases reply with e' | ⟨x, resp⟩
    · simp_all [Client.failure, Reply.failure]
    · simp only [Exec.orFailWrap_ok, Exec.orSoftWrap_ok, Exec.bind_pure_left, Exec.deref,
        Exec.orFailWrap, Exec.orSoftWrap] at hmem ⊢
      split at hmem <;> simp_all [Client.failure, Reply.failure]
  · simp_all

end Gitlab

namespace Gitlab

theorem Exec.bind_of_next {ρ α β : Type} (m : Exec ρ α) (f : α → Exec ρ β) (a : α)
    (h : m.next = .inr a) : Exec.bind m f = ⟨m.trace ++ (f a).trace, (f a).next⟩ := by
  simp [Exec.bind, h]

theorem filterUserGroups_spec {ρ : Type} (c : Client) (userID : Int) (groups : List Group) :
    ∃ kept : List Group,
      (filterUserGroups c userID groups : Exec ρ (List Group)).next = .inr kept ∧
      ∀ ev ∈ (filterUserGroups c userID groups : Exec ρ (List Group)).trace,
        ∃ gid opt, ev = Event.upstream (.groupsListGroupMembers gid opt) := by
  induction groups with
  | nil => exact ⟨[], rfl, by simp [filterUserGroups, Exec.pure]⟩
  | cons group rest ih =>
    obtain ⟨kept, hnext, htrace⟩ := ih
    simp only [filterUserGroups, GroupsService.ListGroupMembers, Exec.bind_emit]
    rw [Exec.bind_of_next _ _ kept hnext]
    rcases c.Groups.listMembersFunc group.id { perPage := 100 } with e | ⟨members, resp⟩
    · refine ⟨kept, rfl, ?_⟩
      intro ev hev
      simp only [Exec.after, Exec.pure, List.append_nil, List.mem_cons] at hev
      rcases hev with h | h
      · exact ⟨_, _, h⟩
      · exact htrace ev h
    · cases hany : (members.any fun member => member.id == userID)
      · refine ⟨kept, by simp [Exec.after, hany, Exec.pure], ?_⟩
        intro ev hev
        simp only [Exec.after, hany, Bool.false_eq_true, if_false, Exec.pure, List.append_nil,
          List.mem_cons] at hev
        rcases hev with h | h
        · exact ⟨_, _, h⟩
        · exact htrace ev h
      · refine ⟨group :: kept, by simp [Exec.after, hany, Exec.pure], ?_⟩
        intro ev hev
        simp only [Exec.after, hany, if_true, Exec.pure, List.append_nil, List.mem_cons] at hev
        rcases hev with h | h
        · exact ⟨_, _, h⟩
        · exact htrace ev h

theorem GetUserPermissionsHandler_upstream_failure (env : Env) (getClient : GetClientFn)
    (ctx : Context) (r : CallToolRequest) (c : Client) (call : UpstreamCall) (e : String)
    (hc : getClient ctx = .client c)
    (hmem : Event.upstream call ∈ (ToolId.get_user_permissions.handler env getClient ctx r).trace)
    (hfail : c.failure call = some e) :
    (ToolId.get_user_permissions.handler env getClient ctx r).outcome
      = ToolId.get_user_permissions.onUpstreamError.report
          (ToolId.get_user_permissions.failurePrefix call ++ e) := by
  simp only [ToolId.handler, GetUserPermissionsHandler, ToolId.onUpstreamError,
    Propagation.report, GetClientFn.call_client _ _ c hc, UsersService.ListUsers,
    ProjectMembersService.ListProjectMembers] at hmem ⊢
  rcases h1 : assertString (r.arguments.get "project_id") with _ | v1
  · simp_all
  · rcases h2 : assertString (r.arguments.get "username") with _ | v2
    · simp_all
    · simp only [h1, h2, Exec.bind_eq, Exec.pure_eq, Exec.orFailWrap_ok, Exec.bind_pure_left,
        Exec.bind_emit, Exec.bind_after, Exec.run_after] at hmem ⊢
      generalize hr : c.Users.listFunc _ = reply at hmem ⊢
      rcases reply with e' | ⟨users, resp⟩
      · simp_all [Client.failure, Reply.failure, ToolId.failurePrefix]
      · rcases users with _ | ⟨user, others⟩
        · simp_all [Client.failure, Reply.failure]
        · simp only [Exec.orFailWrap_ok, Exec.bind_pure_left, Exec.bind_emit, Exec.bind_after,
            Exec.run_after] at hmem ⊢
          generalize hr2 : c.ProjectMembers.listFunc _ _ = reply2 at hmem ⊢
          rcases reply2 with e2 | ⟨members, resp2⟩
          · simp only [Exec.orFailWrap_err, Exec.bind_fail, Exec.run_fail, List.mem_cons,
              Event.upstream.injEq, List.not_mem_nil, or_false, false_or, reduceCtorEq] at hmem ⊢
            rcases hmem with h | h
            · subst h
              simp [Client.failure, Reply.failure, hr] at hfail
            · subst h
              simp only [Client.failure, Reply.failure, hr2, Option.some.injEq] at hfail
              subst hfail
              simp [ToolId.failurePrefix]
          · simp only [Exec.orFailWrap_ok, Exec.bind_pure_left] at hmem ⊢
            have hcases : call = UpstreamCall.usersListUsers { username := some v2 } ∨
                call = UpstreamCall.projectMembersListProjectMembers v1 { perPage := 100 } := by
              split at hmem <;> simpa [Exec.trace_run, Exec.pure] using hmem
            rcases hcases with h | h <;> subst h <;>
              simp [Client.failure, Reply.failure, hr, hr2] at hfail

theorem ListUserGroupsHandler_upstream_failure (env : Env) (getClient : GetClientFn)
    (ctx : Context) (r : CallToolRequest) (c : Client) (call : UpstreamCall) (e : String)
    (hc : getClient ctx = .client c)
    (hmem : Event.upstream call ∈ (ToolId.list_user_groups.handler env getClient ctx r).trace)
    (hfail : c.failure call = some e) (hcall : call.isMemberListing = false) :
    (ToolId.list_user_groups.handler env getClient ctx r).outcome
      = ToolId.list_user_groups.onUpstreamError.report
          (ToolId.list_user_groups.failurePrefix call ++ e) := by
  simp only [ToolId.handler, ListUserGroupsHandler, ToolId.onUpstreamError,
    Propagation.report, GetClientFn.call_client _ _ c hc, UsersService.ListUsers,
    GroupsService.ListGroups] at hmem ⊢
  rcases h1 : assertString (r.arguments.get "username") with _ | v1
  · simp_all
  · simp only [h1, Exec.bind_eq, Exec.pure_eq, Exec.orFailWrap_ok, Exec.bind_pure_left,
      Exec.bind_emit, Exec.bind_after, Exec.run_after] at hmem ⊢
    generalize hr : c.Users.listFunc _ = reply at hmem ⊢
    rcases reply with e' | ⟨users, resp⟩
    · simp_all [Client.failure, Reply.failure, ToolId.failurePrefix]
    · rcases users with _ | ⟨user, others⟩
      · simp_all [Client.failure, Reply.failure]
      · simp only [Exec.orFailWrap_ok, Exec.bind_pure_left, Exec.bind_emit, Exec.bind_after,
          Exec.run_after] at hmem ⊢
        generalize hr2 : c.Groups.listFunc _ = reply2 at hmem ⊢
        rcases reply2 with e2 | ⟨groups, resp2⟩
        · simp only [Exec.orFailWrap_err, Exec.bind_fail, Exec.run_fail, List.mem_cons,
            Event.upstream.injEq, List.not_mem_nil, or_false, false_or, reduceCtorEq] at hmem ⊢
          rcases hmem with h | h
          · subst h
            simp [Client.failure, Reply.failure, hr] at hfail
          · subst h
            simp only [Client.failure, Reply.failure, hr2, Option.some.injEq] at hfail
            subst hfail
            simp [ToolId.failurePrefix]
        · obtain ⟨kept, hnext, htrace⟩ :=
            filterUserGroups_spec (ρ := CallToolResult) c user.id groups
          simp only [Exec.orFailWrap_ok, Exec.bind_pure_left] at hmem ⊢
          rw [Exec.bind_of_next _ _ kept hnext] at hmem ⊢
          simp only [Exec.trace_run, Exec.pure, List.append_nil, List.mem_cons,
            Event.upstream.injEq, reduceCtorEq, false_or] at hmem
          rcases hmem with h | h | h
          · subst h
            simp [Client.failure, Reply.failure, hr] at hfail
          · subst h
            simp [Client.failure, Reply.failure, hr2] at hfail
          · obtain ⟨gid, opt, hev⟩ := htrace _ h
            simp only [Event.upstream.injEq] at hev
            subst hev
            simp [UpstreamCall.isMemberListing] at hcall

end Gitlab

namespace Gitlab

theorem ToolId.handler_upstream_failure (tool : ToolId) (env : Env) (getClient : GetClientFn)
    (ctx : Context) (r : CallToolRequest) (c : Client) (call : UpstreamCall) (e : String)
    (hc : getClient ctx = .client c)
    (hmem : Event.upstream call ∈ (tool.handler env getClient ctx r).trace)
    (hfail : c.failure call = some e) (hcall : call.isMemberListing = false) :
    (tool.handler env getClient ctx r).outcome
      = tool.onUpstreamError.report (tool.failurePrefix call ++ e) := by
  cases tool with
  | get_issue => exact GetIssueHandler_upstream_failure env getClient ctx r c call e hc hmem hfail
  | list_issues => exact ListIssuesHandler_upstream_failure env getClient ctx r c call e hc hmem hfail
  | search_issues => exact SearchIssuesHandler_upstream_failure env getClient ctx r c call e hc hmem hfail
  | get_issue_comments => exact GetIssueCommentsHandler_upstream_failure env getClient ctx r c call e hc hmem hfail
  | create_issue => exact CreateIssueHandler_upstream_failure env getClient ctx r c call e hc hmem hfail
  | add_issue_comment => exact AddIssueCommentHandler_upstream_failure env getClient ctx r c call e hc hmem hfail
  | update_issue => exact UpdateIssueHandler_upstream_failure env getClient ctx r c call e hc hmem hfail
  | get_merge_request => exact GetMergeRequestHandler_upstream_failure env getClient ctx r c call e hc hmem hfail
  | list_merge_requests => exact ListMergeRequestsHandler_upstream_failure env getClient ctx r c call e hc hmem hfail
  | get_merge_request_comments => exact GetMergeRequestCommentsHandler_upstream_failure env getClient ctx r c call e hc hmem hfail
  | create_merge_request => exact CreateMergeRequestHandler_upstream_failure env getClient ctx r c call e hc hmem hfail
  | add_merge_request_comment => exact AddMergeRequestCommentHandler_upstream_failure env getClient ctx r c call e hc hmem hfail
  | update_merge_request => exact UpdateMergeRequestHandler_upstream_failure env getClient ctx r c call e hc hmem hfail
  | get_repository => exact GetRepositoryHandler_upstream_failure env getClient ctx r c call e hc hmem hfail
  | list_repositories => exact ListRepositoriesHandler_upstream_failure env getClient ctx r c call e hc hmem hfail
  | search_repositories => exact SearchRepositoriesHandler_upstream_failure env getClient ctx r c call e hc hmem hfail
  | search_projects => exact SearchProjectsHandler_upstream_failure env getClient ctx r c call e hc hmem hfail
  | search_merge_requests => exact SearchMergeRequestsHandler_upstream_failure env getClient ctx r c call e hc hmem hfail
  | search_users => exact SearchUsersHandler_upstream_failure env getClient ctx r c call e hc hmem hfail
  | get_me => exact GetMeHandler_upstream_failure env getClient ctx r c call e hc hmem hfail
  | get_user_profile => exact GetUserProfileHandler_upstream_failure env getClient ctx r c call e hc hmem hfail
  | list_user_groups =>
    exact ListUserGroupsHandler_upstream_failure env getClient ctx r c call e hc hmem hfail hcall
  | get_user_permissions => exact GetUserPermissionsHandler_upstream_failure env getClient ctx r c call e hc hmem hfail

theorem ToolId.failurePrefix_eq (tool : ToolId) (call : UpstreamCall)
    (htool : tool ≠ .get_repository) :
    tool.failurePrefix call = "failed to " ++ tool.operation call ++ ": " := by
  cases tool <;> first
    | exact absurd rfl htool
    | (cases call <;> rfl)

/-- C19, refuted as stated: `get_repository` returns the error of the failed project search
as it is, without any text before it; and `list_user_groups` skips a group whose member
listing fails and returns its normal result, so that error is not reported at all. -/
theorem upstream_failure_not_wrapped :
    (sampleClient.failure (.searchProjects "g/p") = some "unavailable" ∧
      GetRepositoryHandler (fun _ => .client sampleClient) ⟨⟩
          ⟨"", [("namespace", Value.string "g"), ("project", Value.string "p")]⟩
        = ⟨[.getClient, .upstream (.searchProjects "g/p")],
            .ret none (some "unavailable")⟩) ∧
    (groupsStubClient.failure (.groupsListGroupMembers 3 { perPage := 100 })
        = some "unavailable" ∧
      ListUserGroupsHandler (fun _ => .client groupsStubClient) ⟨⟩
          ⟨"", [("username", Value.string "dev")]⟩
        = ⟨[.getClient, .upstream (.usersListUsers { username := some "dev" }),
             .upstream (.groupsListGroups { perPage := 100, allAvailable := some true }),
             .upstream (.groupsListGroupMembers 3 { perPage := 100 })],
            .ret (some ⟨[⟨"text", "Groups:\n"⟩], false⟩) none⟩) := by
  decide

/-- C19, amended: for every tool handler other than `get_repository` and every upstream
call it makes, other than the member listings of `list_user_groups`, that the client
answers with an error `e`, the message the handler reports is "failed to <operation>: "
followed by `e`, as a hard failure or as a soft error result as that handler does. -/
theorem upstream_failure_wrapped (tool : ToolId) (env : Env) (getClient : GetClientFn)
    (ctx : Context) (r : CallToolRequest) (c : Client) (call : UpstreamCall) (e : String)
    (hc : getClient ctx = .client c)
    (hmem : Event.upstream call ∈ (tool.handler env getClient ctx r).trace)
    (hfail : c.failure call = some e) (htool : tool ≠ .get_repository)
    (hcall : call.isMemberListing = false) :
    (tool.handler env getClient ctx r).outcome
      = tool.onUpstreamError.report ("failed to " ++ tool.operation call ++ ": " ++ e) := by
  rw [← ToolId.failurePrefix_eq tool call htool]
  exact ToolId.handler_upstream_failure tool env getClient ctx r c call e hc hmem hfail hcall

/-- C19, amended, at the request of the test "GitLab API error" of `get_issue`. -/
theorem upstream_failure_wrapped_witness :
    (ToolId.get_issue.handler sampleEnv (fun _ => .client sampleClient) ⟨⟩
        ⟨"", [("namespace", Value.string "test-namespace"),
              ("project", Value.string "test-project"),
              ("id", Value.number ⟨false, 1023, 0⟩)]⟩).outcome
      = ToolId.get_issue.onUpstreamError.report
          ("failed to " ++ ToolId.get_issue.operation
            (.issuesGetIssue "test-namespace/test-project" 1) ++ ": " ++ "unavailable") :=
  upstream_failure_wrapped .get_issue sampleEnv (fun _ => .client sampleClient) ⟨⟩
    ⟨"", [("namespace", Value.string "test-namespace"),
          ("project", Value.string "test-project"),
          ("id", Value.number ⟨false, 1023, 0⟩)]⟩
    sampleClient (.issuesGetIssue "test-namespace/test-project" 1) "unavailable" rfl
    (by decide) (by decide) (by decide) (by decide)

end Gitlab

namespace Gitlab

/-! ## The handlers that never fail hard -/

theorem GetMergeRequestCommentsHandler_never_hard (env : Env) (getClient : GetClientFn) (ctx : Context)
    (r : CallToolRequest) (hnp : ∀ msg : String, getClient ctx ≠ .panicked msg) :
    ∃ res : CallToolResult,
      (ToolId.get_merge_request_comments.handler env getClient ctx r).outcome = .ret (some res) none := by
  rcases hc : getClient ctx with c | e | msg
  · simp only [ToolId.handler, GetMergeRequestCommentsHandler, GetClientFn.call_client _ _ c hc,
      NotesService.ListMergeRequestNotes, NotesService.CreateMergeRequestNote,
      MergeRequestsService.CreateMergeRequest, MergeRequestsService.UpdateMergeRequest]
    rcases h1 : requiredParam String r "namespace" with ⟨v1, _ | e1⟩
    · rcases h2 : requiredParam String r "project" with ⟨v2, _ | e2⟩
      · rcases h3 : requiredParam String r "id" with ⟨v3, _ | e3⟩
        · simp only [h1, h2, h3,
            Exec.bind_eq, Exec.pure_eq, Exec.orSoft_ok, Exec.orSoftWrap_ok, Exec.bind_pure_left,
            Exec.bind_emit, Exec.bind_after, Exec.run_after]
          rcases hA : Atoi env v3 with ⟨n, _ | ea⟩
          · simp only [hA, Exec.bind_pure_left, Exec.bind_emit, Exec.bind_after, Exec.run_after]
            generalize c.Notes.listMergeRequestNotesFunc _ _ = reply
            rcases reply with e' | ⟨x, resp⟩
            · simp
            · simp only [Exec.orSoftWrap_ok, Exec.bind_pure_left, Exec.orSoftWrap]
              split <;> split <;> simp
          · simp [hA]
        · simp [h3]
      · simp [h2]
    · simp [h1]
  · rw [ToolId.handler_client_failed .get_merge_request_comments env getClient ctx r e hc]
    exact ⟨_, rfl⟩
  · exact absurd hc (hnp msg)

theorem CreateMergeRequestHandler_never_hard (env : Env) (getClient : GetClientFn) (ctx : Context)
    (r : CallToolRequest) (hnp : ∀ msg : String, getClient ctx ≠ .panicked msg) :
    ∃ res : CallToolResult,
      (ToolId.create_merge_request.handler env getClient ctx r).outcome = .ret (some res) none := by
  rcases hc : getClient ctx with c | e | msg
  · simp only [ToolId.handler, CreateMergeRequestHandler, GetClientFn.call_client _ _ c hc,
      NotesService.ListMergeRequestNotes, NotesService.CreateMergeRequestNote,
      MergeRequestsService.CreateMergeRequest, MergeRequestsService.UpdateMergeRequest]
    rcases h1 : requiredParam String r "namespace" with ⟨v1, _ | e1⟩
    · rcases h2 : requiredParam String r "project" with ⟨v2, _ | e2⟩
      · rcases h3 : requiredParam String r "title" with ⟨v3, _ | e3⟩
        · rcases h4 : requiredParam String r "description" with ⟨v4, _ | e4⟩
          · rcases h5 : requiredParam String r "source_branch" with ⟨v5, _ | e5⟩
            · rcases h6 : requiredParam String r "target_branch" with ⟨v6, _ | e6⟩
              · simp only [h1, h2, h3, h4, h5, h6,
                  Exec.bind_eq, Exec.pure_eq, Exec.orSoft_ok, Exec.orSoftWrap_ok, Exec.bind_pure_left,
                  Exec.bind_emit, Exec.bind_after, Exec.run_after]
                generalize c.MergeRequests.createFunc _ _ = reply
                rcases reply with e' | ⟨x, resp⟩
                · simp
                · simp only [Exec.orSoftWrap_ok, Exec.bind_pure_left, Exec.orSoftWrap]
                  split <;> simp
              · simp [h6]
            · simp [h5]
          · simp [h4]
        · simp [h3]
      · simp [h2]
    · simp [h1]
  · rw [ToolId.handler_client_failed .create_merge_request env getClient ctx r e hc]
    exact ⟨_, rfl⟩
  · exact absurd hc (hnp msg)

theorem AddMergeRequestCommentHandler_never_hard (env : Env) (getClient : GetClientFn) (ctx : Context)
    (r : CallToolRequest) (hnp : ∀ msg : String, getClient ctx ≠ .panicked msg) :
    ∃ res : CallToolResult,
      (ToolId.add_merge_request_comment.handler env getClient ctx r).outcome = .ret (some res) none := by
  rcases hc : getClient ctx with c | e | msg
  · simp only [ToolId.handler, AddMergeRequestCommentHandler, GetClientFn.call_client _ _ c hc,
      NotesService.ListMergeRequestNotes, NotesService.CreateMergeRequestNote,
      MergeRequestsService.CreateMergeRequest, MergeRequestsService.UpdateMergeRequest]
    rcases h1 : requiredParam String r "namespace" with ⟨v1, _ | e1⟩
    · rcases h2 : requiredParam String r "project" with ⟨v2, _ | e2⟩
      · rcases h3 : requiredParam String r "id" with ⟨v3, _ | e3⟩
        · rcases h4 : requiredParam String r "body" with ⟨v4, _ | e4⟩
          · simp only [h1, h2, h3, h4,
              Exec.bind_eq, Exec.pure_eq, Exec.orSoft_ok, Exec.orSoftWrap_ok, Exec.bind_pure_left,
              Exec.bind_emit, Exec.bind_after, Exec.run_after]
            rcases hA : Atoi env v3 with ⟨n, _ | ea⟩
            · simp only [hA, Exec.bind_pure_left, Exec.bind_emit, Exec.bind_after, Exec.run_after]
              generalize c.Notes.createMergeRequestNoteFunc _ _ _ = reply
              rcases reply with e' | ⟨x, resp⟩
              · simp
              · simp only [Exec.orSoftWrap_ok, Exec.bind_pure_left, Exec.orSoftWrap]
                split <;> split <;> simp
            · simp [hA]
          · simp [h4]
        · simp [h3]
      · simp [h2]
    · simp [h1]
  · rw [ToolId.handler_client_failed .add_merge_request_comment env getClient ctx r e hc]
    exact ⟨_, rfl⟩
  · exact absurd hc (hnp msg)

theorem UpdateMergeRequestHandler_never_hard (env : Env) (getClient : GetClientFn) (ctx : Context)
    (r : CallToolRequest) (hnp : ∀ msg : String, getClient ctx ≠ .panicked msg) :
    ∃ res : CallToolResult,
      (ToolId.update_merge_request.handler env getClient ctx r).outcome = .ret (some res) none := by
  rcases hc : getClient ctx with c | e | msg
  · simp only [ToolId.handler, UpdateMergeRequestHandler, GetClientFn.call_client _ _ c hc,
      NotesService.ListMergeRequestNotes, NotesService.CreateMergeRequestNote,
      MergeRequestsService.CreateMergeRequest, MergeRequestsService.UpdateMergeRequest]
    rcases h1 : requiredParam String r "namespace" with ⟨v1, _ | e1⟩
    · rcases h2 : requiredParam String r "project" with ⟨v2, _ | e2⟩
      · rcases h3 : requiredParam String r "id" with ⟨v3, _ | e3⟩
        · simp only [h1, h2, h3,
            Exec.bind_eq, Exec.pure_eq, Exec.orSoft_ok, Exec.orSoftWrap_ok, Exec.bind_pure_left,
            Exec.bind_emit, Exec.bind_after, Exec.run_after]
          rcases hA : Atoi env v3 with ⟨n, _ | ea⟩
          · simp only [hA, Exec.bind_pure_left, Exec.bind_emit, Exec.bind_after, Exec.run_after]
            generalize c.MergeRequests.updateFunc _ _ _ = reply
            rcases reply with e' | ⟨x, resp⟩
            · simp
            · simp only [Exec.orSoftWrap_ok, Exec.bind_pure_left, Exec.orSoftWrap]
              split <;> split <;> simp
          · simp [hA]
        · simp [h3]
      · simp [h2]
    · simp [h1]
  · rw [ToolId.handler_client_failed .update_merge_request env getClient ctx r e hc]
    exact ⟨_, rfl⟩
  · exact absurd hc (hnp msg)

end Gitlab

namespace Gitlab

/-- C20, refuted as stated: `create_issue` returns the failure of the client accessor as a
hard failure (nil result, error), and `update_issue` returns the failure of the upstream
update as a hard failure. -/
theorem issue_handlers_fail_hard :
    CreateIssueHandler sampleEnv (fun _ => .failed "no token") ⟨⟩ ⟨"", []⟩
        = ⟨[.getClient], .ret none (some "failed to get GitLab client: no token")⟩ ∧
      UpdateIssueHandler sampleEnv (fun _ => .client sampleClient) ⟨⟩
          ⟨"", [("namespace", Value.string "g"), ("project", Value.string "p"),
                ("id", Value.number ⟨false, 1023, 0⟩)]⟩
        = ⟨[.getClient,
             .upstream (.issuesUpdateIssue "g/p" 1
               { title := none, description := none, stateEvent := none })],
            .ret none (some "failed to update issue: unavailable")⟩ := by
  decide

/-- C20, amended: the four merge request handlers `get_merge_request_comments`,
`create_merge_request`, `add_merge_request_comment` and `update_merge_request` use soft
propagation throughout: a failure of the client accessor, of a parameter extraction or of
the upstream operation is returned as a result flagged as error with a nil Go error, and
unless the accessor panics they never return a hard failure. The four issue handlers
`get_issue_comments`, `create_issue`, `add_issue_comment` and `update_issue` return only the
failure of a parameter extraction as a soft error; a failure of the client accessor or of
the upstream operation is a hard failure (nil result, error). -/
theorem soft_propagation_split (tool : ToolId) (env : Env) (getClient : GetClientFn)
    (ctx : Context) (r : CallToolRequest) :
    (tool ∈ [ToolId.get_merge_request_comments, .create_merge_request,
        .add_merge_request_comment, .update_merge_request] →
      (∀ err : String, getClient ctx = .failed err →
        tool.handler env getClient ctx r
          = ⟨[.getClient],
              .ret (some (NewToolResultError ("failed to get GitLab client: " ++ err))) none⟩) ∧
      (∀ (c : Client) (e : String), getClient ctx = .client c →
        firstError env.platform r tool.requiredExtractions = some e →
        tool.handler env getClient ctx r
          = ⟨[.getClient], .ret (some (NewToolResultError e)) none⟩) ∧
      (∀ (c : Client) (call : UpstreamCall) (e : String), getClient ctx = .client c →
        Event.upstream call ∈ (tool.handler env getClient ctx r).trace →
        c.failure call = some e →
        (tool.handler env getClient ctx r).outcome
          = .ret (some (NewToolResultError ("failed to " ++ tool.operation call ++ ": " ++ e)))
              none) ∧
      ((∀ msg : String, getClient ctx ≠ .panicked msg) →
        ∃ res : CallToolResult,
          (tool.handler env getClient ctx r).outcome = .ret (some res) none)) ∧
    (tool ∈ [ToolId.get_issue_comments, .create_issue, .add_issue_comment, .update_issue] →
      (∀ err : String, getClient ctx = .failed err →
        tool.handler env getClient ctx r
          = ⟨[.getClient], .ret none (some ("failed to get GitLab client: " ++ err))⟩) ∧
      (∀ (c : Client) (e : String), getClient ctx = .client c →
        firstError env.platform r tool.requiredExtractions = some e →
        tool.handler env getClient ctx r
          = ⟨[.getClient], .ret (some (NewToolResultError e)) none⟩) ∧
      (∀ (c : Client) (call : UpstreamCall) (e : String), getClient ctx = .client c →
        Event.upstream call ∈ (tool.handler env getClient ctx r).trace →
        c.failure call = some e →
        (tool.handler env getClient ctx r).outcome
          = .ret none (some ("failed to " ++ tool.operation call ++ ": " ++ e)))) := by
  constructor
  · intro htool
    simp only [List.mem_cons, List.mem_singleton, List.not_mem_nil, or_false] at htool
    refine ⟨?_, ?_, ?_, ?_⟩
    · intro err hc
      rw [ToolId.handler_client_failed tool env getClient ctx r err hc]
      rcases htool with h | h | h | h <;> subst h <;> rfl
    · intro c e hc he
      rw [ToolId.handler_extraction_failure tool env getClient ctx r c e hc he]
      rcases htool with h | h | h | h <;> subst h <;> rfl
    · intro c call e hc hmem hfail
      rcases htool with h | h | h | h <;> subst h
      · rw [GetMergeRequestCommentsHandler_upstream_failure env getClient ctx r c call e hc hmem
          hfail]
        rfl
      · rw [CreateMergeRequestHandler_upstream_failure env getClient ctx r c call e hc hmem
          hfail]
        rfl
      · rw [AddMergeRequestCommentHandler_upstream_failure env getClient ctx r c call e hc hmem
          hfail]
        rfl
      · rw [UpdateMergeRequestHandler_upstream_failure env getClient ctx r c call e hc hmem
          hfail]
        rfl
    · intro hnp
      rcases htool with h | h | h | h <;> subst h
      · exact GetMergeRequestCommentsHandler_never_hard env getClient ctx r hnp
      · exact CreateMergeRequestHandler_never_hard env getClient ctx r hnp
      · exact AddMergeRequestCommentHandler_never_hard env getClient ctx r hnp
      · exact UpdateMergeRequestHandler_never_hard env getClient ctx r hnp
  · intro htool
    simp only [List.mem_cons, List.mem_singleton, List.not_mem_nil, or_false] at htool
    refine ⟨?_, ?_, ?_⟩
    · intro err hc
      rw [ToolId.handler_client_failed tool env getClient ctx r err hc]
      rcases htool with h | h | h | h <;> subst h <;> rfl
    · intro c e hc he
      rw [ToolId.handler_extraction_failure tool env getClient ctx r c e hc he]
      rcases htool with h | h | h | h <;> subst h <;> rfl
    · intro c call e hc hmem hfail
      rcases htool with h | h | h | h <;> subst h
      · rw [GetIssueCommentsHandler_upstream_failure env getClient ctx r c call e hc hmem hfail]
        rfl
      · rw [CreateIssueHandler_upstream_failure env getClient ctx r c call e hc hmem hfail]
        rfl
      · rw [AddIssueCommentHandler_upstream_failure env getClient ctx r c call e hc hmem hfail]
        rfl
      · rw [UpdateIssueHandler_upstream_failure env getClient ctx r c call e hc hmem hfail]
        rfl

/-- C20, amended, at a concrete request: `create_merge_request` with a failing accessor
returns a soft error. -/
theorem soft_propagation_split_witness :
    ToolId.create_merge_request.handler sampleEnv (fun _ => .failed "no token") ⟨⟩ ⟨"", []⟩
      = ⟨[.getClient],
          .ret (some (NewToolResultError ("failed to get GitLab client: " ++ "no token"))) none⟩ :=
  ((soft_propagation_split .create_merge_request sampleEnv (fun _ => .failed "no token") ⟨⟩
    ⟨"", []⟩).1 (by decide)).1 "no token" rfl

end Gitlab

namespace Gitlab

/-! ## A key bound to null -/

theorem mismatch_ne_missing (p rest : String) :
    "parameter " ++ p ++ rest ≠ "missing required parameter: " ++ p := by
  intro h
  have hd := congrArg String.data h
  simp only [String.data_append] at hd
  have hh := congrArg List.head? hd
  simp at hh

/-- C30: a key that is present with a null value is treated as a wrongly typed value, not
as absent. For every key `p` and every parameter type (string, float64, bool), on an
argument map where `p` maps to null, `requiredParam` returns the zero value with the error
"parameter p is not of type T", which is not the missing-parameter error, and
`OptionalParam` returns the zero value with the error
"parameter p is not of type T, is <nil>" instead of the zero value with a nil error. -/
theorem null_is_type_mismatch (k : Kind) (r : CallToolRequest) (p : String)
    (hnull : r.arguments.get p = some Value.null) :
    requiredParam k.carrier r p
        = (ParamType.zero, some ("parameter " ++ p ++ " is not of type " ++ k.goName)) ∧
      (requiredParam k.carrier r p).2 ≠ some ("missing required parameter: " ++ p) ∧
      OptionalParam k.carrier r p
        = (ParamType.zero,
            some ("parameter " ++ p ++ " is not of type " ++ k.goName ++ ", is <nil>")) ∧
      (OptionalParam k.carrier r p).2 ≠ none := by
  have hreq : requiredParam k.carrier r p
      = (ParamType.zero, some ("parameter " ++ p ++ " is not of type " ++ k.goName)) := by
    cases k <;> simp only [requiredParam, hnull] <;> rfl
  have hopt : OptionalParam k.carrier r p
      = (ParamType.zero,
          some ("parameter " ++ p ++ " is not of type " ++ k.goName ++ ", is <nil>")) := by
    have happ : ∀ a : String, a ++ ", is " ++ "<nil>" = a ++ ", is <nil>" := fun a => by
      rw [String.append_assoc]; rfl
    cases k <;> simp only [OptionalParam, hnull] <;>
      exact congrArg (fun s => (ParamType.zero, some s)) (happ _)
  refine ⟨hreq, ?_, hopt, ?_⟩
  · rw [hreq]
    intro h
    have h2 : "parameter " ++ p ++ (" is not of type " ++ k.goName)
        = "missing required parameter: " ++ p := by
      rw [← String.append_assoc]
      exact Option.some.inj h
    exact mismatch_ne_missing p _ h2
  · rw [hopt]
    exact Option.some_ne_none _

/-- C30 at a concrete request: the number parameter `id` bound to null. -/
theorem null_is_type_mismatch_witness :
    requiredParam Float64 ⟨"", [("id", Value.null)]⟩ "id"
        = (Float64.zero, some "parameter id is not of type float64") ∧
      OptionalParam Float64 ⟨"", [("id", Value.null)]⟩ "id"
        = (Float64.zero, some "parameter id is not of type float64, is <nil>") :=
  ⟨(null_is_type_mismatch .number ⟨"", [("id", Value.null)]⟩ "id" rfl).1,
    (null_is_type_mismatch .number ⟨"", [("id", Value.null)]⟩ "id" rfl).2.2.1⟩

end Gitlab

namespace Gitlab

/-! ## The optional fields of the two update handlers -/

theorem whenOk_requiredParam (r : CallToolRequest) (f : String) :
    whenOk (requiredParam String r f) = presentNonEmptyString r f := by
  unfold requiredParam presentNonEmptyString
  rcases r.arguments.get f with _ | v
  · rfl
  · cases v with
    | string s =>
      by_cases hs : s = ""
      · subst hs; rfl
      · have hz : ParamType.eq s (ParamType.zero : String) = false := by
          show decide (s = "") = false
          simp [hs]
        simp only [ParamType.assert, hz, hs, ne_eq, not_false_eq_true, if_true]
        rfl
    | _ => rfl

theorem whenOkNonEmpty_OptionalParam (r : CallToolRequest) (f : String) :
    whenOkNonEmpty (OptionalParam String r f) = presentNonEmptyString r f := by
  unfold OptionalParam presentNonEmptyString
  rcases r.arguments.get f with _ | v
  · rfl
  · cases v <;> rfl

theorem presentNonEmptyString_eq_some (r : CallToolRequest) (f s : String) :
    presentNonEmptyString r f = some s ↔ r.arguments.get f = some (Value.string s) ∧ s ≠ "" := by
  unfold presentNonEmptyString
  rcases r.arguments.get f with _ | v
  · simp
  · cases v with
    | string x =>
      by_cases hx : x = ""
      · subst hx
        simp only [ne_eq, not_true_eq_false, if_false, Option.some.injEq, Value.string.injEq]
        constructor
        · intro h; cases h
        · intro h; exact absurd h.1.symm h.2
      · simp only [ne_eq, hx, not_false_eq_true, if_true, Option.some.injEq, Value.string.injEq]
        constructor
        · intro h; subst h; exact ⟨rfl, hx⟩
        · intro h; exact h.1
    | _ => simp

theorem UpdateIssueHandler_trace (env : Env) (getClient : GetClientFn) (ctx : Context)
    (c : Client) (r : CallToolRequest) (ns pr : String) (n : Int)
    (hc : getClient ctx = .client c)
    (hns : requiredParam String r "namespace" = (ns, none))
    (hpr : requiredParam String r "project" = (pr, none))
    (hid : RequiredInt env.platform r "id" = (n, none)) :
    (UpdateIssueHandler env getClient ctx r).trace
      = [.getClient,
         .upstream (.issuesUpdateIssue (ns ++ "/" ++ pr) n
           { title := presentNonEmptyString r "title",
             description := presentNonEmptyString r "description",
             stateEvent := presentNonEmptyString r "state_event" })] := by
  simp only [UpdateIssueHandler, Exec.bind_eq, Exec.pure_eq, GetClientFn.call_client _ _ c hc,
    hns, hpr, hid, whenOk_requiredParam, IssuesService.UpdateIssue, Exec.bind_emit,
    Exec.bind_after, Exec.bind_pure_left, Exec.orFailWrap_ok, Exec.orSoft_ok, Exec.run_after]
  generalize c.Issues.updateFunc _ _ _ = reply
  rcases reply with e | ⟨issue, resp⟩
  · simp
  · rcases h : env.marshalIssue issue with e | js <;> simp [h]

theorem UpdateMergeRequestHandler_trace (env : Env) (getClient : GetClientFn) (ctx : Context)
    (c : Client) (r : CallToolRequest) (ns pr idStr : String) (n : Int)
    (hc : getClient ctx = .client c)
    (hns : requiredParam String r "namespace" = (ns, none))
    (hpr : requiredParam String r "project" = (pr, none))
    (hid : requiredParam String r "id" = (idStr, none))
    (hparse : Atoi env idStr = (n, none)) :
    (UpdateMergeRequestHandler env getClient ctx r).trace
      = [.getClient,
         .upstream (.mergeRequestsUpdateMergeRequest (ns ++ "/" ++ pr) n
           { title := presentNonEmptyString r "title",
             description := presentNonEmptyString r "description",
             stateEvent := presentNonEmptyString r "state_event" })] := by
  simp only [UpdateMergeRequestHandler, Exec.bind_eq, Exec.pure_eq,
    GetClientFn.call_client _ _ c hc, hns, hpr, hid, hparse, whenOkNonEmpty_OptionalParam,
    MergeRequestsService.UpdateMergeRequest, Exec.bind_emit, Exec.bind_after,
    Exec.bind_pure_left, Exec.orSoftWrap_ok, Exec.orSoft_ok, Exec.run_after]
  generalize c.MergeRequests.updateFunc _ _ _ = reply
  rcases reply with e | ⟨mr, resp⟩
  · simp
  · simp only [Exec.orSoftWrap_ok, Exec.bind_pure_left, Exec.orSoftWrap]
    split <;> split <;> simp

/-- C27: `update_issue` and `update_merge_request` select the optional update fields
identically. For every argument map and every field name, the value `update_issue` applies
(required-style extraction, applied when it succeeds) and the value `update_merge_request`
applies (optional extraction, applied when it succeeds with a non-empty value) are both the
argument when it is present as a non-empty string, and nothing when it is absent, empty or
of another type. Once the client accessor has returned a client and the required arguments
are valid, each handler calls its upstream update exactly once, with the payload fields
title, description and state_event set in this way; what is skipped raises no error before
the call. -/
theorem update_fields_selected_identically (env : Env) (getClient : GetClientFn)
    (ctx : Context) (c : Client) (r : CallToolRequest) (hc : getClient ctx = .client c) :
    (∀ f : String,
      whenOk (requiredParam String r f) = whenOkNonEmpty (OptionalParam String r f) ∧
      whenOkNonEmpty (OptionalParam String r f) = presentNonEmptyString r f ∧
      (∀ s : String, presentNonEmptyString r f = some s ↔
        r.arguments.get f = some (Value.string s) ∧ s ≠ "")) ∧
    (∀ (ns pr : String) (n : Int),
      requiredParam String r "namespace" = (ns, none) →
      requiredParam String r "project" = (pr, none) →
      RequiredInt env.platform r "id" = (n, none) →
      (UpdateIssueHandler env getClient ctx r).trace
        = [.getClient,
           .upstream (.issuesUpdateIssue (ns ++ "/" ++ pr) n
             { title := presentNonEmptyString r "title",
               description := presentNonEmptyString r "description",
               stateEvent := presentNonEmptyString r "state_event" })]) ∧
    (∀ (ns pr idStr : String) (n : Int),
      requiredParam String r "namespace" = (ns, none) →
      requiredParam String r "project" = (pr, none) →
      requiredParam String r "id" = (idStr, none) →
      Atoi env idStr = (n, none) →
      (UpdateMergeRequestHandler env getClient ctx r).trace
        = [.getClient,
           .upstream (.mergeRequestsUpdateMergeRequest (ns ++ "/" ++ pr) n
             { title := presentNonEmptyString r "title",
               description := presentNonEmptyString r "description",
               stateEvent := presentNonEmptyString r "state_event" })]) := by
  refine ⟨fun f => ⟨?_, whenOkNonEmpty_OptionalParam r f, presentNonEmptyString_eq_some r f⟩,
    ?_, ?_⟩
  · rw [whenOk_requiredParam, whenOkNonEmpty_OptionalParam]
  · intro ns pr n hns hpr hid
    exact UpdateIssueHandler_trace env getClient ctx c r ns pr n hc hns hpr hid
  · intro ns pr idStr n hns hpr hid hparse
    exact UpdateMergeRequestHandler_trace env getClient ctx c r ns pr idStr n hc hns hpr hid
      hparse

/-- C27 at a concrete request: `update_merge_request` with a title, an empty description
and a state_event of the wrong type sends the title only. -/
theorem update_fields_selected_identically_witness :
    (UpdateMergeRequestHandler sampleEnv (fun _ => .client sampleClient) ⟨⟩
        ⟨"", [("namespace", Value.string "g"), ("project", Value.string "p"),
              ("id", Value.string "7"), ("title", Value.string "New"),
              ("description", Value.string ""), ("state_event", Value.bool true)]⟩).trace
      = [.getClient,
         .upstream (.mergeRequestsUpdateMergeRequest ("g" ++ "/" ++ "p") 7
           { title := some "New", description := none, stateEvent := none })] :=
  (update_fields_selected_identically sampleEnv (fun _ => .client sampleClient) ⟨⟩ sampleClient
    ⟨"", [("namespace", Value.string "g"), ("project", Value.string "p"),
          ("id", Value.string "7"), ("title", Value.string "New"),
          ("description", Value.string ""), ("state_event", Value.bool true)]⟩ rfl).2.2
    "g" "p" "7" 7 (by decide) (by decide) (by decide) (by decide)

end Gitlab

namespace Gitlab

/-! ## What `get_repository` and `list_repositories` send upstream -/

theorem GetRepositoryHandler_first_match (getClient : GetClientFn) (ctx : Context) (c : Client)
    (r : CallToolRequest) (ns pr : String) (project : Project) (others : List Project)
    (resp : Response) (hc : getClient ctx = .client c)
    (hns : r.arguments.get "namespace" = some (Value.string ns))
    (hpr : r.arguments.get "project" = some (Value.string pr))
    (hup : c.Search.searchProjectFunc (ns ++ "/" ++ pr) = .ok (project :: others, resp)) :
    GetRepositoryHandler getClient ctx r
      = ⟨[.getClient, .upstream (.searchProjects (ns ++ "/" ++ pr))],
          .ret (some ⟨[⟨"text", "Name: " ++ project.name ++ "\nPath: "
            ++ project.pathWithNamespace ++ "\nURL: " ++ project.webURL⟩], false⟩) none⟩ := by
  simp only [GetRepositoryHandler, Exec.bind_eq, Exec.pure_eq,
    GetClientFn.call_client _ _ c hc, RequiredString_string r _ ns hns,
    RequiredString_string r _ pr hpr, SearchService.Projects, hup, Exec.bind_emit,
    Exec.bind_after, Exec.bind_pure_left, Exec.orFailWrap_ok, Exec.orFail_ok,
    Exec.run_after, Exec.run_pure]

/-- C28: `get_repository` does not fetch the project by identifier. Once the client
accessor has returned a client, for string arguments namespace and project the only upstream
call is the free-text project search with the query namespace + "/" + project, and for every
non-empty result list the handler summarises the first element of the list, whatever its
path is. There is a search result with several matches, the project asked for among them,
for which the returned text describes another project. -/
theorem GetRepository_first_match (getClient : GetClientFn) (ctx : Context) (c : Client)
    (r : CallToolRequest) (ns pr : String) (hc : getClient ctx = .client c)
    (hns : r.arguments.get "namespace" = some (Value.string ns))
    (hpr : r.arguments.get "project" = some (Value.string pr)) :
    (GetRepositoryHandler getClient ctx r).trace
        = [.getClient, .upstream (.searchProjects (ns ++ "/" ++ pr))] ∧
    (∀ (project : Project) (others : List Project) (resp : Response),
      c.Search.searchProjectFunc (ns ++ "/" ++ pr) = .ok (project :: others, resp) →
      (GetRepositoryHandler getClient ctx r).outcome
        = .ret (some ⟨[⟨"text", "Name: " ++ project.name ++ "\nPath: "
            ++ project.pathWithNamespace ++ "\nURL: " ++ project.webURL⟩], false⟩) none) ∧
    (∃ (other wanted : Project) (resp : Response),
      manyMatchesStubClient.Search.searchProjectFunc ("g" ++ "/" ++ "p")
        = .ok ([other, wanted], resp) ∧
      wanted.pathWithNamespace = "g" ++ "/" ++ "p" ∧
      other.pathWithNamespace ≠ "g" ++ "/" ++ "p" ∧
      (GetRepositoryHandler (fun _ => .client manyMatchesStubClient) ⟨⟩
          ⟨"", [("namespace", Value.string "g"), ("project", Value.string "p")]⟩).outcome
        = .ret (some ⟨[⟨"text", "Name: " ++ other.name ++ "\nPath: "
            ++ other.pathWithNamespace ++ "\nURL: " ++ other.webURL⟩], false⟩) none) := by
  refine ⟨GetRepositoryHandler_trace getClient ctx c r ns pr hc hns hpr, ?_, ?_⟩
  · intro project others resp hup
    rw [GetRepositoryHandler_first_match getClient ctx c r ns pr project others resp hc hns hpr
      hup]
  · exact ⟨⟨"p", "other/p", "https://gitlab.com/other/p"⟩,
      ⟨"p", "g/p", "https://gitlab.com/g/p"⟩, sampleResponse, rfl, by decide, by decide,
      by decide⟩

/-- C28 at a concrete request: the search for `g/p` returns one project, of another path,
and that project is the one described. -/
theorem GetRepository_first_match_witness :
    (GetRepositoryHandler (fun _ => .client searchStubClient) ⟨⟩
        ⟨"", [("namespace", Value.string "g"), ("project", Value.string "p")]⟩).outcome
      = .ret (some ⟨[⟨"text", "Name: " ++ "test-repo" ++ "\nPath: " ++ "test-group/test-repo"
          ++ "\nURL: " ++ "https://gitlab.com/test-group/test-repo"⟩], false⟩) none :=
  (GetRepository_first_match (fun _ => .client searchStubClient) ⟨⟩ searchStubClient
    ⟨"", [("namespace", Value.string "g"), ("project", Value.string "p")]⟩ "g" "p" rfl rfl
    rfl).2.1 ⟨"test-repo", "test-group/test-repo", "https://gitlab.com/test-group/test-repo"⟩
    [] sampleResponse rfl

theorem ListRepositoriesHandler_trace (env : Env) (getClient : GetClientFn) (ctx : Context)
    (c : Client) (r : CallToolRequest) (hc : getClient ctx = .client c) :
    (ListRepositoriesHandler env getClient ctx r).trace
      = [.getClient,
         .upstream (.projectsListProjects
           { owned := (presentNonEmptyString r "namespace").map (fun _ => true),
             search := presentNonEmptyString r "search",
             orderBy := presentNonEmptyString r "order_by",
             sort := presentNonEmptyString r "sort" })] := by
  simp only [ListRepositoriesHandler, Exec.bind_eq, Exec.pure_eq,
    GetClientFn.call_client _ _ c hc, whenOkNonEmpty_OptionalParam,
    ProjectsService.ListProjects, Exec.bind_emit, Exec.bind_after,
    Exec.bind_pure_left, Exec.orSoftWrap_ok, Exec.run_after]
  generalize c.Projects.listFunc _ = reply
  rcases reply with e | ⟨ps, resp⟩
  · simp
  · simp only [Exec.orSoftWrap_ok, Exec.bind_pure_left, Exec.orSoftWrap]
    split <;> split <;> simp

/-- C29: `list_repositories` never sends the value of its namespace argument upstream. Once
the client accessor has returned a client, for every argument map the handler makes exactly
one upstream call, the project listing, whose options are: Owned set to true when namespace
is present as a non-empty string and unset otherwise, and search, order_by and sort each set
exactly when present as a non-empty string, to that string. An argument of another type
leaves its option unset and the call is still made. Two requests whose namespace arguments
are both non-empty strings (or both not) and whose other three arguments agree as
non-empty strings make the same upstream call. -/
theorem ListRepositories_namespace_not_sent (env : Env) (getClient : GetClientFn)
    (ctx : Context) (c : Client) (r : CallToolRequest) (hc : getClient ctx = .client c) :
    (ListRepositoriesHandler env getClient ctx r).trace
        = [.getClient,
           .upstream (.projectsListProjects
             { owned := if (presentNonEmptyString r "namespace").isSome then some true else none,
               search := presentNonEmptyString r "search",
               orderBy := presentNonEmptyString r "order_by",
               sort := presentNonEmptyString r "sort" })] ∧
    (∀ f s : String, presentNonEmptyString r f = some s ↔
      r.arguments.get f = some (Value.string s) ∧ s ≠ "") ∧
    (∀ r2 : CallToolRequest,
      (presentNonEmptyString r2 "namespace").isSome
        = (presentNonEmptyString r "namespace").isSome →
      (∀ f ∈ ["search", "order_by", "sort"],
        presentNonEmptyString r2 f = presentNonEmptyString r f) →
      (ListRepositoriesHandler env getClient ctx r2).trace
        = (ListRepositoriesHandler env getClient ctx r).trace) := by
  have hmap : ∀ x : Option String,
      x.map (fun _ => true) = if x.isSome then some true else none := by
    intro x; cases x <;> rfl
  refine ⟨?_, presentNonEmptyString_eq_some r, ?_⟩
  · rw [ListRepositoriesHandler_trace env getClient ctx c r hc, hmap]
  · intro r2 hns hrest
    rw [ListRepositoriesHandler_trace env getClient ctx c r hc,
      ListRepositoriesHandler_trace env getClient ctx c r2 hc, hmap, hmap, hns,
      hrest "search" (by simp), hrest "order_by" (by simp), hrest "sort" (by simp)]

/-- C29 at two concrete requests: the namespaces `a` and `b` give the same upstream call. -/
theorem ListRepositories_namespace_not_sent_witness :
    (ListRepositoriesHandler sampleEnv (fun _ => .client sampleClient) ⟨⟩
        ⟨"", [("namespace", Value.string "b"), ("sort", Value.number ⟨false, 1023, 0⟩)]⟩).trace
      = (ListRepositoriesHandler sampleEnv (fun _ => .client sampleClient) ⟨⟩
        ⟨"", [("namespace", Value.string "a")]⟩).trace :=
  (ListRepositories_namespace_not_sent sampleEnv (fun _ => .client sampleClient) ⟨⟩ sampleClient
    ⟨"", [("namespace", Value.string "a")]⟩ rfl).2.2
    ⟨"", [("namespace", Value.string "b"), ("sort", Value.number ⟨false, 1023, 0⟩)]⟩
    (by decide) (by decide)

end Gitlab

namespace Gitlab

/-! ## The resource handlers -/

theorem mustString_string {ρ : Type} (v : Option Value) (s : String)
    (h : v = some (Value.string s)) : (mustString v : Exec ρ String) = Exec.pure s := by
  subst h; rfl

theorem mustString_none {ρ : Type} :
    (mustString none : Exec ρ String)
      = Exec.panic "interface conversion: interface \x7b\x7d is nil, not string" := rfl

theorem mustString_cases (ρ : Type) (v : Option Value) :
    (∃ s : String, (mustString v : Exec ρ String) = Exec.pure s) ∨
      (∃ msg : String, (mustString v : Exec ρ String) = Exec.panic msg) := by
  rcases v with _ | w
  · exact Or.inr ⟨_, rfl⟩
  · cases w with
    | string s => exact Or.inl ⟨s, rfl⟩
    | _ => exact Or.inr ⟨_, rfl⟩

theorem ref_not_template_variable (template : String) (ht : template ∈ contentTemplates) :
    "ref" ∉ uriTemplateVariables template := by
  simp only [contentTemplates, List.mem_cons, List.mem_singleton, List.not_mem_nil,
    or_false] at ht
  rcases ht with h | h | h | h <;> subst h <;> decide

theorem RepositoryResourceContentsHandler_without_ref (env : Env) (getClient : GetClientFn)
    (ctx : Context) (c : Client) (request : ReadResourceRequest)
    (hc : getClient ctx = .client c) (href : request.arguments.get "ref" = none) :
    ∃ msg : String,
      RepositoryResourceContentsHandler env getClient ctx request
        = ⟨[.getClient], .panic msg⟩ := by
  simp only [RepositoryResourceContentsHandler, Exec.bind_eq, Exec.pure_eq,
    GetClientFn.call_client _ _ c hc, href, mustString_none, Exec.bind_emit,
    Exec.orFailWrap_ok, Exec.bind_pure_left]
  rcases mustString_cases (List TextResourceContents) (request.arguments.get "namespace") with ⟨s1, h1⟩ | ⟨m1, h1⟩
  · rcases mustString_cases (List TextResourceContents) (request.arguments.get "project") with ⟨s2, h2⟩ | ⟨m2, h2⟩
    · rcases mustString_cases (List TextResourceContents) (request.arguments.get "path") with ⟨s3, h3⟩ | ⟨m3, h3⟩
      · refine ⟨"interface conversion: interface \x7b\x7d is nil, not string", ?_⟩
        simp only [h1, h2, h3, Exec.bind_pure_left, Exec.bind_after, Exec.run_after,
          Exec.bind_panic, Exec.run_panic]
      · refine ⟨m3, ?_⟩
        simp only [h1, h2, h3, Exec.bind_pure_left, Exec.bind_after, Exec.run_after,
          Exec.bind_panic, Exec.run_panic]
    · refine ⟨m2, ?_⟩
      simp only [h1, h2, Exec.bind_pure_left, Exec.bind_after, Exec.run_after,
        Exec.bind_panic, Exec.run_panic]
  · refine ⟨m1, ?_⟩
    simp only [h1, Exec.bind_pure_left, Exec.bind_after, Exec.run_after,
      Exec.bind_panic, Exec.run_panic]

theorem RepositoryResourceContentsHandler_no_client (env : Env) (getClient : GetClientFn)
    (ctx : Context) (request : ReadResourceRequest)
    (hc : ∀ c : Client, getClient ctx ≠ .client c) :
    (RepositoryResourceContentsHandler env getClient ctx request).trace = [.getClient] := by
  rcases h : getClient ctx with c | e | msg
  · exact absurd h (hc c)
  · simp only [RepositoryResourceContentsHandler, Exec.bind_eq, Exec.pure_eq,
      GetClientFn.call_failed _ _ e h, Exec.bind_emit, Exec.orFailWrap_err, Exec.bind_fail,
      Exec.run_after, Exec.run_fail]
  · simp only [RepositoryResourceContentsHandler, Exec.bind_eq, Exec.pure_eq,
      GetClientFn.call_panicked _ _ msg h, Exec.bind_after, Exec.bind_panic,
      Exec.run_after, Exec.run_panic]

/-- C22, where the code departs from the claim: no content template names a variable `ref`
(the four templates name namespace, project, path and one of nothing, branch, sha, tag),
while the handler reads the argument `ref` with a one-result type assertion. So on arguments
resolved from any of the four templates the lookup of `ref` finds nothing: the handler never
reaches the upstream file fetch, and once the accessor has returned a client it panics. -/
theorem contents_handler_never_fetches (env : Env) (getClient : GetClientFn) (ctx : Context)
    (request : ReadResourceRequest) (template : String) (ht : template ∈ contentTemplates)
    (hres : ResolvedFrom template request.arguments) :
    "ref" ∉ uriTemplateVariables template ∧
      request.arguments.get "ref" = none ∧
      (∀ call : UpstreamCall,
        Event.upstream call ∉ (RepositoryResourceContentsHandler env getClient ctx request).trace) ∧
      (∀ c : Client, getClient ctx = .client c →
        ∃ msg : String,
          RepositoryResourceContentsHandler env getClient ctx request
            = ⟨[.getClient], .panic msg⟩) := by
  have hvar := ref_not_template_variable template ht
  have href : request.arguments.get "ref" = none := by
    by_contra hne
    exact hvar (hres "ref" hne)
  refine ⟨hvar, href, ?_, ?_⟩
  · intro call hmem
    by_cases hc : ∃ c : Client, getClient ctx = .client c
    · obtain ⟨c, hc⟩ := hc
      obtain ⟨msg, hrun⟩ :=
        RepositoryResourceContentsHandler_without_ref env getClient ctx c request hc href
      rw [hrun] at hmem
      simp at hmem
    · have hno : ∀ c : Client, getClient ctx ≠ .client c := fun c h => hc ⟨c, h⟩
      rw [RepositoryResourceContentsHandler_no_client env getClient ctx request hno] at hmem
      simp at hmem
  · intro c hc
    exact RepositoryResourceContentsHandler_without_ref env getClient ctx c request hc href

/-- C22 at a concrete read: the URI `repo://g/p/refs/heads/main/contents/README.md` matches
the branch template, which binds namespace, project, branch and path; the handler panics at
the lookup of `ref` and no file is fetched. -/
theorem contents_handler_never_fetches_witness :
    (∃ msg : String,
      RepositoryResourceContentsHandler sampleEnv (fun _ => .client sampleClient) ⟨⟩
          ⟨"repo://g/p/refs/heads/main/contents/README.md",
            [("namespace", Value.string "g"), ("project", Value.string "p"),
             ("branch", Value.string "main"), ("path", Value.string "README.md")]⟩
        = ⟨[.getClient], .panic msg⟩) ∧
    RepositoryResourceContentsHandler sampleEnv (fun _ => .client sampleClient) ⟨⟩
        ⟨"repo://g/p/refs/heads/main/contents/README.md",
          [("namespace", Value.string "g"), ("project", Value.string "p"),
           ("branch", Value.string "main"), ("path", Value.string "README.md")]⟩
      = ⟨[.getClient], .panic "interface conversion: interface \x7b\x7d is nil, not string"⟩ :=
  ⟨(contents_handler_never_fetches sampleEnv (fun _ => .client sampleClient) ⟨⟩
    ⟨"repo://g/p/refs/heads/main/contents/README.md",
      [("namespace", Value.string "g"), ("project", Value.string "p"),
       ("branch", Value.string "main"), ("path", Value.string "README.md")]⟩
    "repo://\x7bnamespace\x7d/\x7bproject\x7d/refs/heads/\x7bbranch\x7d/contents\x7b/path*\x7d"
    (by decide)
    (by
      intro key hkey
      simp only [Arguments.get, List.lookup] at hkey
      split at hkey
      · next h => rw [beq_iff_eq] at h; subst h; decide
      · split at hkey
        · next h => rw [beq_iff_eq] at h; subst h; decide
        · split at hkey
          · next h => rw [beq_iff_eq] at h; subst h; decide
          · split at hkey
            · next h => rw [beq_iff_eq] at h; subst h; decide
            · exact absurd rfl hkey)).2.2.2 sampleClient rfl, by decide⟩

/-- C23, refuted as stated: with an id that does not parse and a failing client accessor,
the merge request resource handler returns the accessor's failure, not an error beginning
"invalid merge request ID". -/
theorem merge_request_resource_accessor_failure :
    RepositoryResourceMergeRequestHandler sampleEnv (fun _ => .failed "no token") ⟨⟩
        ⟨"repo://g/p/merge_requests/abc",
          [("namespace", Value.string "g"), ("project", Value.string "p"),
           ("id", Value.string "abc")]⟩
      = ⟨[.getClient], .ret none (some "failed to get GitLab client: no token")⟩ := by
  decide

/-- C23, amended: once the client accessor has returned a client, for the merge request
resource handler with string arguments namespace, project and id: when id does not parse as
a decimal integer the handler returns a hard failure, nil contents and the error
"invalid merge request ID: " followed by the parse error, and performs no upstream fetch;
when it parses to n and the fetch of project namespace + "/" + project, merge request n
succeeds, that fetch is the only upstream call and the handler returns exactly one
text/plain block whose URI is the request URI and whose text is
"Title: <title>\nDescription: <description>\nState: <state>". -/
theorem merge_request_resource_spec (env : Env) (getClient : GetClientFn) (ctx : Context)
    (c : Client) (request : ReadResourceRequest) (ns pr idStr : String)
    (hc : getClient ctx = .client c)
    (hns : request.arguments.get "namespace" = some (Value.string ns))
    (hpr : request.arguments.get "project" = some (Value.string pr))
    (hid : request.arguments.get "id" = some (Value.string idStr)) :
    (∀ err : String, (Atoi env idStr).2 = some err →
      RepositoryResourceMergeRequestHandler env getClient ctx request
        = ⟨[.getClient], .ret none (some ("invalid merge request ID: " ++ err))⟩) ∧
    (∀ (n : Int) (mr : MergeRequest) (resp : Response), Atoi env idStr = (n, none) →
      c.MergeRequests.getFunc (ns ++ "/" ++ pr) n = .ok (mr, resp) →
      RepositoryResourceMergeRequestHandler env getClient ctx request
        = ⟨[.getClient, .upstream (.mergeRequestsGetMergeRequest (ns ++ "/" ++ pr) n)],
            .ret (some [⟨request.uri, "text/plain",
              "Title: " ++ mr.title ++ "\nDescription: " ++ mr.description ++ "\nState: "
                ++ mr.state⟩]) none⟩) := by
  constructor
  · intro err herr
    rcases hA : Atoi env idStr with ⟨n, _ | e⟩
    · rw [hA] at herr; cases herr
    · rw [hA] at herr
      cases herr
      simp only [RepositoryResourceMergeRequestHandler, Exec.bind_eq, Exec.pure_eq,
        GetClientFn.call_client _ _ c hc, mustString_string _ ns hns, mustString_string _ pr hpr,
        mustString_string _ idStr hid, hA, Exec.bind_emit, Exec.orFailWrap_ok,
        Exec.bind_pure_left, Exec.bind_fail, Exec.run_after, Exec.run_fail]
  · intro n mr resp hA hup
    simp only [RepositoryResourceMergeRequestHandler, Exec.bind_eq, Exec.pure_eq,
      GetClientFn.call_client _ _ c hc, mustString_string _ ns hns, mustString_string _ pr hpr,
      mustString_string _ idStr hid, hA, MergeRequestsService.GetMergeRequest, hup,
      Exec.bind_emit, Exec.bind_after, Exec.orFailWrap_ok, Exec.bind_pure_left, Exec.run_after,
      Exec.run_pure]

/-- C23, amended, at a concrete read: the id `abc` does not parse. -/
theorem merge_request_resource_spec_witness :
    RepositoryResourceMergeRequestHandler sampleEnv (fun _ => .client sampleClient) ⟨⟩
        ⟨"repo://g/p/merge_requests/abc",
          [("namespace", Value.string "g"), ("project", Value.string "p"),
           ("id", Value.string "abc")]⟩
      = ⟨[.getClient],
          .ret none (some ("invalid merge request ID: "
            ++ "strconv.Atoi: parsing \"abc\": invalid syntax"))⟩ :=
  (merge_request_resource_spec sampleEnv (fun _ => .client sampleClient) ⟨⟩ sampleClient
    ⟨"repo://g/p/merge_requests/abc",
      [("namespace", Value.string "g"), ("project", Value.string "p"),
       ("id", Value.string "abc")]⟩ "g" "p" "abc" rfl rfl rfl rfl).1
    "strconv.Atoi: parsing \"abc\": invalid syntax" (by decide)

end Gitlab

namespace Gitlab

/-! ## The description of a new issue, the id of a merge request -/

theorem requiredParam_string_fst (r : CallToolRequest) (f : String) :
    (requiredParam String r f).1 = (assertString (r.arguments.get f)).getD "" := by
  unfold requiredParam assertString
  rcases r.arguments.get f with _ | v
  · rfl
  · cases v with
    | string s =>
      by_cases hs : s = ""
      · subst hs; rfl
      · have hz : ParamType.eq s (ParamType.zero : String) = false := by
          show decide (s = "") = false
          simp [hs]
        simp only [ParamType.assert, hz]
        rfl
    | _ => rfl

theorem requiredParam_string_missing (r : CallToolRequest) (f : String)
    (h : r.arguments.get f = none ∨ r.arguments.get f = some (Value.string "")) :
    requiredParam String r f = ("", some ("missing required parameter: " ++ f)) := by
  unfold requiredParam
  rcases h with h | h <;> rw [h] <;> rfl

theorem CreateIssueHandler_trace (env : Env) (getClient : GetClientFn) (ctx : Context)
    (c : Client) (r : CallToolRequest) (ns pr title : String) (hc : getClient ctx = .client c)
    (hns : r.arguments.get "namespace" = some (Value.string ns)) (hns0 : ns ≠ "")
    (hpr : r.arguments.get "project" = some (Value.string pr)) (hpr0 : pr ≠ "")
    (hti : r.arguments.get "title" = some (Value.string title)) (hti0 : title ≠ "") :
    (CreateIssueHandler env getClient ctx r).trace
      = [.getClient,
         .upstream (.issuesCreateIssue (ns ++ "/" ++ pr)
           { title := some title,
             description := some ((assertString (r.arguments.get "description")).getD "") })] := by
  simp only [CreateIssueHandler, Exec.bind_eq, Exec.pure_eq, GetClientFn.call_client _ _ c hc,
    requiredParam_string_ok r _ ns hns hns0, requiredParam_string_ok r _ pr hpr hpr0,
    requiredParam_string_ok r _ title hti hti0, requiredParam_string_fst,
    IssuesService.CreateIssue, Exec.bind_emit, Exec.bind_after, Exec.bind_pure_left,
    Exec.orFailWrap_ok, Exec.orSoft_ok, Exec.run_after]
  generalize c.Issues.createFunc _ _ = reply
  rcases reply with e | ⟨issue, resp⟩
  · simp
  · rcases h : env.marshalIssue issue with e | js <;> simp [h]

theorem CreateMergeRequestHandler_no_description (env : Env) (getClient : GetClientFn)
    (ctx : Context) (c : Client) (r : CallToolRequest) (ns pr title : String)
    (hc : getClient ctx = .client c)
    (hns : r.arguments.get "namespace" = some (Value.string ns)) (hns0 : ns ≠ "")
    (hpr : r.arguments.get "project" = some (Value.string pr)) (hpr0 : pr ≠ "")
    (hti : r.arguments.get "title" = some (Value.string title)) (hti0 : title ≠ "")
    (hde : r.arguments.get "description" = none ∨
      r.arguments.get "description" = some (Value.string "")) :
    CreateMergeRequestHandler env getClient ctx r
      = ⟨[.getClient],
          .ret (some (NewToolResultError "missing required parameter: description")) none⟩ := by
  simp only [CreateMergeRequestHandler, Exec.bind_eq, Exec.pure_eq,
    GetClientFn.call_client _ _ c hc, requiredParam_string_ok r _ ns hns hns0,
    requiredParam_string_ok r _ pr hpr hpr0, requiredParam_string_ok r _ title hti hti0,
    requiredParam_string_missing r _ hde, Exec.bind_emit, Exec.bind_after,
    Exec.bind_pure_left, Exec.orSoftWrap_ok, Exec.orSoft_ok, Exec.orSoft_err, Exec.bind_soft,
    Exec.run_after, Exec.run_soft]
  rfl

/-- C24, refuted as stated: with non-empty namespace, project and title and a failing client
accessor, `create_issue` makes no upstream call, and `create_merge_request` without a
description reports the accessor's failure, not a missing parameter. -/
theorem create_handlers_accessor_failure :
    CreateIssueHandler sampleEnv (fun _ => .failed "no token") ⟨⟩
        ⟨"", [("namespace", Value.string "g"), ("project", Value.string "p"),
              ("title", Value.string "T")]⟩
      = ⟨[.getClient], .ret none (some "failed to get GitLab client: no token")⟩ ∧
    CreateMergeRequestHandler sampleEnv (fun _ => .failed "no token") ⟨⟩
        ⟨"", [("namespace", Value.string "g"), ("project", Value.string "p"),
              ("title", Value.string "T")]⟩
      = ⟨[.getClient],
          .ret (some (NewToolResultError "failed to get GitLab client: no token")) none⟩ := by
  decide

/-- C24, amended: once the client accessor has returned a client, for every `create_issue`
call with non-empty namespace, project and title the handler invokes the upstream create
operation exactly once, with that title, whether the description argument is absent, empty
or a non-empty string: the description sent is the argument when it is a string and the
empty string otherwise, so a non-empty string is passed through unchanged. Under the same
conditions `create_merge_request` with an absent or empty description returns the error
"missing required parameter: description" without invoking the upstream create operation. -/
theorem description_optional_for_issues (env : Env) (getClient : GetClientFn) (ctx : Context)
    (c : Client) (r : CallToolRequest) (ns pr title : String) (hc : getClient ctx = .client c)
    (hns : r.arguments.get "namespace" = some (Value.string ns)) (hns0 : ns ≠ "")
    (hpr : r.arguments.get "project" = some (Value.string pr)) (hpr0 : pr ≠ "")
    (hti : r.arguments.get "title" = some (Value.string title)) (hti0 : title ≠ "") :
    (r.arguments.get "description" = none →
      (CreateIssueHandler env getClient ctx r).trace
        = [.getClient,
           .upstream (.issuesCreateIssue (ns ++ "/" ++ pr)
             { title := some title, description := some "" })]) ∧
    (∀ s : String, r.arguments.get "description" = some (Value.string s) →
      (CreateIssueHandler env getClient ctx r).trace
        = [.getClient,
           .upstream (.issuesCreateIssue (ns ++ "/" ++ pr)
             { title := some title, description := some s })]) ∧
    (r.arguments.get "description" = none ∨
        r.arguments.get "description" = some (Value.string "") →
      CreateMergeRequestHandler env getClient ctx r
        = ⟨[.getClient],
            .ret (some (NewToolResultError "missing required parameter: description"))
              none⟩) := by
  have htrace := CreateIssueHandler_trace env getClient ctx c r ns pr title hc hns hns0 hpr hpr0
    hti hti0
  refine ⟨?_, ?_, ?_⟩
  · intro hde
    rw [htrace, hde]
    rfl
  · intro s hde
    rw [htrace, hde]
    rfl
  · intro hde
    exact CreateMergeRequestHandler_no_description env getClient ctx c r ns pr title hc hns hns0
      hpr hpr0 hti hti0 hde

/-- C24, amended, at a concrete request: `create_issue` without a description creates the
issue with the empty description. -/
theorem description_optional_for_issues_witness :
    (CreateIssueHandler sampleEnv (fun _ => .client sampleClient) ⟨⟩
        ⟨"", [("namespace", Value.string "g"), ("project", Value.string "p"),
              ("title", Value.string "T")]⟩).trace
      = [.getClient,
         .upstream (.issuesCreateIssue ("g" ++ "/" ++ "p")
           { title := some "T", description := some "" })] :=
  (description_optional_for_issues sampleEnv (fun _ => .client sampleClient) ⟨⟩ sampleClient
    ⟨"", [("namespace", Value.string "g"), ("project", Value.string "p"),
          ("title", Value.string "T")]⟩ "g" "p" "T" rfl rfl (by decide) rfl (by decide) rfl
    (by decide)).1 rfl

theorem GetMergeRequestHandler_bad_id (env : Env) (getClient : GetClientFn) (ctx : Context)
    (c : Client) (r : CallToolRequest) (ns pr e : String) (v : Float64)
    (hc : getClient ctx = .client c)
    (hns : r.arguments.get "namespace" = some (Value.string ns))
    (hpr : r.arguments.get "project" = some (Value.string pr))
    (hid : requiredParam Float64 r "id" = (v, some e)) :
    GetMergeRequestHandler env getClient ctx r = ⟨[.getClient], .ret none (some e)⟩ := by
  have hint : RequiredInt env.platform r "id" = (0, some e) := by
    simp [RequiredInt, hid]
  simp only [GetMergeRequestHandler, Exec.bind_eq, Exec.pure_eq,
    GetClientFn.call_client _ _ c hc, RequiredString_string r _ ns hns,
    RequiredString_string r _ pr hpr, hint, Exec.bind_emit, Exec.bind_after,
    Exec.bind_pure_left, Exec.orFailWrap_ok, Exec.orFail_ok, Exec.orFail_err, Exec.bind_fail,
    Exec.run_after, Exec.run_fail]

theorem GetMergeRequestHandler_trace (env : Env) (getClient : GetClientFn) (ctx : Context)
    (c : Client) (r : CallToolRequest) (ns pr : String) (v : Float64)
    (hc : getClient ctx = .client c)
    (hns : r.arguments.get "namespace" = some (Value.string ns))
    (hpr : r.arguments.get "project" = some (Value.string pr))
    (hid : requiredParam Float64 r "id" = (v, none)) :
    (GetMergeRequestHandler env getClient ctx r).trace
      = [.getClient,
         .upstream (.mergeRequestsGetMergeRequest (ns ++ "/" ++ pr) (env.platform.toInt v))] := by
  have hint : RequiredInt env.platform r "id" = (env.platform.toInt v, none) := by
    simp [RequiredInt, hid]
  simp only [GetMergeRequestHandler, Exec.bind_eq, Exec.pure_eq,
    GetClientFn.call_client _ _ c hc, RequiredString_string r _ ns hns,
    RequiredString_string r _ pr hpr, hint, MergeRequestsService.GetMergeRequest,
    Exec.bind_emit, Exec.bind_after, Exec.bind_pure_left, Exec.orFailWrap_ok, Exec.orFail_ok,
    Exec.run_after]
  generalize c.MergeRequests.getFunc _ _ = reply
  rcases reply with e | ⟨mr, resp⟩
  · simp
  · rcases h : mr.author with _ | a <;> simp [h, Exec.deref]

/-- C25, refuted as stated: with valid namespace and project, the string id "1" and a
failing client accessor, `get_merge_request` returns the accessor's failure, not
"parameter id is not of type float64". -/
theorem get_merge_request_accessor_failure :
    GetMergeRequestHandler sampleEnv (fun _ => .failed "no token") ⟨⟩
        ⟨"", [("namespace", Value.string "g"), ("project", Value.string "p"),
              ("id", Value.string "1")]⟩
      = ⟨[.getClient], .ret none (some "failed to get GitLab client: no token")⟩ := by
  decide

/-- C25, amended: once the client accessor has returned a client, for every
`get_merge_request` call with string namespace and project: a string-valued id is rejected
with the hard failure "parameter id is not of type float64", an absent id with
"missing required parameter: id", and the upstream fetch is reached exactly when id is a
number that is not zero; the descriptor declares the id parameter as a required parameter of
kind string. -/
theorem get_merge_request_id_kind (env : Env) (getClient : GetClientFn) (ctx : Context)
    (c : Client) (r : CallToolRequest) (ns pr : String) (t : TranslationHelperFunc)
    (hc : getClient ctx = .client c)
    (hns : r.arguments.get "namespace" = some (Value.string ns))
    (hpr : r.arguments.get "project" = some (Value.string pr)) :
    (∀ s : String, r.arguments.get "id" = some (Value.string s) →
      GetMergeRequestHandler env getClient ctx r
        = ⟨[.getClient], .ret none (some "parameter id is not of type float64")⟩) ∧
    (r.arguments.get "id" = none →
      GetMergeRequestHandler env getClient ctx r
        = ⟨[.getClient], .ret none (some "missing required parameter: id")⟩) ∧
    (∀ call : UpstreamCall,
      Event.upstream call ∈ (GetMergeRequestHandler env getClient ctx r).trace →
      ∃ v : Float64, r.arguments.get "id" = some (Value.number v) ∧ v.isZero = false ∧
        call = .mergeRequestsGetMergeRequest (ns ++ "/" ++ pr) (env.platform.toInt v)) ∧
    (∀ v : Float64, r.arguments.get "id" = some (Value.number v) → v.isZero = false →
      (GetMergeRequestHandler env getClient ctx r).trace
        = [.getClient,
           .upstream (.mergeRequestsGetMergeRequest (ns ++ "/" ++ pr)
             (env.platform.toInt v))]) ∧
    ((GetMergeRequest env getClient t).1.params.map (fun p => (p.name, p.kind, p.required))
      = [("namespace", Kind.string, true), ("project", Kind.string, true),
         ("id", Kind.string, true)]) := by
  refine ⟨?_, ?_, ?_, ?_, rfl⟩
  · intro s hid
    exact GetMergeRequestHandler_bad_id env getClient ctx c r ns pr _ Float64.zero hc hns hpr
      (by simp only [requiredParam, hid]; rfl)
  · intro hid
    exact GetMergeRequestHandler_bad_id env getClient ctx c r ns pr _ Float64.zero hc hns hpr
      (by simp only [requiredParam, hid]; rfl)
  · intro call hmem
    rcases hR : requiredParam Float64 r "id" with ⟨v, _ | e⟩
    · obtain ⟨hget, hz⟩ := requiredParam_number_inv r "id" v hR
      rw [GetMergeRequestHandler_trace env getClient ctx c r ns pr v hc hns hpr hR] at hmem
      simp only [List.mem_cons, List.mem_singleton, List.not_mem_nil, or_false, reduceCtorEq,
        false_or, Event.upstream.injEq] at hmem
      exact ⟨v, hget, hz, hmem⟩
    · rw [GetMergeRequestHandler_bad_id env getClient ctx c r ns pr e v hc hns hpr hR] at hmem
      simp at hmem
  · intro v hid hz
    exact GetMergeRequestHandler_trace env getClient ctx c r ns pr v hc hns hpr
      (requiredParam_number_ok r "id" v hid hz)

/-- C25, amended, at the request of the integration test: the id "1" passed as a string. -/
theorem get_merge_request_id_kind_witness :
    GetMergeRequestHandler sampleEnv (fun _ => .client sampleClient) ⟨⟩
        ⟨"", [("namespace", Value.string "g"), ("project", Value.string "p"),
              ("id", Value.string "1")]⟩
      = ⟨[.getClient], .ret none (some "parameter id is not of type float64")⟩ :=
  (get_merge_request_id_kind sampleEnv (fun _ => .client sampleClient) ⟨⟩ sampleClient
    ⟨"", [("namespace", Value.string "g"), ("project", Value.string "p"),
          ("id", Value.string "1")]⟩ "g" "p" (fun _ d => d) rfl rfl rfl).1 "1" rfl

end Gitlab

namespace Gitlab

/-! ## The handlers that never return a soft error -/

theorem GetIssueHandler_never_soft (env : Env) (getClient : GetClientFn) (ctx : Context)
    (r : CallToolRequest) (res : CallToolResult) (err : Option String)
    (h : (ToolId.get_issue.handler env getClient ctx r).outcome = .ret (some res) err) :
    res.isError = false ∧ err = none := by
  rcases hc : getClient ctx with c | e | msg
  · simp only [ToolId.handler, GetIssueHandler, GetClientFn.call_client _ _ c hc,
      IssuesService.GetIssue, IssuesService.ListProjectIssues,
      MergeRequestsService.GetMergeRequest, MergeRequestsService.ListProjectMergeRequests,
      SearchService.Projects, SearchService.MergeRequests, SearchService.Users] at h
    rcases h1 : requiredParam String r "namespace" with ⟨v1, _ | e1⟩
    · rcases h2 : requiredParam String r "project" with ⟨v2, _ | e2⟩
      · rcases h3 : requiredParam Float64 r "id" with ⟨v3, _ | e3⟩
        · simp only [h1, h2, h3, Exec.bind_eq, Exec.pure_eq, Exec.orFail_ok, Exec.orFailWrap_ok,
            Exec.bind_pure_left, Exec.bind_emit, Exec.bind_after, Exec.run_after] at h
          generalize c.Issues.getFunc _ _ = reply at h
          rcases reply with e' | ⟨x, resp⟩
          · simp at h
          · simp only [Exec.orFailWrap_ok, Exec.bind_pure_left] at h
            rcases hm : x.author with _ | a
            · simp [hm, Exec.deref] at h
            · simp only [hm, Exec.deref, Exec.bind_pure_left, Exec.run_pure,
                Outcome.ret.injEq, Option.some.injEq] at h
              exact ⟨by rw [← h.1], h.2.symm⟩
        · simp [h1, h2, h3] at h
      · simp [h1, h2] at h
    · simp [h1] at h
  · rw [ToolId.handler_client_failed .get_issue env getClient ctx r e hc] at h
    simp [ToolId.onClientError, Propagation.report] at h
  · rw [ToolId.handler_client_panicked .get_issue env getClient ctx r msg hc] at h
    simp at h

theorem ListIssuesHandler_never_soft (env : Env) (getClient : GetClientFn) (ctx : Context)
    (r : CallToolRequest) (res : CallToolResult) (err : Option String)
    (h : (ToolId.list_issues.handler env getClient ctx r).outcome = .ret (some res) err) :
    res.isError = false ∧ err = none := by
  rcases hc : getClient ctx with c | e | msg
  · simp only [ToolId.handler, ListIssuesHandler, GetClientFn.call_client _ _ c hc,
      IssuesService.GetIssue, IssuesService.ListProjectIssues,
      MergeRequestsService.GetMergeRequest, MergeRequestsService.ListProjectMergeRequests,
      SearchService.Projects, SearchService.MergeRequests, SearchService.Users] at h
    rcases h1 : requiredParam String r "namespace" with ⟨v1, _ | e1⟩
    · rcases h2 : requiredParam String r "project" with ⟨v2, _ | e2⟩
      · simp only [h1, h2, Exec.bind_eq, Exec.pure_eq, Exec.orFail_ok, Exec.orFailWrap_ok,
          Exec.bind_pure_left, Exec.bind_emit, Exec.bind_after, Exec.run_after] at h
        generalize c.Issues.listFunc _ _ = reply at h
        rcases reply with e' | ⟨x, resp⟩
        · simp at h
        · simp only [Exec.orFailWrap_ok, Exec.bind_pure_left] at h
          rcases hm : env.marshalIssues x with em | js
          · simp [hm] at h
          · simp only [hm, Exec.orFailWrap_ok, Exec.bind_pure_left, Exec.run_pure,
              Outcome.ret.injEq, Option.some.injEq] at h
            exact ⟨by rw [← h.1], h.2.symm⟩
      · simp [h1, h2] at h
    · simp [h1] at h
  · rw [ToolId.handler_client_failed .list_issues env getClient ctx r e hc] at h
    simp [ToolId.onClientError, Propagation.report] at h
  · rw [ToolId.handler_client_panicked .list_issues env getClient ctx r msg hc] at h
    simp at h

theorem GetMergeRequestHandler_never_soft (env : Env) (getClient : GetClientFn) (ctx : Context)
    (r : CallToolRequest) (res : CallToolResult) (err : Option String)
    (h : (ToolId.get_merge_request.handler env getClient ctx r).outcome = .ret (some res) err) :
    res.isError = false ∧ err = none := by
  rcases hc : getClient ctx with c | e | msg
  · simp only [ToolId.handler, GetMergeRequestHandler, GetClientFn.call_client _ _ c hc,
      IssuesService.GetIssue, IssuesService.ListProjectIssues,
      MergeRequestsService.GetMergeRequest, MergeRequestsService.ListProjectMergeRequests,
      SearchService.Projects, SearchService.MergeRequests, SearchService.Users] at h
    rcases h1 : RequiredString r "namespace" with ⟨v1, _ | e1⟩
    · rcases h2 : RequiredString r "project" with ⟨v2, _ | e2⟩
      · rcases h3 : RequiredInt env.platform r "id" with ⟨v3, _ | e3⟩
        · simp only [h1, h2, h3, Exec.bind_eq, Exec.pure_eq, Exec.orFail_ok, Exec.orFailWrap_ok,
            Exec.bind_pure_left, Exec.bind_emit, Exec.bind_after, Exec.run_after] at h
          generalize c.MergeRequests.getFunc _ _ = reply at h
          rcases reply with e' | ⟨x, resp⟩
          · simp at h
          · simp only [Exec.orFailWrap_ok, Exec.bind_pure_left] at h
            rcases hm : x.author with _ | a
            · simp [hm, Exec.deref] at h
            · simp only [hm, Exec.deref, Exec.bind_pure_left, Exec.run_pure,
                Outcome.ret.injEq, Option.some.injEq] at h
              exact ⟨by rw [← h.1], h.2.symm⟩
        · simp [h1, h2, h3] at h
      · simp [h1, h2] at h
    · simp [h1] at h
  · rw [ToolId.handler_client_failed .get_merge_request env getClient ctx r e hc] at h
    simp [ToolId.onClientError, Propagation.report] at h
  · rw [ToolId.handler_client_panicked .get_merge_request env getClient ctx r msg hc] at h
    simp at h

theorem ListMergeRequestsHandler_never_soft (env : Env) (getClient : GetClientFn) (ctx : Context)
    (r : CallToolRequest) (res : CallToolResult) (err : Option String)
    (h : (ToolId.list_merge_requests.handler env getClient ctx r).outcome = .ret (some res) err) :
    res.isError = false ∧ err = none := by
  rcases hc : getClient ctx with c | e | msg
  · simp only [ToolId.handler, ListMergeRequestsHandler, GetClientFn.call_client _ _ c hc,
      IssuesService.GetIssue, IssuesService.ListProjectIssues,
      MergeRequestsService.GetMergeRequest, MergeRequestsService.ListProjectMergeRequests,
      SearchService.Projects, SearchService.MergeRequests, SearchService.Users] at h
    rcases h1 : requiredParam String r "namespace" with ⟨v1, _ | e1⟩
    · rcases h2 : requiredParam String r "project" with ⟨v2, _ | e2⟩
      · simp only [h1, h2, Exec.bind_eq, Exec.pure_eq, Exec.orFail_ok, Exec.orFailWrap_ok,
          Exec.bind_pure_left, Exec.bind_emit, Exec.bind_after, Exec.run_after] at h
        generalize c.MergeRequests.listFunc _ _ = reply at h
        rcases reply with e' | ⟨x, resp⟩
        · simp at h
        · simp only [Exec.orFailWrap_ok, Exec.bind_pure_left] at h
          rcases hm : env.marshalMergeRequests x with em | js
          · simp [hm] at h
          · simp only [hm, Exec.orFailWrap_ok, Exec.bind_pure_left, Exec.run_pure,
              Outcome.ret.injEq, Option.some.injEq] at h
            exact ⟨by rw [← h.1], h.2.symm⟩
      · simp [h1, h2] at h
    · simp [h1] at h
  · rw [ToolId.handler_client_failed .list_merge_requests env getClient ctx r e hc] at h
    simp [ToolId.onClientError, Propagation.report] at h
  · rw [ToolId.handler_client_panicked .list_merge_requests env getClient ctx r msg hc] at h
    simp at h

theorem GetRepositoryHandler_never_soft (env : Env) (getClient : GetClientFn) (ctx : Context)
    (r : CallToolRequest) (res : CallToolResult) (err : Option String)
    (h : (ToolId.get_repository.handler env getClient ctx r).outcome = .ret (some res) err) :
    res.isError = false ∧ err = none := by
  rcases hc : getClient ctx with c | e | msg
  · simp only [ToolId.handler, GetRepositoryHandler, GetClientFn.call_client _ _ c hc,
      IssuesService.GetIssue, IssuesService.ListProjectIssues,
      MergeRequestsService.GetMergeRequest, MergeRequestsService.ListProjectMergeRequests,
      SearchService.Projects, SearchService.MergeRequests, SearchService.Users] at h
    rcases h1 : RequiredString r "namespace" with ⟨v1, _ | e1⟩
    · rcases h2 : RequiredString r "project" with ⟨v2, _ | e2⟩
      · simp only [h1, h2, Exec.bind_eq, Exec.pure_eq, Exec.orFail_ok, Exec.orFailWrap_ok,
          Exec.bind_pure_left, Exec.bind_emit, Exec.bind_after, Exec.run_after] at h
        generalize c.Search.searchProjectFunc _ = reply at h
        rcases reply with e' | ⟨x, resp⟩
        · simp at h
        · simp only [Exec.orFailWrap_ok, Exec.bind_pure_left] at h
          rcases x with _ | ⟨p, ps⟩
          · simp at h
          · simp only [Exec.run_pure, Outcome.ret.injEq, Option.some.injEq] at h
            exact ⟨by rw [← h.1], h.2.symm⟩
      · simp [h1, h2] at h
    · simp [h1] at h
  · rw [ToolId.handler_client_failed .get_repository env getClient ctx r e hc] at h
    simp [ToolId.onClientError, Propagation.report] at h
  · rw [ToolId.handler_client_panicked .get_repository env getClient ctx r msg hc] at h
    simp at h

theorem SearchProjectsHandler_never_soft (env : Env) (getClient : GetClientFn) (ctx : Context)
    (r : CallToolRequest) (res : CallToolResult) (err : Option String)
    (h : (ToolId.search_projects.handler env getClient ctx r).outcome = .ret (some res) err) :
    res.isError = false ∧ err = none := by
  rcases hc : getClient ctx with c | e | msg
  · simp only [ToolId.handler, SearchProjectsHandler, GetClientFn.call_client _ _ c hc,
      IssuesService.GetIssue, IssuesService.ListProjectIssues,
      MergeRequestsService.GetMergeRequest, MergeRequestsService.ListProjectMergeRequests,
      SearchService.Projects, SearchService.MergeRequests, SearchService.Users] at h
    rcases h1 : RequiredString r "query" with ⟨v1, _ | e1⟩
    · simp only [h1, Exec.bind_eq, Exec.pure_eq, Exec.orFail_ok, Exec.orFailWrap_ok,
        Exec.bind_pure_left, Exec.bind_emit, Exec.bind_after, Exec.run_after] at h
      generalize c.Search.searchProjectFunc _ = reply at h
      rcases reply with e' | ⟨x, resp⟩
      · simp at h
      · simp only [Exec.orFailWrap_ok, Exec.bind_pure_left] at h
        rcases hm : env.marshalProjects x with em | js
        · simp [hm] at h
        · simp only [hm, Exec.orFailWrap_ok, Exec.bind_pure_left, Exec.run_pure,
            Outcome.ret.injEq, Option.some.injEq] at h
          exact ⟨by rw [← h.1], h.2.symm⟩
    · simp [h1] at h
  · rw [ToolId.handler_client_failed .search_projects env getClient ctx r e hc] at h
    simp [ToolId.onClientError, Propagation.report] at h
  · rw [ToolId.handler_client_panicked .search_projects env getClient ctx r msg hc] at h
    simp at h

theorem SearchMergeRequestsHandler_never_soft (env : Env) (getClient : GetClientFn) (ctx : Context)
    (r : CallToolRequest) (res : CallToolResult) (err : Option String)
    (h : (ToolId.search_merge_requests.handler env getClient ctx r).outcome = .ret (some res) err) :
    res.isError = false ∧ err = none := by
  rcases hc : getClient ctx with c | e | msg
  · simp only [ToolId.handler, SearchMergeRequestsHandler, GetClientFn.call_client _ _ c hc,
      IssuesService.GetIssue, IssuesService.ListProjectIssues,
      MergeRequestsService.GetMergeRequest, MergeRequestsService.ListProjectMergeRequests,
      SearchService.Projects, SearchService.MergeRequests, SearchService.Users] at h
    rcases h1 : RequiredString r "query" with ⟨v1, _ | e1⟩
    · simp only [h1, Exec.bind_eq, Exec.pure_eq, Exec.orFail_ok, Exec.orFailWrap_ok,
        Exec.bind_pure_left, Exec.bind_emit, Exec.bind_after, Exec.run_after] at h
      generalize c.Search.searchMergeRequestFunc _ = reply at h
      rcases reply with e' | ⟨x, resp⟩
      · simp at h
      · simp only [Exec.orFailWrap_ok, Exec.bind_pure_left] at h
        rcases hm : env.marshalMergeRequests x with em | js
        · simp [hm] at h
        · simp only [hm, Exec.orFailWrap_ok, Exec.bind_pure_left, Exec.run_pure,
            Outcome.ret.injEq, Option.some.injEq] at h
          exact ⟨by rw [← h.1], h.2.symm⟩
    · simp [h1] at h
  · rw [ToolId.handler_client_failed .search_merge_requests env getClient ctx r e hc] at h
    simp [ToolId.onClientError, Propagation.report] at h
  · rw [ToolId.handler_client_panicked .search_merge_requests env getClient ctx r msg hc] at h
    simp at h

theorem SearchUsersHandler_never_soft (env : Env) (getClient : GetClientFn) (ctx : Context)
    (r : CallToolRequest) (res : CallToolResult) (err : Option String)
    (h : (ToolId.search_users.handler env getClient ctx r).outcome = .ret (some res) err) :
    res.isError = false ∧ err = none := by
  rcases hc : getClient ctx with c | e | msg
  · simp only [ToolId.handler, SearchUsersHandler, GetClientFn.call_client _ _ c hc,
      IssuesService.GetIssue, IssuesService.ListProjectIssues,
      MergeRequestsService.GetMergeRequest, MergeRequestsService.ListProjectMergeRequests,
      SearchService.Projects, SearchService.MergeRequests, SearchService.Users] at h
    rcases h1 : RequiredString r "query" with ⟨v1, _ | e1⟩
    · simp only [h1, Exec.bind_eq, Exec.pure_eq, Exec.orFail_ok, Exec.orFailWrap_ok,
        Exec.bind_pure_left, Exec.bind_emit, Exec.bind_after, Exec.run_after] at h
      generalize c.Search.searchUserFunc _ = reply at h
      rcases reply with e' | ⟨x, resp⟩
      · simp at h
      · simp only [Exec.orFailWrap_ok, Exec.bind_pure_left] at h
        rcases hm : env.marshalUsers x with em | js
        · simp [hm] at h
        · simp only [hm, Exec.orFailWrap_ok, Exec.bind_pure_left, Exec.run_pure,
            Outcome.ret.injEq, Option.some.injEq] at h
          exact ⟨by rw [← h.1], h.2.symm⟩
    · simp [h1] at h
  · rw [ToolId.handler_client_failed .search_users env getClient ctx r e hc] at h
    simp [ToolId.onClientError, Propagation.report] at h
  · rw [ToolId.handler_client_panicked .search_users env getClient ctx r msg hc] at h
    simp at h

end Gitlab

namespace Gitlab

/-! ## Hard and soft propagation among the get, list and search handlers -/

theorem ListRepositoriesHandler_never_hard (env : Env) (getClient : GetClientFn) (ctx : Context)
    (r : CallToolRequest) (hnp : ∀ msg : String, getClient ctx ≠ .panicked msg) :
    ∃ res : CallToolResult,
      (ToolId.list_repositories.handler env getClient ctx r).outcome = .ret (some res) none := by
  rcases hc : getClient ctx with c | e | msg
  · simp only [ToolId.handler, ListRepositoriesHandler, GetClientFn.call_client _ _ c hc,
      ProjectsService.ListProjects]
    simp only [Exec.bind_eq, Exec.pure_eq, Exec.orSoft_ok, Exec.orSoftWrap_ok, Exec.bind_pure_left,
      Exec.bind_emit, Exec.bind_after, Exec.run_after]
    generalize c.Projects.listFunc _ = reply
    rcases reply with e' | ⟨x, resp⟩
    · simp
    · simp only [Exec.orSoftWrap_ok, Exec.bind_pure_left, Exec.orSoftWrap]
      split <;> split <;> simp
  · rw [ToolId.handler_client_failed .list_repositories env getClient ctx r e hc]
    exact ⟨_, rfl⟩
  · exact absurd hc (hnp msg)

theorem SearchRepositoriesHandler_never_hard (env : Env) (getClient : GetClientFn) (ctx : Context)
    (r : CallToolRequest) (hnp : ∀ msg : String, getClient ctx ≠ .panicked msg) :
    ∃ res : CallToolResult,
      (ToolId.search_repositories.handler env getClient ctx r).outcome = .ret (some res) none := by
  rcases hc : getClient ctx with c | e | msg
  · simp only [ToolId.handler, SearchRepositoriesHandler, GetClientFn.call_client _ _ c hc,
      ProjectsService.ListProjects]
    rcases h1 : requiredParam String r "query" with ⟨v1, _ | e1⟩
    · simp only [h1, Exec.bind_eq, Exec.pure_eq, Exec.orSoft_ok, Exec.orSoftWrap_ok, Exec.bind_pure_left,
        Exec.bind_emit, Exec.bind_after, Exec.run_after]
      generalize c.Projects.listFunc _ = reply
      rcases reply with e' | ⟨x, resp⟩
      · simp
      · simp only [Exec.orSoftWrap_ok, Exec.bind_pure_left, Exec.orSoftWrap]
        split <;> split <;> simp
    · simp [h1]
  · rw [ToolId.handler_client_failed .search_repositories env getClient ctx r e hc]
    exact ⟨_, rfl⟩
  · exact absurd hc (hnp msg)

/-- C21, refuted as stated: `search_issues` returns a missing required parameter as a soft
error result, `list_repositories` returns the failure of the client accessor as a soft error
result, and `search_repositories` returns the failure of the upstream listing as a soft
error result. -/
theorem search_and_list_fail_soft :
    SearchIssuesHandler sampleEnv (fun _ => .client sampleClient) ⟨⟩ ⟨"", []⟩
        = ⟨[.getClient],
            .ret (some (NewToolResultError "missing required parameter: namespace")) none⟩ ∧
      ListRepositoriesHandler sampleEnv (fun _ => .failed "no token") ⟨⟩ ⟨"", []⟩
        = ⟨[.getClient],
            .ret (some (NewToolResultError "failed to get GitLab client: no token")) none⟩ ∧
      SearchRepositoriesHandler sampleEnv (fun _ => .client sampleClient) ⟨⟩
          ⟨"", [("query", Value.string "q")]⟩
        = ⟨[.getClient,
             .upstream (.projectsListProjects
               { owned := none, search := some "q", orderBy := none, sort := none })],
            .ret (some (NewToolResultError "failed to search repositories: unavailable"))
              none⟩ := by
  decide

/-- C21, amended: the eight handlers `get_issue`, `list_issues`, `get_merge_request`,
`list_merge_requests`, `get_repository`, `search_projects`, `search_merge_requests` and
`search_users` use hard propagation: a failure of the client accessor, of a required
parameter (missing or wrongly typed) or of the upstream operation is returned as a nil
result with a non-nil error, and no result they return is flagged as error. `search_issues`
returns the failure of the accessor or of the upstream listing as a hard failure, but the
failure of a required parameter as a soft error result. `list_repositories` and
`search_repositories` use soft propagation throughout: each of these failures is returned
as a result flagged as error with a nil Go error, and unless the accessor panics they never
return a hard failure. -/
theorem hard_propagation_split (tool : ToolId) (env : Env) (getClient : GetClientFn)
    (ctx : Context) (r : CallToolRequest) :
    (tool ∈ [ToolId.get_issue, .list_issues, .get_merge_request, .list_merge_requests,
        .get_repository, .search_projects, .search_merge_requests, .search_users] →
      (∀ err : String, getClient ctx = .failed err →
        tool.handler env getClient ctx r
          = ⟨[.getClient], .ret none (some ("failed to get GitLab client: " ++ err))⟩) ∧
      (∀ (c : Client) (e : String), getClient ctx = .client c →
        firstError env.platform r tool.requiredExtractions = some e →
        tool.handler env getClient ctx r = ⟨[.getClient], .ret none (some e)⟩) ∧
      (∀ (c : Client) (call : UpstreamCall) (e : String), getClient ctx = .client c →
        Event.upstream call ∈ (tool.handler env getClient ctx r).trace →
        c.failure call = some e →
        (tool.handler env getClient ctx r).outcome
          = .ret none (some (tool.failurePrefix call ++ e))) ∧
      (∀ (res : CallToolResult) (err : Option String),
        (tool.handler env getClient ctx r).outcome = .ret (some res) err →
        res.isError = false ∧ err = none)) ∧
    (tool = ToolId.search_issues →
      (∀ err : String, getClient ctx = .failed err →
        tool.handler env getClient ctx r
          = ⟨[.getClient], .ret none (some ("failed to get GitLab client: " ++ err))⟩) ∧
      (∀ (c : Client) (e : String), getClient ctx = .client c →
        firstError env.platform r tool.requiredExtractions = some e →
        tool.handler env getClient ctx r
          = ⟨[.getClient], .ret (some (NewToolResultError e)) none⟩) ∧
      (∀ (c : Client) (call : UpstreamCall) (e : String), getClient ctx = .client c →
        Event.upstream call ∈ (tool.handler env getClient ctx r).trace →
        c.failure call = some e →
        (tool.handler env getClient ctx r).outcome
          = .ret none (some (tool.failurePrefix call ++ e)))) ∧
    (tool ∈ [ToolId.list_repositories, .search_repositories] →
      (∀ err : String, getClient ctx = .failed err →
        tool.handler env getClient ctx r
          = ⟨[.getClient],
              .ret (some (NewToolResultError ("failed to get GitLab client: " ++ err))) none⟩) ∧
      (∀ (c : Client) (e : String), getClient ctx = .client c →
        firstError env.platform r tool.requiredExtractions = some e →
        tool.handler env getClient ctx r
          = ⟨[.getClient], .ret (some (NewToolResultError e)) none⟩) ∧
      (∀ (c : Client) (call : UpstreamCall) (e : String), getClient ctx = .client c →
        Event.upstream call ∈ (tool.handler env getClient ctx r).trace →
        c.failure call = some e →
        (tool.handler env getClient ctx r).outcome
          = .ret (some (NewToolResultError (tool.failurePrefix call ++ e))) none) ∧
      ((∀ msg : String, getClient ctx ≠ .panicked msg) →
        ∃ res : CallToolResult,
          (tool.handler env getClient ctx r).outcome = .ret (some res) none)) := by
  refine ⟨?_, ?_, ?_⟩
  · intro htool
    simp only [List.mem_cons, List.mem_singleton, List.not_mem_nil, or_false] at htool
    refine ⟨?_, ?_, ?_, ?_⟩
    · intro err hc
      rw [ToolId.handler_client_failed tool env getClient ctx r err hc]
      rcases htool with h | h | h | h | h | h | h | h <;> subst h <;> rfl
    · intro c e hc he
      rw [ToolId.handler_extraction_failure tool env getClient ctx r c e hc he]
      rcases htool with h | h | h | h | h | h | h | h <;> subst h <;> rfl
    · intro c call e hc hmem hfail
      rcases htool with h | h | h | h | h | h | h | h <;> subst h
      · rw [GetIssueHandler_upstream_failure env getClient ctx r c call e hc hmem hfail]
        rfl
      · rw [ListIssuesHandler_upstream_failure env getClient ctx r c call e hc hmem hfail]
        rfl
      · rw [GetMergeRequestHandler_upstream_failure env getClient ctx r c call e hc hmem hfail]
        rfl
      · rw [ListMergeRequestsHandler_upstream_failure env getClient ctx r c call e hc hmem hfail]
        rfl
      · rw [GetRepositoryHandler_upstream_failure env getClient ctx r c call e hc hmem hfail]
        rfl
      · rw [SearchProjectsHandler_upstream_failure env getClient ctx r c call e hc hmem hfail]
        rfl
      · rw [SearchMergeRequestsHandler_upstream_failure env getClient ctx r c call e hc hmem hfail]
        rfl
      · rw [SearchUsersHandler_upstream_failure env getClient ctx r c call e hc hmem hfail]
        rfl
    · intro res err hout
      rcases htool with h | h | h | h | h | h | h | h <;> subst h
      · exact GetIssueHandler_never_soft env getClient ctx r res err hout
      · exact ListIssuesHandler_never_soft env getClient ctx r res err hout
      · exact GetMergeRequestHandler_never_soft env getClient ctx r res err hout
      · exact ListMergeRequestsHandler_never_soft env getClient ctx r res err hout
      · exact GetRepositoryHandler_never_soft env getClient ctx r res err hout
      · exact SearchProjectsHandler_never_soft env getClient ctx r res err hout
      · exact SearchMergeRequestsHandler_never_soft env getClient ctx r res err hout
      · exact SearchUsersHandler_never_soft env getClient ctx r res err hout
  · intro htool
    subst htool
    refine ⟨?_, ?_, ?_⟩
    · intro err hc
      rw [ToolId.handler_client_failed .search_issues env getClient ctx r err hc]
      rfl
    · intro c e hc he
      rw [ToolId.handler_extraction_failure .search_issues env getClient ctx r c e hc he]
      rfl
    · intro c call e hc hmem hfail
      rw [SearchIssuesHandler_upstream_failure env getClient ctx r c call e hc hmem hfail]
      rfl
  · intro htool
    simp only [List.mem_cons, List.mem_singleton, List.not_mem_nil, or_false] at htool
    refine ⟨?_, ?_, ?_, ?_⟩
    · intro err hc
      rw [ToolId.handler_client_failed tool env getClient ctx r err hc]
      rcases htool with h | h <;> subst h <;> rfl
    · intro c e hc he
      rw [ToolId.handler_extraction_failure tool env getClient ctx r c e hc he]
      rcases htool with h | h <;> subst h <;> rfl
    · intro c call e hc hmem hfail
      rcases htool with h | h <;> subst h
      · rw [ListRepositoriesHandler_upstream_failure env getClient ctx r c call e hc hmem hfail]
        rfl
      · rw [SearchRepositoriesHandler_upstream_failure env getClient ctx r c call e hc hmem
          hfail]
        rfl
    · intro hnp
      rcases htool with h | h <;> subst h
      · exact ListRepositoriesHandler_never_hard env getClient ctx r hnp
      · exact SearchRepositoriesHandler_never_hard env getClient ctx r hnp

/-- C21, amended, at a concrete request: `get_issue` without arguments fails hard. -/
theorem hard_propagation_split_witness :
    ToolId.get_issue.handler sampleEnv (fun _ => .client sampleClient) ⟨⟩ ⟨"", []⟩
      = ⟨[.getClient], .ret none (some "missing required parameter: namespace")⟩ :=
  ((hard_propagation_split .get_issue sampleEnv (fun _ => .client sampleClient) ⟨⟩
    ⟨"", []⟩).1 (by decide)).2.1 sampleClient "missing required parameter: namespace" rfl
    (by decide)

end Gitlab
